import Mathlib

/-! The ARM exception unit and the Thumb interpreter of ndsemu.

A shallow embedding of `arm/cpu.go` (register file, SPSR selection, exception
entry) and of the Thumb handlers and disassembly functions emitted by
`arm/genthumb/genthumb.go`.

Conventions.

* A `reg` / `uint32` is a `Nat`; every arithmetic result is reduced `% 2 ^ 32`
  where Go would wrap.
* A Go array (`[16]reg`, `[2]reg`, `[5]reg`) is an index function `Nat → Nat`;
  the code only ever uses indices inside the array bounds.
* A Go `log.Fatalf` / `panic` / out-of-range index is `none`.
* A handler emitted by the generator is embedded as a function of the
  generator argument (`gop`, the opcode the handler was generated for:
  `oph <<< 8`, or for an ALU handler `(0x10 <<< 10) ||| (opcode <<< 6)`) and of
  the run-time opcode `op`.
-/

namespace NdsEmu

/-! ## Words and bit operations -/

/-- Go `x &^ y` (bit clear): the bits of `x` that are not in `y`. -/
def bitClear (x y : Nat) : Nat := x ^^^ (x &&& y)

/-- Update of one slot of an array. -/
def upd (a : Nat → Nat) (i v : Nat) : Nat → Nat := fun j => if j = i then v else a j

/-- Conversion `uint32(x)`. -/
def u32 (x : Nat) : Nat := x % 2 ^ 32

/-! ## CPU modes and the CPSR -/

/-- Modelled from the spec: the `CpuMode` constants, declared elsewhere in
package `arm`; values from the CPSR layout `User=0x10, FIQ=0x11, IRQ=0x12,
Supervisor=0x13, Abort=0x17, Undefined=0x1B, System=0x1F`. -/
def CpuModeUser : Nat := 0x10

/-- Modelled from the spec: see `CpuModeUser`. -/
def CpuModeFiq : Nat := 0x11

/-- Modelled from the spec: see `CpuModeUser`. -/
def CpuModeIrq : Nat := 0x12

/-- Modelled from the spec: see `CpuModeUser`. -/
def CpuModeSupervisor : Nat := 0x13

/-- Modelled from the spec: see `CpuModeUser`. -/
def CpuModeAbort : Nat := 0x17

/-- Modelled from the spec: see `CpuModeUser`. -/
def CpuModeUndefined : Nat := 0x1B

/-- Modelled from the spec: see `CpuModeUser`. -/
def CpuModeSystem : Nat := 0x1F

namespace regCpsr

/-- Modelled from the spec: the `regCpsr` type is declared elsewhere in
package `arm`. Its value `r` is a word with bits [4:0] mode, bit 5 `T`, bit 6
`F`, bit 7 `I`, bits 31..28 `N`, `Z`, `C`, `V`. This is the read of one bit. -/
def bit (r n : Nat) : Bool := r.testBit n

/-- Modelled from the spec: write of one bit of the CPSR word
(`r |= 1<<n` or `r &^= 1<<n`). -/
def setBit (r n : Nat) (v : Bool) : Nat :=
  if v then r ||| (1 <<< n) else bitClear r (1 <<< n)

/-- Modelled from the spec: accessor `N()`, bit 31. -/
def N (r : Nat) : Bool := bit r 31

/-- Modelled from the spec: accessor `Z()`, bit 30. -/
def Z (r : Nat) : Bool := bit r 30

/-- Modelled from the spec: accessor `C()`, bit 29. -/
def C (r : Nat) : Bool := bit r 29

/-- Modelled from the spec: accessor `V()`, bit 28. -/
def V (r : Nat) : Bool := bit r 28

/-- Modelled from the spec: accessor `I()`, bit 7 (IRQ mask). -/
def I (r : Nat) : Bool := bit r 7

/-- Modelled from the spec: accessor `F()`, bit 6 (FIQ mask). -/
def F (r : Nat) : Bool := bit r 6

/-- Modelled from the spec: accessor `T()`, bit 5 (Thumb state). -/
def T (r : Nat) : Bool := bit r 5

/-- Modelled from the spec: `GetMode()`, bits [4:0]. -/
def GetMode (r : Nat) : Nat := r &&& 0x1F

/-- Modelled from the spec: `SetT(v)`. -/
def SetT (r : Nat) (v : Bool) : Nat := setBit r 5 v

/-- Modelled from the spec: `SetF(v)`. -/
def SetF (r : Nat) (v : Bool) : Nat := setBit r 6 v

/-- Modelled from the spec: `SetI(v)`. -/
def SetI (r : Nat) (v : Bool) : Nat := setBit r 7 v

/-- Modelled from the spec: `SetC(v)`. -/
def SetC (r : Nat) (v : Bool) : Nat := setBit r 29 v

/-- Modelled from the spec: `SetNZ(v)`, `N = v>>31`, `Z = v==0`. -/
def SetNZ (r : Nat) (v : Nat) : Nat :=
  setBit (setBit r 31 (decide (v >>> 31 ≠ 0))) 30 (decide (v = 0))

/-- Modelled from the spec: `SetVAdd(a,b,r)`, `V := ((a ^ r) & (b ^ r)) >> 31`. -/
def SetVAdd (r : Nat) (a b res : Nat) : Nat :=
  setBit r 28 (decide (((a ^^^ res) &&& (b ^^^ res)) >>> 31 ≠ 0))

/-- Modelled from the spec: `SetVSub(a,b,r)`, `V := ((a ^ b) & (a ^ r)) >> 31`. -/
def SetVSub (r : Nat) (a b res : Nat) : Nat :=
  setBit r 28 (decide (((a ^^^ b) &&& (a ^^^ res)) >>> 31 ≠ 0))

end regCpsr

/-! ## The CPU state (`type Cpu struct`) -/

/-- Modelled from the spec: the CP15 handle, declared elsewhere in package
`arm`. The only thing the core asks it is `exception_vector()`, which answers
`0x00000000` or `0xFFFF0000` (high vectors). -/
structure Cp15 where
  highVectors : Bool

/-- Modelled from the spec: `Cp15.ExceptionVector()`. -/
def Cp15.ExceptionVector (c : Cp15) : Nat :=
  if c.highVectors then 0xFFFF0000 else 0x00000000

/-- Go constant `ARMv4 Arch = 4`. -/
def ARMv4 : Nat := 4

/-- Go constant `ARMv5 Arch = 5`. -/
def ARMv5 : Nat := 5

/-- Go constant `LineFiq Line = 1 << iota`. -/
def LineFiq : Nat := 1

/-- Go constant `LineIrq`. -/
def LineIrq : Nat := 2

/-- Go constant `LineHalt`. -/
def LineHalt : Nat := 4

/-- The `Cpu` struct. `bus` is the memory behind the `emu.Bus` handle, as the
word read at each address; `cp15` is `none` for a nil pointer. The `cops`
table is left out: neither `cpu.go` nor the Thumb handlers read it. -/
structure Cpu where
  Regs : Nat → Nat
  Cpsr : Nat
  Clock : Int
  UsrBank : Nat → Nat
  FiqBank : Nat → Nat
  SvcBank : Nat → Nat
  AbtBank : Nat → Nat
  IrqBank : Nat → Nat
  UndBank : Nat → Nat
  SpsrBank : Nat → Nat
  UsrBank2 : Nat → Nat
  FiqBank2 : Nat → Nat
  arch : Nat
  bus : Nat → Nat
  pc : Nat
  cp15 : Option Cp15
  lines : Nat
  prevpc : Nat
  memCycles : Int
  DebugTrace : Int

/-- The six two-entry register banks a `*reg` returned by `RegF14ForMode`
can point into. -/
inductive Bank where
  | Usr | Fiq | Svc | Abt | Irq | Und
  deriving DecidableEq, Repr

/-- Read of a two-entry bank. -/
def Cpu.getBank (cpu : Cpu) : Bank → Nat → Nat
  | .Usr => cpu.UsrBank
  | .Fiq => cpu.FiqBank
  | .Svc => cpu.SvcBank
  | .Abt => cpu.AbtBank
  | .Irq => cpu.IrqBank
  | .Und => cpu.UndBank

/-- Write of slot `i` of a two-entry bank. -/
def Cpu.setBank (cpu : Cpu) (b : Bank) (i v : Nat) : Cpu :=
  match b with
  | .Usr => { cpu with UsrBank := upd cpu.UsrBank i v }
  | .Fiq => { cpu with FiqBank := upd cpu.FiqBank i v }
  | .Svc => { cpu with SvcBank := upd cpu.SvcBank i v }
  | .Abt => { cpu with AbtBank := upd cpu.AbtBank i v }
  | .Irq => { cpu with IrqBank := upd cpu.IrqBank i v }
  | .Und => { cpu with UndBank := upd cpu.UndBank i v }

/-- Method `Cpu.RegSpsrForMode`: the index of the slot of `SpsrBank` the returned
pointer designates, `none` where the function is fatal. -/
def RegSpsrForMode (mode : Nat) : Option Nat :=
  if mode = CpuModeUser ∨ mode = CpuModeSystem then none
  else if mode = CpuModeFiq then some 0
  else if mode = CpuModeSupervisor then some 1
  else if mode = CpuModeAbort then some 2
  else if mode = CpuModeIrq then some 3
  else if mode = CpuModeUndefined then some 4
  else none

/-- Method `Cpu.RegF14ForMode`: the bank whose slot 1 the returned pointer
designates, `none` where the function is fatal. -/
def RegF14ForMode (mode : Nat) : Option Bank :=
  if mode = CpuModeUser ∨ mode = CpuModeSystem then some .Usr
  else if mode = CpuModeFiq then some .Fiq
  else if mode = CpuModeSupervisor then some .Svc
  else if mode = CpuModeAbort then some .Abt
  else if mode = CpuModeIrq then some .Irq
  else if mode = CpuModeUndefined then some .Und
  else none

/-- Modelled from the spec: the saving half of `swap_mode`, declared elsewhere
in package `arm`: "saves R13/R14 into the outgoing-mode bank". A mode value
that has no bank saves nothing. -/
def saveBank (mode : Nat) (cpu : Cpu) : Cpu :=
  match RegF14ForMode mode with
  | some b => (cpu.setBank b 0 (cpu.Regs 13)).setBank b 1 (cpu.Regs 14)
  | none => cpu

/-- Modelled from the spec: the loading half of `swap_mode`: "loads new-mode
banks into the visible slots". A mode value that has no bank loads nothing. -/
def loadBank (mode : Nat) (cpu : Cpu) : Cpu :=
  match RegF14ForMode mode with
  | some b =>
    { cpu with Regs := upd (upd cpu.Regs 13 (cpu.getBank b 0)) 14 (cpu.getBank b 1) }
  | none => cpu

/-- Modelled from the spec: the R8..R12 part of `swap_mode`, done only "if
crossing an FIQ boundary": the visible R8..R12 go to the five-slot bank of
the side that is left (`FiqBank2` when leaving FIQ, `UsrBank2` otherwise) and
are reloaded from the bank of the side that is entered. -/
def swapFiqRegs (oldmode mode : Nat) (cpu : Cpu) : Cpu :=
  if oldmode = CpuModeFiq ∧ mode ≠ CpuModeFiq then
    { cpu with
      FiqBank2 := fun i => if i < 5 then cpu.Regs (8 + i) else cpu.FiqBank2 i
      Regs := fun j => if 8 ≤ j ∧ j < 13 then cpu.UsrBank2 (j - 8) else cpu.Regs j }
  else if oldmode ≠ CpuModeFiq ∧ mode = CpuModeFiq then
    { cpu with
      UsrBank2 := fun i => if i < 5 then cpu.Regs (8 + i) else cpu.UsrBank2 i
      Regs := fun j => if 8 ≤ j ∧ j < 13 then cpu.FiqBank2 (j - 8) else cpu.Regs j }
  else cpu

/-- Modelled from the spec: `regCpsr.SetWithMask(val, mask, cpu)`, declared
elsewhere in package `arm`. The CPSR bits selected by `mask` are replaced by
those of `val`; "writing mode `M` swaps the currently-visible R13/R14 (and,
across FIQ boundaries, R8–R12) with the saved copies for the new mode, saving
the outgoing values in the old-mode bank", atomically with the write. -/
def SetWithMask (val mask : Nat) (cpu : Cpu) : Cpu :=
  let oldmode := regCpsr.GetMode cpu.Cpsr
  let r := bitClear cpu.Cpsr mask ||| (val &&& mask)
  let mode := regCpsr.GetMode r
  let cpu1 := { cpu with Cpsr := r }
  swapFiqRegs oldmode mode (loadBank mode (saveBank oldmode cpu1))

/-! ## Exception entry (`Cpu.Exception`) -/

/-- Go constant `ExceptionReset`. -/
def ExceptionReset : Nat := 0

/-- Go constant `ExceptionUndefined`. -/
def ExceptionUndefined : Nat := 1

/-- Go constant `ExceptionSwi`. -/
def ExceptionSwi : Nat := 2

/-- Go constant `ExceptionPrefetchAbort`. -/
def ExceptionPrefetchAbort : Nat := 3

/-- Go constant `ExceptionDataAbort`. -/
def ExceptionDataAbort : Nat := 4

/-- Go constant `ExceptionAddressOverflow`. -/
def ExceptionAddressOverflow : Nat := 5

/-- Go constant `ExceptionIrq`. -/
def ExceptionIrq : Nat := 6

/-- Go constant `ExceptionFiq`. -/
def ExceptionFiq : Nat := 7

/-- Table `var excMode = [8]CpuMode{...}`: CPU mode to enter when the exception is
raised. -/
def excMode : List Nat :=
  [CpuModeSupervisor, CpuModeUndefined, CpuModeSupervisor, CpuModeAbort,
   CpuModeAbort, CpuModeSupervisor, CpuModeIrq, CpuModeFiq]

/-- Go constant `var excPcOffsetArm = [8]uint32{...}`. -/
def excPcOffsetArm : List Nat := [0, 0, 0, 0, 4, 0, 0, 0]

/-- Go constant `var excPcOffsetThumb = [8]uint32{...}`. -/
def excPcOffsetThumb : List Nat := [0, 0, 0, 2, 4, 0, 2, 2]

/-- Modelled from the spec: the effect of one `cpu.opRead16` on the CPU, the
helper being declared elsewhere in package `arm`: the clock advances by the
cost of one memory access. `Exception` discards the value read. -/
def opRead16Effect (cpu : Cpu) : Cpu := { cpu with Clock := cpu.Clock + cpu.memCycles }

/-- Method `Cpu.Exception(exc)`. `none` stands for a Go panic (table index out of
range) or a fatal log. The two log calls write nothing to the CPU; the read
that feeds the SWI message costs one memory access. -/
def Exception (exc : Nat) (cpu : Cpu) : Option Cpu :=
  match excMode[exc]?, excPcOffsetThumb[exc]?, excPcOffsetArm[exc]? with
  | some newmode, some offThumb, some offArm =>
    if exc = ExceptionFiq ∧ regCpsr.F cpu.Cpsr = true then some cpu
    else if exc = ExceptionIrq ∧ regCpsr.I cpu.Cpsr = true then some cpu
    else
      let pc := if regCpsr.T cpu.Cpsr = true then u32 (cpu.pc + offThumb)
                else u32 (cpu.pc + offArm)
      match RegSpsrForMode newmode, RegF14ForMode newmode with
      | some slot, some bank =>
        let cpu1 := { cpu with SpsrBank := upd cpu.SpsrBank slot cpu.Cpsr }
        let cpu2 := cpu1.setBank bank 1 pc
        let cpu3 := { cpu2 with Cpsr := regCpsr.SetT cpu2.Cpsr false }
        let cpu4 := SetWithMask (u32 newmode) 0x1F cpu3
        let cpu5 := { cpu4 with Cpsr := regCpsr.SetI cpu4.Cpsr true }
        let cpu6 :=
          if exc = ExceptionReset ∨ exc = ExceptionFiq then
            { cpu5 with Cpsr := regCpsr.SetF cpu5.Cpsr true }
          else cpu5
        let base :=
          match cpu6.cp15 with
          | some c => u32 c.ExceptionVector
          | none => 0x00000000
        let cpu7 := { cpu6 with Regs := upd cpu6.Regs 15 (u32 (base + u32 (exc * 4))) }
        let cpu8 := if exc = ExceptionSwi then opRead16Effect cpu7 else cpu7
        some { cpu8 with pc := cpu8.Regs 15, lines := bitClear cpu8.lines LineHalt }
      | _, _ => none
  | _, _, _ => none

/-- A CPU fresh from `NewCpu` (CPSR `0x13`), here in Thumb state with the FIQ
and IRQ masks set, fetching at `0x3000`. -/
def cpuMasked : Cpu where
  Regs := fun _ => 0
  Cpsr := 0xF3
  Clock := 0
  UsrBank := fun _ => 0
  FiqBank := fun _ => 0
  SvcBank := fun _ => 0
  AbtBank := fun _ => 0
  IrqBank := fun _ => 0
  UndBank := fun _ => 0
  SpsrBank := fun _ => 0
  UsrBank2 := fun _ => 0
  FiqBank2 := fun _ => 0
  arch := ARMv5
  bus := fun _ => 0
  pc := 0x3000
  cp15 := none
  lines := LineHalt
  prevpc := 0
  memCycles := 1
  DebugTrace := 0

/-- The CPU of the spec's exception scenario: User mode, Thumb state
(CPSR `0x30`), fetching at `0x3000`, no CP15 attached. -/
def cpuUser : Cpu := { cpuMasked with Cpsr := 0x30, lines := 0 }

/-- A CPU already in Supervisor mode, Thumb state (CPSR `0x33`), whose visible
R14 holds `0x1234`, fetching at `0x3000`. -/
def cpuSvc : Cpu :=
  { cpuMasked with Cpsr := 0x33, lines := 0, Regs := fun i => if i = 14 then 0x1234 else 0 }

/-- The spec's table of target modes: `Reset→Svc, Undef→Und, SWI→Svc,
PrefAbt→Abt, DataAbt→Abt, AddrOvf→Svc, IRQ→Irq, FIQ→Fiq`. -/
def specTargetMode (exc : Nat) : Nat :=
  if exc = ExceptionReset ∨ exc = ExceptionSwi ∨ exc = ExceptionAddressOverflow then
    CpuModeSupervisor
  else if exc = ExceptionUndefined then CpuModeUndefined
  else if exc = ExceptionPrefetchAbort ∨ exc = ExceptionDataAbort then CpuModeAbort
  else if exc = ExceptionIrq then CpuModeIrq
  else CpuModeFiq

/-- The spec's offset table of the return address: ARM state
`0,0,0,0,4,0,0,0`, Thumb state `0,0,0,2,4,0,2,2`. -/
def specPcOffset (thumb : Bool) (exc : Nat) : Nat :=
  if thumb then [0, 0, 0, 2, 4, 0, 2, 2].getD exc 0 else [0, 0, 0, 0, 4, 0, 0, 0].getD exc 0

/-- The spec's vector base: "`exception_vector()` (from CP15 if attached,
else 0)". -/
def specVectorBase (cpu : Cpu) : Nat :=
  match cpu.cp15 with
  | some c => c.ExceptionVector
  | none => 0

/-! ## The Thumb decoder (`Generator.WriteOp`) -/

/-- The eighteen instruction formats the switch of `WriteOp` tells apart, one
per `case`, named after the comment of the case. -/
inductive Format where
  | F1 | F2 | F3 | F4 | F5 | F6 | F7F8 | F9 | F10 | F11 | F12 | F13 | F14 | F15 | F16 | F18
  | F19h1 | F19h2
  deriving DecidableEq, Repr

/-- The cases of the switch of `WriteOp`, in source order. -/
def Format.all : List Format :=
  [.F1, .F2, .F3, .F4, .F5, .F6, .F7F8, .F9, .F10, .F11, .F12, .F13, .F14, .F15, .F16, .F18,
   .F19h1, .F19h2]

/-- The condition of each `case` of the switch of `WriteOp`, on `oph = op >> 8`. -/
def formatCond (oph : Nat) : Format → Bool
  | .F1 => oph >>> 5 == 0x0 && (oph >>> 3) &&& 3 != 3
  | .F2 => oph >>> 5 == 0x0 && (oph >>> 3) &&& 3 == 3
  | .F3 => oph >>> 5 == 0x1
  | .F4 => oph >>> 2 == 0x10
  | .F5 => oph >>> 2 == 0x11
  | .F6 => oph >>> 3 == 0x9
  | .F7F8 => oph >>> 4 == 0x5
  | .F9 => oph >>> 5 == 0x3
  | .F10 => oph >>> 4 == 0x8
  | .F11 => oph >>> 4 == 0x9
  | .F12 => oph >>> 4 == 0xA
  | .F13 => oph >>> 4 == 0xB && oph &&& 0xF == 0
  | .F14 => oph >>> 4 == 0xB && oph &&& 6 == 4
  | .F15 => oph >>> 4 == 0xC
  | .F16 => oph >>> 4 == 0xD
  | .F18 => oph >>> 3 == 0x1C
  | .F19h1 => oph >>> 3 == 0x1E
  | .F19h2 => oph >>> 3 == 0x1F || oph >>> 3 == 0x1D

/-- The switch of `Generator.WriteOp(op)`: the format whose writer is called for
the generator argument `gop`, that of the first case whose condition holds;
`none` is the `default` case, which emits the invalid-opcode handler. -/
def WriteOp (gop : Nat) : Option Format :=
  let oph := gop >>> 8
  Format.all.find? (formatCond oph)

/-- Match of a bit pattern of the spec's table, such as `1011?10?`, most
significant bit first, against a byte: `0` and `1` must agree with the bit,
any other character stands for either. -/
def matchBits : List Char → Nat → Bool
  | [], _ => true
  | c :: cs, oph =>
    (if c = '0' then !oph.testBit cs.length
     else if c = '1' then oph.testBit cs.length
     else true) && matchBits cs oph

/-- The spec's pattern table of the decoder. `000xx???` with `xx ≠ 11` is
written as its three instances. -/
def specPattern : Format → List String
  | .F1 => ["00000???", "00001???", "00010???"]
  | .F2 => ["00011???"]
  | .F3 => ["001?????"]
  | .F4 => ["010000??"]
  | .F5 => ["010001??"]
  | .F6 => ["01001???"]
  | .F7F8 => ["0101????"]
  | .F9 => ["011?????"]
  | .F10 => ["1000????"]
  | .F11 => ["1001????"]
  | .F12 => ["1010????"]
  | .F13 => ["10110000"]
  | .F14 => ["1011?10?"]
  | .F15 => ["1100????"]
  | .F16 => ["1101????"]
  | .F18 => ["11100???"]
  | .F19h1 => ["11110???"]
  | .F19h2 => ["11111???", "11101???"]

/-- Whether a high byte matches a pattern of the spec's table for the format. -/
def specMatches (f : Format) (oph : Nat) : Bool :=
  (specPattern f).any (fun p => matchBits p.toList oph)

/-- The high bytes the claim lists as routed to the invalid-opcode handler. -/
def specInvalidHighBytes : List Nat :=
  [0xB1, 0xB2, 0xB3, 0xB6, 0xB7, 0xB8, 0xB9, 0xBA, 0xBB, 0xBE, 0xBF]

/-! ## Thumb handlers: F1 and F2 -/

/-- Conversion `int32(x)` of a `uint32`: the word read as a signed number. -/
def toInt32 (x : Nat) : Int := if x < 2 ^ 31 then (x : Int) else (x : Int) - 2 ^ 32

/-- Conversion `uint32(i)` of an `int32`. -/
def ofInt32 (i : Int) : Nat := (i % 2 ^ 32).toNat

/-- The handler emitted by `Generator.writeOpF1Shift(gop)`, run on `op`:
shift by immediate, LSL / LSR / ASR by generator-time `opcode`. `none` is the
generator's `panic("unreachable")`. The switch computes the carry and `res`;
`SetNZ` and the register write follow it. -/
def writeOpF1Shift (gop op : Nat) (cpu : Cpu) : Option Cpu :=
  let opcode := (gop >>> 11) &&& 3
  let rsx := (op >>> 3) &&& 7
  let rdx := op &&& 7
  let offset := (op >>> 6) &&& 0x1F
  let rs := u32 (cpu.Regs rsx)
  let body : Option (Cpu × Nat) :=
    if opcode = 0 then
      let cpu1 :=
        if offset ≠ 0 then
          { cpu with
            Cpsr := regCpsr.SetC cpu.Cpsr (decide (rs &&& u32 (1 <<< (32 - offset)) ≠ 0)) }
        else cpu
      some (cpu1, u32 (rs <<< offset))
    else if opcode = 1 then
      let offset := if offset = 0 then 32 else offset
      let cpu1 :=
        { cpu with
          Cpsr := regCpsr.SetC cpu.Cpsr (decide (rs &&& u32 (1 <<< (offset - 1)) ≠ 0)) }
      some (cpu1, u32 (rs >>> offset))
    else if opcode = 2 then
      let offset := if offset = 0 then 32 else offset
      let cpu1 :=
        { cpu with
          Cpsr := regCpsr.SetC cpu.Cpsr (decide (rs &&& u32 (1 <<< (offset - 1)) ≠ 0)) }
      some (cpu1, ofInt32 (toInt32 rs >>> offset))
    else none
  match body with
  | some (cpu1, res) =>
    let cpu2 := { cpu1 with Cpsr := regCpsr.SetNZ cpu1.Cpsr res }
    some { cpu2 with Regs := upd cpu2.Regs rdx res }
  | none => none

/-- The handler emitted by `Generator.writeOpF2Add(gop)`, run on `op`: ADD /
SUB of a register or a 3-bit immediate, by generator-time `opcode`. -/
def writeOpF2Add (gop op : Nat) (cpu : Cpu) : Cpu :=
  let opcode := (gop >>> 9) &&& 3
  let imm := opcode &&& 2 != 0
  let rsx := (op >>> 3) &&& 7
  let rdx := op &&& 7
  let rs := u32 (cpu.Regs rsx)
  let val :=
    if imm then u32 ((op >>> 6) &&& 7)
    else
      let rnx := (op >>> 6) &&& 7
      u32 (cpu.Regs rnx)
  if opcode = 0 ∨ opcode = 2 then
    let res := u32 (rs + val)
    let cpu1 := { cpu with Cpsr := regCpsr.SetC cpu.Cpsr (decide (res < rs)) }
    let cpu2 := { cpu1 with Cpsr := regCpsr.SetVAdd cpu1.Cpsr rs val res }
    let cpu3 := { cpu2 with Cpsr := regCpsr.SetNZ cpu2.Cpsr res }
    { cpu3 with Regs := upd cpu3.Regs rdx res }
  else
    let res := u32 (rs + 2 ^ 32 - val)
    let cpu1 := { cpu with Cpsr := regCpsr.SetC cpu.Cpsr (decide (res ≤ rs)) }
    let cpu2 := { cpu1 with Cpsr := regCpsr.SetVSub cpu1.Cpsr rs val res }
    let cpu3 := { cpu2 with Cpsr := regCpsr.SetNZ cpu2.Cpsr res }
    { cpu3 with Regs := upd cpu3.Regs rdx res }

/-- The reference barrel shifter of the F1 claim, on a 32-bit `rs`, a 5-bit
offset `k` and the incoming carry `c`; the result and the carry out. LSL
(`opcode` 0) by 0 keeps word and carry, by `k` in 1..31 gives `rs*2^k mod 2^32`
and bit `32-k`; LSR (1) and ASR (2) read `k = 0` as 32, give `floor(rs/2^k)`,
of `rs` read as signed for ASR, and bit `k-1`. -/
def specBarrelShifter (opcode k rs : Nat) (c : Bool) : Nat × Bool :=
  if opcode = 0 then
    if k = 0 then (rs, c) else (rs * 2 ^ k % 2 ^ 32, rs.testBit (32 - k))
  else
    let k := if k = 0 then 32 else k
    if opcode = 1 then (rs / 2 ^ k, rs.testBit (k - 1))
    else (((toInt32 rs / 2 ^ k) % 2 ^ 32).toNat, rs.testBit (k - 1))

/-- A CPU with cleared CPSR flags (CPSR `0x33`) and the given R0 and R1. -/
def cpuR0R1 (r0 r1 : Nat) : Cpu :=
  { cpuMasked with
    Cpsr := 0x33, lines := 0, Regs := fun i => if i = 0 then r0 else if i = 1 then r1 else 0 }

/-! ## Bus accesses -/

/-- Modelled from the spec: the word a `read32(addr)` of the bus returns. -/
def read32 (bus : Nat → Nat) (addr : Nat) : Nat := u32 (bus addr)

/-- Modelled from the spec: `cpu.opRead32(addr)`, declared elsewhere in
package `arm`: the word read from the bus, and the CPU after the access, its
clock advanced by the cost of one memory access. -/
def opRead32 (cpu : Cpu) (addr : Nat) : Nat × Cpu :=
  (read32 cpu.bus addr, { cpu with Clock := cpu.Clock + cpu.memCycles })

/-- Modelled from the spec: `cpu.opWrite32(addr, v)`, declared elsewhere in
package `arm`: the bus holds `v` at `addr` afterwards and the clock advances
by the cost of one memory access. -/
def opWrite32 (cpu : Cpu) (addr v : Nat) : Cpu :=
  { cpu with bus := upd cpu.bus addr v, Clock := cpu.Clock + cpu.memCycles }

/-- Modelled from the spec: `cpu.InvalidOpThumb(op, msg)`, declared elsewhere
in package `arm`: "raises the `Undefined` exception after logging". -/
def InvalidOpThumb (cpu : Cpu) : Option Cpu := Exception ExceptionUndefined cpu

/-- Modelled from the spec: accessor `regCpsr.CB()`, the carry flag as a
`uint32`, 0 or 1. -/
def regCpsr.CB (r : Nat) : Nat := if regCpsr.C r = true then 1 else 0

/-- Go `x << n` on `uint32`: the bits shifted past bit 31 are lost, and a count
of 32 or more gives 0. -/
def shl32 (x n : Nat) : Nat := if n < 32 then u32 (x <<< n) else 0

/-- Go `x >> n` on `uint32`: a count of 32 or more gives 0. -/
def shr32 (x n : Nat) : Nat := if n < 32 then u32 x >>> n else 0

/-! ## Thumb handlers: F4, the register ALU -/

/-- The handler emitted by `Generator.WriteAluOp(gop)`, run on `op`: the
sixteen ALU operations by generator-time `opcode`. `none` is the generator's
panic on a `gop` outside format F4. The switch computes flags and `res` and
says whether the operation is a test; `SetNZ` and, unless a test, the register
write follow it. -/
def WriteAluOp (gop op : Nat) (cpu : Cpu) : Option Cpu :=
  if gop >>> 10 ≠ 0x10 then none
  else
    let opcode := (gop >>> 6) &&& 0xF
    let rsx := (op >>> 3) &&& 0x7
    let rs := u32 (cpu.Regs rsx)
    let rdx := op &&& 0x7
    let rd := u32 (cpu.Regs rdx)
    let setC := fun (b : Bool) => { cpu with Cpsr := regCpsr.SetC cpu.Cpsr b }
    let body : Option (Cpu × Nat × Bool) :=
      if opcode = 8 then some (cpu, rd &&& rs, true)
      else if opcode = 0 then some (cpu, rd &&& rs, false)
      else if opcode = 1 then some (cpu, rd ^^^ rs, false)
      else if opcode = 2 then
        let rot := rs &&& 0xFF
        let cpu1 :=
          if rot ≠ 0 then setC (decide (rd &&& shl32 1 (u32 (32 + 2 ^ 32 - rot)) ≠ 0)) else cpu
        some (cpu1, shl32 rd rot, false)
      else if opcode = 3 then
        let rot := rs &&& 0xFF
        let cpu1 := if rot ≠ 0 then setC (decide (rd &&& shl32 1 (rot - 1) ≠ 0)) else cpu
        some (cpu1, shr32 rd rot, false)
      else if opcode = 4 then
        let rot := rs &&& 0xFF
        let cpu1 := if rot ≠ 0 then setC (decide (rd &&& shl32 1 (rot - 1) ≠ 0)) else cpu
        some (cpu1, ofInt32 (toInt32 rd >>> rot), false)
      else if opcode = 5 then
        let cf := regCpsr.CB cpu.Cpsr
        let res := u32 (rd + rs)
        let cpu1 := setC (decide (res < rd))
        let cpu2 := { cpu1 with Cpsr := regCpsr.SetVAdd cpu1.Cpsr rd rs res }
        some (cpu2, u32 (res + cf), false)
      else if opcode = 6 then
        let cf := regCpsr.CB cpu.Cpsr
        let res := u32 (rd + 2 ^ 32 - rs)
        let cpu1 := setC (decide (res ≤ rd))
        let cpu2 := { cpu1 with Cpsr := regCpsr.SetVSub cpu1.Cpsr rd rs res }
        some (cpu2, u32 (res + u32 (cf + 2 ^ 32 - 1)), false)
      else if opcode = 7 then
        let rot := rs &&& 0xFF
        let cpu1 := if rot ≠ 0 then setC (decide (rd &&& shl32 1 (rot - 1) ≠ 0)) else cpu
        let rot := rs &&& 0x1F
        some (cpu1, shr32 rd rot ||| shl32 rd (32 - rot), false)
      else if opcode = 9 then
        let res := u32 (0 + 2 ^ 32 - rs)
        let cpu1 := setC true
        let cpu2 := { cpu1 with Cpsr := regCpsr.SetVSub cpu1.Cpsr 0 rs res }
        some (cpu2, res, false)
      else if opcode = 10 then
        let res := u32 (rd + 2 ^ 32 - rs)
        let cpu1 := setC (decide (res ≤ rd))
        let cpu2 := { cpu1 with Cpsr := regCpsr.SetVSub cpu1.Cpsr rd rs res }
        some (cpu2, res, true)
      else if opcode = 11 then
        let res := u32 (rd + rs)
        let cpu1 := setC (decide (res < rd))
        let cpu2 := { cpu1 with Cpsr := regCpsr.SetVAdd cpu1.Cpsr rd rs res }
        some (cpu2, res, true)
      else if opcode = 12 then some (cpu, rd ||| rs, false)
      else if opcode = 13 then
        let cpu1 := if cpu.arch ≤ ARMv4 then setC false else cpu
        some (cpu1, u32 (rd * rs), false)
      else if opcode = 14 then some (cpu, bitClear rd rs, false)
      else if opcode = 15 then some (cpu, 0xFFFFFFFF ^^^ rs, false)
      else none
    match body with
    | some (cpu1, res, test) =>
      let cpu2 := { cpu1 with Cpsr := regCpsr.SetNZ cpu1.Cpsr res }
      if test then some cpu2 else some { cpu2 with Regs := upd cpu2.Regs rdx res }
    | none => none

/-! ## Thumb handlers: F5, F6, F16, F18 -/

/-- The handler emitted by `Generator.writeOpF5HiReg(gop)`, run on `op`:
hi-register ADD / CMP / MOV and BX / BLX by generator-time `opcode`. `rs` is
read before any write. -/
def writeOpF5HiReg (gop op : Nat) (cpu : Cpu) : Cpu :=
  let opcode := (gop >>> 8) &&& 3
  let rdx := (op &&& 7) ||| ((op &&& 0x80) >>> 4)
  let rsx := (op >>> 3) &&& 0xF
  let rs := u32 (cpu.Regs rsx)
  if opcode = 0 then
    let rd := u32 (cpu.Regs rdx)
    let cpu1 := { cpu with Regs := upd cpu.Regs rdx (u32 (rd + rs)) }
    if rdx = 15 then { cpu1 with pc := bitClear (cpu1.Regs 15) 1 } else cpu1
  else if opcode = 1 then
    let rd := u32 (cpu.Regs rdx)
    let res := u32 (rd + 2 ^ 32 - rs)
    let cpu1 := { cpu with Cpsr := regCpsr.SetNZ cpu.Cpsr res }
    let cpu2 := { cpu1 with Cpsr := regCpsr.SetC cpu1.Cpsr (decide (res ≤ rd)) }
    { cpu2 with Cpsr := regCpsr.SetVSub cpu2.Cpsr rd rs res }
  else if opcode = 2 then
    let cpu1 := { cpu with Regs := upd cpu.Regs rdx rs }
    if rdx = 15 then { cpu1 with pc := bitClear rs 1 } else cpu1
  else
    let cpu1 :=
      if op &&& 0x80 ≠ 0 then { cpu with Regs := upd cpu.Regs 14 (u32 (cpu.Regs 15 + 1)) }
      else cpu
    let cpu2 := { cpu1 with pc := bitClear rs 1 }
    if rs &&& 1 = 0 then
      { cpu2 with Cpsr := regCpsr.SetT cpu2.Cpsr false, pc := bitClear cpu2.pc 3 }
    else cpu2

/-- The handler emitted by `Generator.writeOpF6LdrPc(gop)`, run on `op`:
`LDR Rd, [PC, #imm]`, `Rd` fixed at generation time. -/
def writeOpF6LdrPc (gop op : Nat) (cpu : Cpu) : Cpu :=
  let rdx := (gop >>> 8) &&& 7
  let pc := bitClear (u32 (cpu.Regs 15)) 2
  let pc := u32 (pc + u32 (((op &&& 0xFF) * 4) % 2 ^ 16))
  let (v, cpu1) := opRead32 cpu pc
  { cpu1 with Regs := upd cpu1.Regs rdx v }

/-- Conversion `int8(uint8(x))`: the low byte read as a signed number. -/
def toInt8 (x : Nat) : Int := if x % 2 ^ 8 < 2 ^ 7 then (x % 2 ^ 8 : Nat) else (x % 2 ^ 8 : Nat) - 2 ^ 8

/-- Conversion `int16(x)` of a `uint16`: the halfword read as a signed number. -/
def toInt16 (x : Nat) : Int :=
  if x % 2 ^ 16 < 2 ^ 15 then (x % 2 ^ 16 : Nat) else (x % 2 ^ 16 : Nat) - 2 ^ 16

/-- Table `var f16cond`: the test of each of the fourteen condition codes on
the CPSR flags; `none` outside the table. -/
def f16cond (opcode : Nat) (r : Nat) : Option Bool :=
  [ regCpsr.Z r,
    !regCpsr.Z r,
    regCpsr.C r,
    !regCpsr.C r,
    regCpsr.N r,
    !regCpsr.N r,
    regCpsr.V r,
    !regCpsr.V r,
    regCpsr.C r && !regCpsr.Z r,
    !regCpsr.C r || regCpsr.Z r,
    regCpsr.N r == regCpsr.V r,
    regCpsr.N r != regCpsr.V r,
    !regCpsr.Z r && regCpsr.N r == regCpsr.V r,
    regCpsr.Z r || regCpsr.N r != regCpsr.V r ][opcode]?

/-- The handler emitted by `Generator.writeOpF16BranchCond(gop)`, run on
`op`: conditional branch for condition codes 0..13, the invalid-opcode handler
for 14, the SWI exception for 15. `none` is a Go panic or fatal log. -/
def writeOpF16BranchCond (gop op : Nat) (cpu : Cpu) : Option Cpu :=
  let opcode := (gop >>> 8) &&& 0xF
  if opcode = 14 then InvalidOpThumb cpu
  else if opcode = 15 then Exception ExceptionSwi cpu
  else
    match f16cond opcode cpu.Cpsr with
    | some true =>
      let offset := toInt8 (op &&& 0xFF)
      let offset32 := offset * 2
      some { cpu with pc := u32 (cpu.Regs 15 + ofInt32 offset32) }
    | some false => some cpu
    | none => none

/-- The handler emitted by `Generator.writeOpF18Branch(gop)`, run on `op`:
unconditional branch, `pc = R15 + int32(int16(op<<5)>>4)`. -/
def writeOpF18Branch (op : Nat) (cpu : Cpu) : Cpu :=
  { cpu with pc := u32 (cpu.Regs 15 + ofInt32 (toInt16 ((op <<< 5) % 2 ^ 16) >>> (4 : Nat))) }

/-! ## Thumb handlers: F14 and F15, the block transfers -/

/-- Modelled from the spec: `popcount16(x)`, declared elsewhere in package
`arm`: the number of bits set in a 16-bit value. -/
def popcount16 (x : Nat) : Nat := (List.range 16).countP (fun i => x.testBit i)

/-- The code `Generator.writeOpF14PushPop` emits for index `i` of its loop,
run on `op`: one guarded transfer of the unrolled PUSH / POP. The state is
the CPU and the local `sp`; `none` is the panic of the architecture switch. -/
def writeOpF14PushPop.step (pop : Bool) (op : Nat) (st : Cpu × Nat) (i : Nat) :
    Option (Cpu × Nat) :=
  if (op >>> i) &&& 1 ≠ 0 then
    let regnum := if i = 8 then (if pop then 15 else 14) else i
    let r : Option Cpu :=
      if pop then
        if regnum = 15 then
          if st.1.arch = ARMv4 then
            let rd := opRead32 st.1 st.2
            some { rd.2 with pc := bitClear rd.1 1 }
          else if st.1.arch = ARMv5 then
            let rd := opRead32 st.1 st.2
            let pc := rd.1
            if pc &&& 1 = 0 then
              some { rd.2 with Cpsr := regCpsr.SetT rd.2.Cpsr false, pc := bitClear pc 3 }
            else some { rd.2 with pc := bitClear pc 1 }
          else none
        else
          let rd := opRead32 st.1 st.2
          some { rd.2 with Regs := upd rd.2.Regs regnum rd.1 }
      else some (opWrite32 st.1 st.2 (u32 (st.1.Regs regnum)))
    r.map (fun c => (c, u32 (st.2 + 4)))
  else some st

/-- The handler emitted by `Generator.writeOpF14PushPop(gop)`, run on `op`:
PUSH (with LR for bit 8) or POP (with PC for bit 8), by generator-time `pop`.
The nine guarded transfers run in index order. -/
def writeOpF14PushPop (gop op : Nat) (cpu : Cpu) : Option Cpu :=
  let pop : Bool := decide ((gop >>> 11) &&& 1 ≠ 0)
  let sp := u32 (cpu.Regs 13)
  let st0 : Cpu × Nat :=
    if pop then (cpu, sp)
    else
      let count := popcount16 (op &&& 0x1FF)
      let sp := u32 (sp + 2 ^ 32 - u32 (count * 4))
      ({ cpu with Regs := upd cpu.Regs 13 sp }, sp)
  match (List.range 9).foldlM (writeOpF14PushPop.step pop op) st0 with
  | some st => some (if pop then { st.1 with Regs := upd st.1.Regs 13 st.2 } else st.1)
  | none => none

/-- The code `Generator.writeOpF15LdmStm` emits for index `i` of its loop, run
on `op`: one guarded transfer of the unrolled LDM / STM. The state is the
CPU and the locals `ptr` and `wb`. -/
def writeOpF15LdmStm.step (load : Bool) (rbx op : Nat) (st : Cpu × Nat × Bool) (i : Nat) :
    Cpu × Nat × Bool :=
  if (op >>> i) &&& 1 ≠ 0 then
    if load then
      let rd := opRead32 st.1 st.2.1
      ({ rd.2 with Regs := upd rd.2.Regs i rd.1 }, u32 (st.2.1 + 4),
        if i = rbx then false else st.2.2)
    else (opWrite32 st.1 st.2.1 (u32 (st.1.Regs i)), u32 (st.2.1 + 4), st.2.2)
  else st

/-- The handler emitted by `Generator.writeOpF15LdmStm(gop)`, run on `op`:
LDM / STM with base `rbx` fixed at generation time. An STM that lists its
base goes to the invalid-opcode handler; an empty list is the hardware edge
case of the architecture switch (`none` is its panic); otherwise the eight
guarded transfers run in index order and the base is written back while `wb`
holds. -/
def writeOpF15LdmStm (gop op : Nat) (cpu : Cpu) : Option Cpu :=
  let load : Bool := decide ((gop >>> 11) &&& 1 ≠ 0)
  let rbx := (gop >>> 8) &&& 0x7
  if load = false ∧ op &&& (1 <<< rbx) ≠ 0 then InvalidOpThumb cpu
  else
    let ptr := u32 (cpu.Regs rbx)
    if op &&& 0xFF = 0 then
      let r : Option (Cpu × Nat) :=
        if cpu.arch = ARMv4 then
          let cpu1 :=
            if load then
              let rd := opRead32 cpu ptr
              { rd.2 with Regs := upd rd.2.Regs 15 rd.1 }
            else opWrite32 cpu ptr (u32 (cpu.Regs 15))
          some (cpu1, u32 (ptr + 0x40))
        else if cpu.arch = ARMv5 then some (cpu, u32 (ptr + 0x40))
        else none
      r.map (fun st => { st.1 with Regs := upd st.1.Regs rbx st.2 })
    else
      let st := (List.range 8).foldl (writeOpF15LdmStm.step load rbx op) (cpu, ptr, true)
      some (if st.2.2 then { st.1 with Regs := upd st.1.Regs rbx st.2.1 } else st.1)

/-! ## Reference notions of the claims on the Thumb handlers -/

/-- The second operand `val` of the handler emitted by
`Generator.writeOpF2Add(gop)`, as its `if imm` computes it. -/
def writeOpF2Add.val (gop op : Nat) (cpu : Cpu) : Nat :=
  let opcode := (gop >>> 9) &&& 3
  let imm := opcode &&& 2 != 0
  if imm then u32 ((op >>> 6) &&& 7)
  else
    let rnx := (op >>> 6) &&& 7
    u32 (cpu.Regs rnx)

/-- Two's-complement reading of the low `n` bits of `x`. -/
def specSignExtend (n x : Nat) : Int :=
  if x % 2 ^ n < 2 ^ (n - 1) then ((x % 2 ^ n : Nat) : Int) else ((x % 2 ^ n : Nat) : Int) - 2 ^ n

/-- The standard condition table of the F16 claim on the flags `N`, `Z`, `C`,
`V`: EQ, NE, HS, LO, MI, PL, VS, VC, HI, LS, GE, LT, GT, LE for codes 0..13;
no other code is a condition. -/
def specCond (c : Nat) (n z cf v : Bool) : Bool :=
  match c with
  | 0 => z
  | 1 => !z
  | 2 => cf
  | 3 => !cf
  | 4 => n
  | 5 => !n
  | 6 => v
  | 7 => !v
  | 8 => cf && !z
  | 9 => !cf || z
  | 10 => n == v
  | 11 => n != v
  | 12 => !z && n == v
  | 13 => z || n != v
  | _ => false

/-- The number of bits of `op` set below position `i`: the registers of a
transfer list with an index lower than `i`. -/
def bitsBelow (op i : Nat) : Nat := (List.range i).countP (fun j => op.testBit j)

/-- A CPU as `cpuR0R1` with the carry flag set (CPSR `0x20000033`). -/
def cpuR0R1C (r0 r1 : Nat) : Cpu := { cpuR0R1 r0 r1 with Cpsr := 0x20000033 }

/-- A CPU in Thumb state (CPSR `0x33`) of the given architecture, with the
given register file and bus. -/
def cpuWith (arch : Nat) (regs bus : Nat → Nat) : Cpu :=
  { cpuMasked with Cpsr := 0x33, lines := 0, arch := arch, Regs := regs, bus := bus }

/-- The CPU of the spec's PC-relative load scenario: the instruction at
`0x100`, so R15 = `0x104`, and the word `0xDEADBEEF` at address `0x108`. -/
def cpuLdrPc : Cpu :=
  cpuWith ARMv5 (fun i => if i = 15 then 0x104 else 0)
    (fun a => if a = 0x108 then 0xDEADBEEF else 0)

/-- The CPU of the spec's POP scenario: ARMv5, SP = `0x1000`, the word
`0x90000000` at address `0x1000`. -/
def cpuPop : Cpu :=
  cpuWith ARMv5 (fun i => if i = 13 then 0x1000 else 0)
    (fun a => if a = 0x1000 then 0x90000000 else 0)

/-- A CPU of the given architecture with R0 = `0x1000`, the words `0x2000` at
address `0x1000` and `0x2004` at `0x1004`, fetching at `0x3000`. -/
def cpuLdm (arch : Nat) : Cpu :=
  cpuWith arch (fun i => if i = 0 then 0x1000 else 0)
    (fun a => if a = 0x1000 then 0x2000 else if a = 0x1004 then 0x2004 else 0)

/-- A CPU with the `Z` flag set (CPSR `0x40000033`) and R15 = `0x104`. -/
def cpuZ : Cpu :=
  { cpuWith ARMv5 (fun i => if i = 15 then 0x104 else 0) (fun _ => 0) with Cpsr := 0x40000033 }

/-! ## Thumb handlers: F19, the long branch -/

/-- The handler emitted by `Generator.writeOpF19LongBranch1(gop)`, run on
`op`: the prefix of BL / BLX,
`Regs[14] = Regs[15] + reg(int32(uint32(op&0x7FF)<<23)>>11)`. -/
def writeOpF19LongBranch1 (op : Nat) (cpu : Cpu) : Cpu :=
  { cpu with
    Regs := upd cpu.Regs 14
      (u32 (cpu.Regs 15 + ofInt32 (toInt32 (u32 ((op &&& 0x7FF) <<< 23)) >>> (11 : Nat)))) }

/-- The handler emitted by `Generator.writeOpF19LongBranch2(gop)`, run on
`op`: the suffix of BL, or of BLX when bit 12 of `gop` is clear. -/
def writeOpF19LongBranch2 (gop op : Nat) (cpu : Cpu) : Cpu :=
  let blx : Bool := decide ((gop >>> 12) &&& 1 = 0)
  let cpu1 := { cpu with pc := u32 (cpu.Regs 14 + u32 (((op &&& 0x7FF) <<< 1) % 2 ^ 16)) }
  let cpu2 := { cpu1 with Regs := upd cpu1.Regs 14 (u32 (u32 (cpu1.Regs 15) + 2 ^ 32 - 2) ||| 1) }
  if blx then
    let cpu3 := { cpu2 with pc := bitClear cpu2.pc 2 }
    { cpu3 with Cpsr := regCpsr.SetT cpu3.Cpsr false }
  else cpu2

/-! ## The disassembler -/

/-- Table `var regnames` of the generator. -/
def regnames : List String :=
  ["r0", "r1", "r2", "r3", "r4", "r5", "r6", "r7",
   "r8", "r9", "r10", "r11", "r12", "sp", "lr", "pc"]

/-- The generator's table `regnames` as a naming of the registers. The
emitted disassembler indexes the table `RegNames` of package `arm`, which is
declared elsewhere and is a parameter of the disassembly functions below;
this is the naming they are evaluated with. -/
def regName (i : Nat) : String := regnames.getD i ""

/-- The text `strconv.FormatInt(int64(v), 16)` of an unsigned word. -/
def formatHex (v : Nat) : String := String.mk (Nat.toDigits 16 v)

/-- The mnemonic column `(opcode + "                ")[:10]` of
`Generator.writeDisasm`. -/
def mnemonic (opcode : String) : String :=
  String.mk ((opcode ++ "                ").toList.take 10)

/-- The index the code emitted by case `r` of `Generator.writeDisasm` for the
F5 BX / BLX operand `"r:(op&7) | (op&0x80)>>4"` passes to `RegNames`. -/
def disasmF5HiReg.arg0 (op : Nat) : Nat := (op &&& 7) ||| ((op &&& 0x80) >>> 4)

/-- The disassembly function emitted by `Generator.writeOpF5HiReg(gop)`, run on
`op`: two register operands for ADD / CMP / MOV, one for BX / BLX.
`RegNames` is the register-name table of package `arm`. -/
def disasmF5HiReg (RegNames : Nat → String) (gop op : Nat) : String :=
  let opcode := (gop >>> 8) &&& 3
  let two := fun (name : String) =>
    mnemonic name ++ RegNames ((op &&& 7) ||| ((op &&& 0x80) >>> 4)) ++ ", " ++
      RegNames ((op >>> 3) &&& 0xF)
  if opcode = 0 then two "add"
  else if opcode = 1 then two "cmp"
  else if opcode = 2 then two "mov"
  else if op &&& 0x80 ≠ 0 then mnemonic "blx" ++ RegNames (disasmF5HiReg.arg0 op)
  else mnemonic "bx" ++ RegNames (disasmF5HiReg.arg0 op)

/-- The address the code emitted by case `P` of `Generator.writeDisasm` for
the F6 operand `"P:(op & 0xFF)*4"` reads:
`arg1 := uint32((op & 0xFF)*4); arg1 += uint32((pc+2)&^2)`. -/
def disasmF6LdrPc.arg1 (op pc : Nat) : Nat :=
  u32 (u32 (((op &&& 0xFF) * 4) % 2 ^ 16) + u32 (bitClear (u32 (pc + 2)) 2))

/-- The disassembly function emitted by `Generator.writeOpF6LdrPc(gop)`, run on
`op` and the instruction address `pc`: the destination register and the word
read at the `P` operand's address. The CPU after the read is returned with
the text. `RegNames` is the register-name table of package `arm`. -/
def disasmF6LdrPc (RegNames : Nat → String) (op pc : Nat) (cpu : Cpu) : String × Cpu :=
  let arg0 := (op >>> 8) &&& 7
  let arg1 := disasmF6LdrPc.arg1 op pc
  let rd := opRead32 cpu arg1
  (mnemonic "ldr" ++ RegNames arg0 ++ ", " ++ "= 0x" ++ formatHex rd.1, rd.2)

/-- The effective address of the F6 executor, `writeOpF6LdrPc`, for the
instruction at address `a`: its local `pc` after
`pc := uint32(cpu.Regs[15]) &^ 2; pc += uint32((op & 0xFF)*4)` with
`Regs[15] = a + 4`. -/
def writeOpF6LdrPc.addr (op a : Nat) : Nat :=
  u32 (bitClear (u32 (u32 (a + 4))) 2 + u32 (((op &&& 0xFF) * 4) % 2 ^ 16))

/-- A CPU in Thumb state with the given R14 and R15 (CPSR `0x33`, ARMv5). -/
def cpuLrPc (lr r15 : Nat) : Cpu :=
  cpuWith ARMv5 (fun i => if i = 14 then lr else if i = 15 then r15 else 0) (fun _ => 0)

/-- A CPU in Thumb state with `R0 = 0x11`, `R1 = 0x22`, `R2 = 0x33` and
SP = `0x1000`, on a bus of zeros. -/
def cpuPushPop : Cpu :=
  cpuWith ARMv5
    (fun i => if i = 0 then 0x11 else if i = 1 then 0x22 else if i = 2 then 0x33
      else if i = 13 then 0x1000 else 0)
    (fun _ => 0)

/-! ## Lemmas on the CPSR word and the register banks -/

section Lemmas

open regCpsr

theorem bit_setBit (r n m : Nat) (v : Bool) :
    bit (setBit r n v) m = if m = n then v else bit r m := by
  unfold bit setBit bitClear
  by_cases h : m = n
  · subst h
    cases v <;>
      simp [Nat.testBit_or, Nat.testBit_xor, Nat.testBit_and, Nat.one_shiftLeft,
        Nat.testBit_two_pow]
  · have h2 : ¬ n = m := fun e => h e.symm
    cases v <;>
      simp [Nat.testBit_or, Nat.testBit_xor, Nat.testBit_and, Nat.one_shiftLeft,
        Nat.testBit_two_pow, h, h2]

theorem testBit_31 (i : Nat) : Nat.testBit 0x1F i = decide (i < 5) := by
  have := Nat.testBit_two_pow_sub_one 5 i
  simpa using this

theorem GetMode_setBit (r n : Nat) (v : Bool) (h : 5 ≤ n) :
    GetMode (setBit r n v) = GetMode r := by
  unfold GetMode
  apply Nat.eq_of_testBit_eq
  intro i
  have := bit_setBit r n i v
  unfold bit at this
  rw [Nat.testBit_and, Nat.testBit_and, this, testBit_31]
  by_cases hi : i < 5
  · have : i ≠ n := by omega
    simp [this]
  · simp [hi]

theorem GetMode_mask (r v : Nat) :
    GetMode (bitClear r 0x1F ||| (v &&& 0x1F)) = v &&& 0x1F := by
  unfold GetMode bitClear
  apply Nat.eq_of_testBit_eq
  intro i
  simp only [Nat.testBit_and, Nat.testBit_or, Nat.testBit_xor, testBit_31]
  by_cases hi : i < 5 <;> simp [hi]

theorem bit_mask (r v m : Nat) (h : 5 ≤ m) :
    bit (bitClear r 0x1F ||| (v &&& 0x1F)) m = bit r m := by
  unfold bit bitClear
  have hi : ¬ m < 5 := by omega
  simp [Nat.testBit_and, Nat.testBit_or, Nat.testBit_xor, testBit_31, hi]

theorem setBank_fields (cpu : Cpu) (b : Bank) (i v : Nat) :
    (cpu.setBank b i v).Regs = cpu.Regs ∧ (cpu.setBank b i v).Cpsr = cpu.Cpsr ∧
    (cpu.setBank b i v).SpsrBank = cpu.SpsrBank ∧ (cpu.setBank b i v).cp15 = cpu.cp15 ∧
    (cpu.setBank b i v).pc = cpu.pc ∧ (cpu.setBank b i v).lines = cpu.lines := by
  cases b <;> simp [Cpu.setBank]

theorem getBank_setBank (cpu : Cpu) (b c : Bank) (i v : Nat) :
    (cpu.setBank b i v).getBank c = if c = b then upd (cpu.getBank b) i v else cpu.getBank c := by
  cases b <;> cases c <;> simp [Cpu.setBank, Cpu.getBank]

theorem SetWithMask_fields (val mask : Nat) (cpu : Cpu) :
    (SetWithMask val mask cpu).Cpsr = (bitClear cpu.Cpsr mask ||| (val &&& mask)) ∧
    (SetWithMask val mask cpu).SpsrBank = cpu.SpsrBank ∧
    (SetWithMask val mask cpu).cp15 = cpu.cp15 ∧
    (SetWithMask val mask cpu).pc = cpu.pc ∧
    (SetWithMask val mask cpu).lines = cpu.lines := by
  unfold SetWithMask swapFiqRegs loadBank saveBank
  simp only
  split_ifs <;> (split <;> split) <;> simp [setBank_fields]


theorem getBank_congr (cpu cpu2 : Cpu) (b : Bank)
    (h : cpu2.UsrBank = cpu.UsrBank ∧ cpu2.FiqBank = cpu.FiqBank ∧ cpu2.SvcBank = cpu.SvcBank ∧
         cpu2.AbtBank = cpu.AbtBank ∧ cpu2.IrqBank = cpu.IrqBank ∧ cpu2.UndBank = cpu.UndBank) :
    cpu2.getBank b = cpu.getBank b := by
  obtain ⟨h1, h2, h3, h4, h5, h6⟩ := h
  cases b <;> simp [Cpu.getBank, *]

theorem saveBank_Regs (m : Nat) (cpu : Cpu) : (saveBank m cpu).Regs = cpu.Regs := by
  unfold saveBank
  split <;> simp [setBank_fields]

theorem getBank_saveBank (m : Nat) (cpu : Cpu) (b : Bank) :
    (saveBank m cpu).getBank b =
      if RegF14ForMode m = some b then upd (upd (cpu.getBank b) 0 (cpu.Regs 13)) 1 (cpu.Regs 14)
      else cpu.getBank b := by
  unfold saveBank
  split
  · rename_i c hc
    rw [hc, getBank_setBank, getBank_setBank]
    by_cases h : b = c
    · subst h; simp [setBank_fields]
    · have h2 : ¬ c = b := fun e => h e.symm
      simp [h, h2, getBank_setBank]
  · rename_i hc
    simp [hc]

theorem loadBank_Regs14 (m : Nat) (cpu : Cpu) :
    (loadBank m cpu).Regs 14 =
      match RegF14ForMode m with
      | some b => cpu.getBank b 1
      | none => cpu.Regs 14 := by
  unfold loadBank
  cases RegF14ForMode m <;> simp [upd]

theorem swapFiqRegs_Regs14 (o m : Nat) (cpu : Cpu) :
    (swapFiqRegs o m cpu).Regs 14 = cpu.Regs 14 := by
  unfold swapFiqRegs
  split_ifs <;> simp

theorem SetWithMask_Regs14 (val mask : Nat) (cpu : Cpu) :
    (SetWithMask val mask cpu).Regs 14 =
      match RegF14ForMode (GetMode (bitClear cpu.Cpsr mask ||| (val &&& mask))) with
      | some b =>
        if RegF14ForMode (GetMode cpu.Cpsr) = some b then cpu.Regs 14 else cpu.getBank b 1
      | none => cpu.Regs 14 := by
  unfold SetWithMask
  simp only
  rw [swapFiqRegs_Regs14, loadBank_Regs14]
  split
  · rw [getBank_saveBank]
    split_ifs
    · simp [upd]
    · exact congrFun (getBank_congr cpu _ _ ⟨rfl, rfl, rfl, rfl, rfl, rfl⟩) 1
  · rw [saveBank_Regs]

theorem and_31 (n : Nat) : n &&& 31 = n % 32 := Nat.and_pow_two_sub_one_eq_mod n 5

theorem RegF14ForMode_target :
    RegF14ForMode 19 = some Bank.Svc ∧ RegF14ForMode 27 = some Bank.Und ∧
    RegF14ForMode 23 = some Bank.Abt ∧ RegF14ForMode 18 = some Bank.Irq ∧
    RegF14ForMode 17 = some Bank.Fiq := by decide


theorem testBit31_of_lt (x : Nat) (h : x < 2 ^ 32) : x.testBit 31 = decide (2 ^ 31 ≤ x) := by
  rw [Nat.testBit_to_div_mod]
  congr 1
  apply propext
  omega

theorem shr31_ne_zero (y : Nat) (h : y < 2 ^ 32) : decide (y >>> 31 ≠ 0) = y.testBit 31 := by
  rw [testBit31_of_lt y h, Nat.shiftRight_eq_div_pow]
  congr 1
  apply propext
  omega

theorem xor_and_xor_lt (a b c d : Nat) (hc : c < 2 ^ 32) (hd : d < 2 ^ 32) :
    (a ^^^ b) &&& (c ^^^ d) < 2 ^ 32 :=
  Nat.and_lt_two_pow _ (Nat.xor_lt_two_pow hc hd)

theorem vflag_add (a b : Nat) (ha : a < 2 ^ 32) (hb : b < 2 ^ 32) :
    decide (((a ^^^ ((a + b) % 2 ^ 32)) &&& (b ^^^ ((a + b) % 2 ^ 32))) >>> 31 ≠ 0) =
      decide (toInt32 a + toInt32 b < -2 ^ 31 ∨ 2 ^ 31 - 1 < toInt32 a + toInt32 b) := by
  have hr : (a + b) % 2 ^ 32 < 2 ^ 32 := Nat.mod_lt _ (by norm_num)
  rw [shr31_ne_zero _ (xor_and_xor_lt _ _ _ _ hb hr), Nat.testBit_and, Nat.testBit_xor,
    Nat.testBit_xor, testBit31_of_lt a ha, testBit31_of_lt b hb, testBit31_of_lt _ hr]
  unfold toInt32
  by_cases h1 : 2 ^ 31 ≤ a <;> by_cases h2 : 2 ^ 31 ≤ b <;>
    by_cases h3 : 2 ^ 31 ≤ (a + b) % 2 ^ 32 <;>
    simp only [h1, h2, h3, decide_True, decide_False, Bool.xor_self, Bool.and_self,
      Bool.xor_true, Bool.xor_false, Bool.not_true, Bool.not_false, Bool.and_false,
      Bool.false_and, Bool.true_and, Bool.and_true, Bool.true_xor, Bool.false_xor] <;>
    first
      | (symm; rw [decide_eq_true_iff]; split_ifs <;> omega)
      | (symm; rw [decide_eq_false_iff_not]; split_ifs <;> omega)

theorem vflag_sub (a b : Nat) (ha : a < 2 ^ 32) (hb : b < 2 ^ 32) :
    decide (((a ^^^ b) &&& (a ^^^ ((a + 2 ^ 32 - b) % 2 ^ 32))) >>> 31 ≠ 0) =
      decide (toInt32 a - toInt32 b < -2 ^ 31 ∨ 2 ^ 31 - 1 < toInt32 a - toInt32 b) := by
  have hr : (a + 2 ^ 32 - b) % 2 ^ 32 < 2 ^ 32 := Nat.mod_lt _ (by norm_num)
  rw [shr31_ne_zero _ (xor_and_xor_lt _ _ _ _ ha hr), Nat.testBit_and, Nat.testBit_xor,
    Nat.testBit_xor, testBit31_of_lt a ha, testBit31_of_lt b hb, testBit31_of_lt _ hr]
  unfold toInt32
  by_cases h1 : 2 ^ 31 ≤ a <;> by_cases h2 : 2 ^ 31 ≤ b <;>
    by_cases h3 : 2 ^ 31 ≤ (a + 2 ^ 32 - b) % 2 ^ 32 <;>
    simp only [h1, h2, h3, decide_True, decide_False, Bool.xor_self, Bool.and_self,
      Bool.xor_true, Bool.xor_false, Bool.not_true, Bool.not_false, Bool.and_false,
      Bool.false_and, Bool.true_and, Bool.and_true, Bool.true_xor, Bool.false_xor] <;>
    first
      | (symm; rw [decide_eq_true_iff]; split_ifs <;> omega)
      | (symm; rw [decide_eq_false_iff_not]; split_ifs <;> omega)

theorem and_bit_ne_zero (rs j : Nat) (hj : j < 32) :
    decide (rs &&& u32 (1 <<< j) ≠ 0) = rs.testBit j := by
  have h2 : (2:Nat) ^ j < 2 ^ 32 := Nat.pow_lt_pow_right (by norm_num) hj
  rw [Nat.one_shiftLeft, u32, Nat.mod_eq_of_lt h2, Nat.and_two_pow]
  cases rs.testBit j <;> simp

theorem SetNZ_write (cpu1 : Cpu) (res d : Nat) (hres : res < 2 ^ 32) :
    ({ cpu1 with Cpsr := SetNZ cpu1.Cpsr res, Regs := upd cpu1.Regs d res } : Cpu).Regs d = res ∧
    regCpsr.C (SetNZ cpu1.Cpsr res) = regCpsr.C cpu1.Cpsr ∧
    regCpsr.N (SetNZ cpu1.Cpsr res) = res.testBit 31 ∧
    regCpsr.Z (SetNZ cpu1.Cpsr res) = decide (res = 0) := by
  refine ⟨by simp [upd], ?_, ?_, ?_⟩
  · simp [regCpsr.C, SetNZ, bit_setBit]
  · simp only [regCpsr.N, SetNZ, bit_setBit]
    simpa using shr31_ne_zero _ hres
  · simp [regCpsr.Z, SetNZ, bit_setBit]

theorem ofInt32_lt (i : Int) : ofInt32 i < 2 ^ 32 := by
  unfold ofInt32
  omega

/-- The handler of `writeOpF1Shift` computes the reference barrel shifter. -/
theorem writeOpF1Shift_refines (gop op : Nat) (cpu : Cpu)
    (hop : (gop >>> 11) &&& 3 < 3) (hrs : cpu.Regs ((op >>> 3) &&& 7) < 2 ^ 32) :
    ∃ cpu', writeOpF1Shift gop op cpu = some cpu' ∧
      (cpu'.Regs (op &&& 7), regCpsr.C cpu'.Cpsr) =
        specBarrelShifter ((gop >>> 11) &&& 3) ((op >>> 6) &&& 0x1F)
          (cpu.Regs ((op >>> 3) &&& 7)) (regCpsr.C cpu.Cpsr) ∧
      regCpsr.N cpu'.Cpsr = (cpu'.Regs (op &&& 7)).testBit 31 ∧
      regCpsr.Z cpu'.Cpsr = decide (cpu'.Regs (op &&& 7) = 0) := by
  have hk : (op >>> 6) &&& 0x1F < 32 := by
    have := and_31 (op >>> 6); simp only [Nat.reduceAdd] at this ⊢; omega
  generalize hkk : (op >>> 6) &&& 0x1F = k at hk
  generalize hss : cpu.Regs ((op >>> 3) &&& 7) = s at hrs
  have hu : u32 s = s := by rw [u32]; omega
  generalize hoo : (gop >>> 11) &&& 3 = opcode at hop
  unfold writeOpF1Shift specBarrelShifter
  simp only [hkk, hss, hoo, hu]
  interval_cases opcode
  · by_cases hk0 : k = 0
    · subst hk0
      have hres : u32 (s <<< 0) = s := by simpa using hu
      simp only [hres, if_true, ne_eq, not_true_eq_false, if_false]
      obtain ⟨h1, h2, h3, h4⟩ := SetNZ_write cpu s (op &&& 7) hrs
      exact ⟨_, rfl, by simp [upd, h2], by simpa [upd] using h3, by simpa [upd] using h4⟩
    · have hres : u32 (s <<< k) = s * 2 ^ k % 2 ^ 32 := by rw [u32, Nat.shiftLeft_eq]
      have hlt : s * 2 ^ k % 2 ^ 32 < 2 ^ 32 := Nat.mod_lt _ (by norm_num)
      have hc := and_bit_ne_zero s (32 - k) (by omega)
      simp only [hres, if_true, ne_eq, hk0, not_false_eq_true, if_false]
      obtain ⟨h1, h2, h3, h4⟩ := SetNZ_write
        { cpu with Cpsr := SetC cpu.Cpsr (decide (s &&& u32 (1 <<< (32 - k)) ≠ 0)) }
        (s * 2 ^ k % 2 ^ 32) (op &&& 7) hlt
      refine ⟨_, rfl, ?_, by simpa [upd] using h3, by simpa [upd] using h4⟩
      simp only [upd, if_true, h2]
      simp [regCpsr.C, SetC, bit_setBit, hc]
  · have hk' : 1 ≤ (if k = 0 then 32 else k) ∧ (if k = 0 then 32 else k) ≤ 32 := by
      split_ifs <;> omega
    generalize (if k = 0 then 32 else k) = k' at hk'
    have hle : s >>> k' ≤ s := by rw [Nat.shiftRight_eq_div_pow]; exact Nat.div_le_self _ _
    have hres : u32 (s >>> k') = s / 2 ^ k' := by
      rw [u32, Nat.mod_eq_of_lt (by omega), Nat.shiftRight_eq_div_pow]
    have hlt : s / 2 ^ k' < 2 ^ 32 := by rw [← Nat.shiftRight_eq_div_pow]; omega
    have hc := and_bit_ne_zero s (k' - 1) (by omega)
    simp only [hres, if_true, OfNat.one_ne_ofNat, if_false]
    obtain ⟨h1, h2, h3, h4⟩ := SetNZ_write
      { cpu with Cpsr := SetC cpu.Cpsr (decide (s &&& u32 (1 <<< (k' - 1)) ≠ 0)) }
      (s / 2 ^ k') (op &&& 7) hlt
    refine ⟨_, rfl, ?_, by simpa [upd] using h3, by simpa [upd] using h4⟩
    simp only [upd, if_true, h2]
    simp [regCpsr.C, SetC, bit_setBit, hc]
  · have hk' : 1 ≤ (if k = 0 then 32 else k) ∧ (if k = 0 then 32 else k) ≤ 32 := by
      split_ifs <;> omega
    generalize (if k = 0 then 32 else k) = k' at hk'
    have hres : ofInt32 (toInt32 s >>> k') = ((toInt32 s / 2 ^ k') % 2 ^ 32).toNat := by
      rw [ofInt32, Int.shiftRight_eq_div_pow]; push_cast; rfl
    have hlt := ofInt32_lt (toInt32 s >>> k')
    rw [hres] at hlt
    have hc := and_bit_ne_zero s (k' - 1) (by omega)
    simp only [hres, if_true, OfNat.ofNat_ne_zero, OfNat.ofNat_ne_one, if_false]
    obtain ⟨h1, h2, h3, h4⟩ := SetNZ_write
      { cpu with Cpsr := SetC cpu.Cpsr (decide (s &&& u32 (1 <<< (k' - 1)) ≠ 0)) }
      ((toInt32 s / 2 ^ k') % 2 ^ 32).toNat (op &&& 7) hlt
    refine ⟨_, rfl, ?_, by simpa [upd] using h3, by simpa [upd] using h4⟩
    simp only [upd, if_true, h2]
    simp [regCpsr.C, SetC, bit_setBit, hc]

/-- The reference barrel shifter at offset 0 of LSR and ASR, read as 32: LSR
gives 0, ASR gives 0 or `0xFFFFFFFF` by the sign bit. -/
theorem specBarrelShifter_offset_zero (s : Nat) (c : Bool) (hs : s < 2 ^ 32) :
    (specBarrelShifter 1 0 s c).1 = 0 ∧
    (specBarrelShifter 2 0 s c).1 = if s.testBit 31 then 0xFFFFFFFF else 0 := by
  unfold specBarrelShifter toInt32
  rw [testBit31_of_lt s hs]
  constructor
  · simp only [OfNat.one_ne_ofNat, if_false, if_true]
    exact Nat.div_eq_of_lt hs
  · simp only [OfNat.ofNat_ne_zero, OfNat.ofNat_ne_one, if_false, if_true]
    have e : ((2 : Int) ^ 32) = 4294967296 := by norm_num
    rw [e]
    by_cases h : 2 ^ 31 ≤ s
    · have h' : ¬ s < 2 ^ 31 := by omega
      simp only [h, h', decide_True, if_true, if_false]
      omega
    · have h' : s < 2 ^ 31 := by omega
      simp only [h, h', decide_False, if_true]
      simp only [Bool.false_eq_true, if_false]
      omega

/-- Masking with 1 is the remainder by 2. -/
theorem and_one_eq_mod (x : Nat) : x &&& 1 = x % 2 := Nat.and_pow_two_sub_one_eq_mod x 1

/-- The test `x & (1<<i) != 0` reads bit `i`. -/
theorem and_two_pow_ne_zero (x i : Nat) : (x &&& 2 ^ i ≠ 0) ↔ x.testBit i = true := by
  rw [Nat.and_two_pow]
  have hp : 0 < 2 ^ i := Nat.pos_pow_of_pos _ (by norm_num)
  cases x.testBit i <;> simp

/-- The guard `(op>>i)&1 != 0` of the unrolled loops reads bit `i` of `op`. -/
theorem opBit_eq (op i : Nat) : ((op >>> i) &&& 1 ≠ 0) ↔ op.testBit i = true := by
  rw [and_one_eq_mod, Nat.testBit_to_div_mod, Nat.shiftRight_eq_div_pow]
  simp

/-- Clearing the low `n` bits rounds down to a multiple of `2 ^ n`. -/
theorem bitClear_low (x n : Nat) : bitClear x (2 ^ n - 1) = 2 ^ n * (x / 2 ^ n) := by
  unfold bitClear
  apply Nat.eq_of_testBit_eq
  intro i
  rw [← Nat.shiftRight_eq_div_pow, Nat.mul_comm, ← Nat.shiftLeft_eq]
  simp only [Nat.testBit_xor, Nat.testBit_and, Nat.testBit_two_pow_sub_one,
    Nat.testBit_shiftLeft, Nat.testBit_shiftRight]
  by_cases h : i < n
  · have h2 : ¬ i ≥ n := by omega
    simp [h, h2]
  · have h2 : i ≥ n := by omega
    have h3 : n + (i - n) = i := by omega
    simp [h, h2, h3]

/-- The Go `x &^ 1` rounds down to an even number. -/
theorem bitClear_1 (x : Nat) : bitClear x 1 = 2 * (x / 2) := bitClear_low x 1

/-- The Go `x &^ 3` rounds down to a multiple of 4. -/
theorem bitClear_3 (x : Nat) : bitClear x 3 = 4 * (x / 4) := bitClear_low x 2

/-- Bit `i` of `x &^ m`: that of `x`, cleared where `m` has a bit. -/
theorem testBit_bitClear (x m i : Nat) :
    (bitClear x m).testBit i = (x.testBit i && !m.testBit i) := by
  unfold bitClear
  simp only [Nat.testBit_xor, Nat.testBit_and]
  cases x.testBit i <;> cases m.testBit i <;> rfl

/-- Masking with `0xFF` is the remainder by 256. -/
theorem and_255 (n : Nat) : n &&& 255 = n % 256 := Nat.and_pow_two_sub_one_eq_mod n 8

/-- An even word with bit 1 cleared is a multiple of 4. -/
theorem bitClear_2_mod_4 (x : Nat) (h : x % 2 = 0) : bitClear x 2 % 4 = 0 := by
  have h0 := testBit_bitClear x 2 0
  have h1 := testBit_bitClear x 2 1
  have e0 : Nat.testBit 2 0 = false := by decide
  have e1 : Nat.testBit 2 1 = true := by decide
  rw [e0] at h0
  rw [e1] at h1
  simp only [Bool.not_true, Bool.and_false, Bool.not_false, Bool.and_true] at h0 h1
  rw [Nat.testBit_to_div_mod] at h0 h1
  rw [Nat.testBit_to_div_mod] at h0
  simp at h0 h1
  omega

/-- A 3-bit register index is below 8. -/
theorem and_7_lt (x : Nat) : x &&& 7 < 8 := by
  have := Nat.and_pow_two_sub_one_eq_mod x 3
  simp only [Nat.reducePow, Nat.reduceSub] at this
  omega

/-- The F2 handler writes `Rs - val` for the odd generator opcodes and `Rs + val` for the even ones, `val` being `writeOpF2Add.val`. -/
theorem writeOpF2Add_val_used (gop op : Nat) (cpu : Cpu) :
    (writeOpF2Add gop op cpu).Regs (op &&& 7) =
      if (gop >>> 9) &&& 3 = 0 ∨ (gop >>> 9) &&& 3 = 2 then
        u32 (u32 (cpu.Regs ((op >>> 3) &&& 7)) + writeOpF2Add.val gop op cpu)
      else u32 (u32 (cpu.Regs ((op >>> 3) &&& 7)) + 2 ^ 32 - writeOpF2Add.val gop op cpu) := by
  unfold writeOpF2Add writeOpF2Add.val
  by_cases h : (gop >>> 9) &&& 3 = 0 ∨ (gop >>> 9) &&& 3 = 2
  · simp only [if_pos h]
    simp [upd]
  · simp only [if_neg h]
    simp [upd]

/-- The `imm` flag of the F2 handler an opcode is dispatched to is opcode bit 10. -/
theorem gop_bit10 (op : Nat) :
    ((((op >>> 8) <<< 8) >>> 9) &&& 3 &&& 2 != 0) = op.testBit 10 := by
  have h3 : ∀ x : Nat, x &&& 3 = x % 4 := fun x => Nat.and_pow_two_sub_one_eq_mod x 2
  have h2 : ∀ x : Nat, (x &&& 2 ≠ 0) ↔ x.testBit 1 = true := fun x => and_two_pow_ne_zero x 1
  have e : ((((op >>> 8) <<< 8) >>> 9) &&& 3 &&& 2 != 0) =
      decide ((((op >>> 8) <<< 8) >>> 9) &&& 3 &&& 2 ≠ 0) := by
    rw [Bool.eq_iff_iff]; simp
  rw [e]
  rw [Bool.eq_iff_iff, decide_eq_true_iff, h2, h3, Nat.testBit_to_div_mod, Nat.testBit_to_div_mod,
    Nat.shiftRight_eq_div_pow, Nat.shiftRight_eq_div_pow, Nat.shiftLeft_eq,
    decide_eq_true_iff, decide_eq_true_iff]
  omega

/-- Adding the `reg` conversion of a signed offset to a word, mod 2^32, is adding the offset in the integers, mod 2^32. -/
theorem ofInt32_add (x : Nat) (i : Int) :
    u32 (x + ofInt32 i) = (((x : Int) + i) % 2 ^ 32).toNat := by
  unfold u32 ofInt32
  omega

/-- The conversion `int8(uint8(x))` is the 8-bit two's-complement reading. -/
theorem toInt8_eq (x : Nat) : toInt8 (x &&& 0xFF) = specSignExtend 8 (x &&& 0xFF) := by
  unfold toInt8 specSignExtend
  rfl

/-- One more position adds 1 to `bitsBelow` exactly when its bit is set. -/
theorem bitsBelow_succ (op i : Nat) :
    bitsBelow op (i + 1) = bitsBelow op i + (if op.testBit i = true then 1 else 0) := by
  unfold bitsBelow
  rw [List.range_succ, List.countP_append]
  simp [List.countP_cons]

/-- The bit count of `op & 0x1FF` is the number of bits set below position 9. -/
theorem popcount16_and_1FF (op : Nat) : popcount16 (op &&& 0x1FF) = bitsBelow op 9 := by
  have h511 : ∀ j, Nat.testBit 511 j = decide (j < 9) := fun j =>
    Nat.testBit_two_pow_sub_one 9 j
  have e16 : List.range 16 = [0, 1, 2, 3, 4, 5, 6, 7, 8, 9, 10, 11, 12, 13, 14, 15] := by decide
  have e9 : List.range 9 = [0, 1, 2, 3, 4, 5, 6, 7, 8] := by decide
  unfold popcount16 bitsBelow
  rw [e16, e9]
  simp [List.countP_cons, Nat.testBit_and, h511]

/-- The POP transfers of the low registers `s .. s+n-1`: the local `sp` advances
by 4 per listed register; CPSR, pc, architecture, bus and the registers from
R8 up are untouched. -/
theorem pop_loop_low (op : Nat) : ∀ (n s : Nat) (cpu : Cpu) (sp : Nat),
    s + n ≤ 8 → sp < 2 ^ 32 →
    ∃ cpu', (List.range' s n).foldlM (writeOpF14PushPop.step true op) (cpu, sp) =
        some (cpu', (sp + 4 * (List.range' s n).countP (fun j => op.testBit j)) % 2 ^ 32) ∧
      cpu'.Cpsr = cpu.Cpsr ∧ cpu'.pc = cpu.pc ∧ cpu'.arch = cpu.arch ∧ cpu'.bus = cpu.bus ∧
      (∀ j, 8 ≤ j → cpu'.Regs j = cpu.Regs j) := by
  intro n
  induction n with
  | zero =>
    intro s cpu sp _ hsp
    refine ⟨cpu, ?_, rfl, rfl, rfl, rfl, fun _ _ => rfl⟩
    simp
    omega
  | succ n ih =>
    intro s cpu sp hs hsp
    rw [List.range'_succ, List.foldlM_cons, List.countP_cons]
    by_cases hb : op.testBit s = true
    · have hbit : (op >>> s) &&& 1 ≠ 0 := (opBit_eq op s).mpr hb
      have hs8 : s ≠ 8 := by omega
      have hstep : writeOpF14PushPop.step true op (cpu, sp) s =
          some ({ (opRead32 cpu sp).2 with
                  Regs := upd (opRead32 cpu sp).2.Regs s (opRead32 cpu sp).1 }, u32 (sp + 4)) := by
        unfold writeOpF14PushPop.step
        simp only [if_pos hbit, if_neg hs8, if_true]
        have : s ≠ 15 := by omega
        simp only [if_neg this]
        rfl
      obtain ⟨cpu', h1, h2, h3, h4, h5, h6⟩ := ih (s + 1)
        { (opRead32 cpu sp).2 with
          Regs := upd (opRead32 cpu sp).2.Regs s (opRead32 cpu sp).1 } (u32 (sp + 4))
        (by omega) (Nat.mod_lt _ (by norm_num))
      refine ⟨cpu', ?_, h2, h3, h4, h5, ?_⟩
      · rw [hstep]
        simp only [Option.some_bind, Option.bind_eq_bind, h1, hb, if_true]
        congr 2
        simp only [u32]
        omega
      · intro j hj
        rw [h6 j hj]
        have : j ≠ s := by omega
        simp [opRead32, upd, this]
    · have hbit : ¬ ((op >>> s) &&& 1 ≠ 0) := fun h => hb ((opBit_eq op s).mp h)
      have hstep : writeOpF14PushPop.step true op (cpu, sp) s = some (cpu, sp) := by
        unfold writeOpF14PushPop.step
        simp only [if_neg hbit]
      obtain ⟨cpu', h1, h2, h3, h4, h5, h6⟩ := ih (s + 1) cpu sp (by omega) hsp
      refine ⟨cpu', ?_, h2, h3, h4, h5, h6⟩
      rw [hstep]
      simp only [Option.some_bind, Option.bind_eq_bind, h1, hb]
      simp

/-- The LDM transfers of the registers `s .. s+n-1`, entered with `ptr` at
`base + 4 * (listed registers below s)`: every listed register gets the word
at its slot, the others and the bus are untouched, `wb` falls when the base is
listed. -/
theorem ldm_loop (op rbx base : Nat) : ∀ (n s : Nat) (cpu : Cpu) (ptr : Nat) (wb : Bool),
    s + n ≤ 8 → ptr = (base + 4 * bitsBelow op s) % 2 ^ 32 →
    ((List.range' s n).foldl (writeOpF15LdmStm.step true rbx op) (cpu, ptr, wb)).2.1 =
        (base + 4 * bitsBelow op (s + n)) % 2 ^ 32 ∧
    ((List.range' s n).foldl (writeOpF15LdmStm.step true rbx op) (cpu, ptr, wb)).2.2 =
        (wb && !(decide (s ≤ rbx ∧ rbx < s + n) && op.testBit rbx)) ∧
    ((List.range' s n).foldl (writeOpF15LdmStm.step true rbx op) (cpu, ptr, wb)).1.bus =
        cpu.bus ∧
    (∀ i, s ≤ i → i < s + n → op.testBit i = true →
      ((List.range' s n).foldl (writeOpF15LdmStm.step true rbx op) (cpu, ptr, wb)).1.Regs i =
        read32 cpu.bus ((base + 4 * bitsBelow op i) % 2 ^ 32)) ∧
    (∀ j, (j < s ∨ s + n ≤ j ∨ op.testBit j = false) →
      ((List.range' s n).foldl (writeOpF15LdmStm.step true rbx op) (cpu, ptr, wb)).1.Regs j =
        cpu.Regs j) := by
  intro n
  induction n with
  | zero =>
    intro s cpu ptr wb _ hptr
    simp only [List.range'_zero, List.foldl_nil, Nat.add_zero]
    refine ⟨hptr, ?_, ?_, ?_, ?_⟩
    · have : ¬ (s ≤ rbx ∧ rbx < s) := by omega
      simp [this]
    · trivial
    · intro i h1 h2; omega
    · intro j _; trivial
  | succ n ih =>
    intro s cpu ptr wb hs hptr
    rw [List.range'_succ, List.foldl_cons]
    by_cases hb : op.testBit s = true
    · have hbit : (op >>> s) &&& 1 ≠ 0 := (opBit_eq op s).mpr hb
      have hstep : writeOpF15LdmStm.step true rbx op (cpu, ptr, wb) s =
          ({ (opRead32 cpu ptr).2 with
              Regs := upd (opRead32 cpu ptr).2.Regs s (opRead32 cpu ptr).1 }, u32 (ptr + 4),
            if s = rbx then false else wb) := by
        unfold writeOpF15LdmStm.step
        simp only [if_pos hbit, if_true]
      have hptr' : u32 (ptr + 4) = (base + 4 * bitsBelow op (s + 1)) % 2 ^ 32 := by
        rw [bitsBelow_succ, hb, hptr, u32]; simp only [if_true]; omega
      rw [hstep]
      obtain ⟨h1, h2, h3, h4, h5⟩ := ih (s + 1)
        { (opRead32 cpu ptr).2 with
          Regs := upd (opRead32 cpu ptr).2.Regs s (opRead32 cpu ptr).1 } (u32 (ptr + 4))
        (if s = rbx then false else wb) (by omega) hptr'
      have e : s + 1 + n = s + (n + 1) := by omega
      rw [e] at h1 h2 h4 h5
      refine ⟨h1, ?_, ?_, ?_, ?_⟩
      · rw [h2]
        by_cases hsr : s = rbx
        · subst hsr
          have : s ≤ s ∧ s < s + (n + 1) := by omega
          simp [this, hb]
        · have : (s + 1 ≤ rbx ∧ rbx < s + (n + 1)) ↔ (s ≤ rbx ∧ rbx < s + (n + 1)) := by omega
          simp [hsr, this]
      · rw [h3]; rfl
      · intro i hi1 hi2 hbi
        by_cases his : i = s
        · subst his
          rw [h5 i (Or.inl (by omega))]
          simp only [opRead32, upd, if_true]
          rw [← hptr]
        · rw [h4 i (by omega) hi2 hbi]
          rfl
      · intro j hj
        have hj' : j < s + 1 ∨ s + (n + 1) ≤ j ∨ op.testBit j = false := by
          rcases hj with h | h | h
          · exact Or.inl (by omega)
          · exact Or.inr (Or.inl h)
          · exact Or.inr (Or.inr h)
        rw [h5 j hj']
        have : j ≠ s := by
          rintro rfl
          rcases hj with h | h | h
          · omega
          · omega
          · rw [hb] at h; exact absurd h (by simp)
        simp [opRead32, upd, this]
    · have hbit : ¬ ((op >>> s) &&& 1 ≠ 0) := fun h => hb ((opBit_eq op s).mp h)
      have hbf : op.testBit s = false := by simpa using hb
      have hstep : writeOpF15LdmStm.step true rbx op (cpu, ptr, wb) s = (cpu, ptr, wb) := by
        unfold writeOpF15LdmStm.step
        simp only [if_neg hbit]
      have hptr' : ptr = (base + 4 * bitsBelow op (s + 1)) % 2 ^ 32 := by
        rw [bitsBelow_succ, hbf, hptr]; simp
      rw [hstep]
      obtain ⟨h1, h2, h3, h4, h5⟩ := ih (s + 1) cpu ptr wb (by omega) hptr'
      have e : s + 1 + n = s + (n + 1) := by omega
      rw [e] at h1 h2 h4 h5
      refine ⟨h1, ?_, h3, ?_, ?_⟩
      · rw [h2]
        by_cases hsr : s = rbx
        · subst hsr
          simp [hbf]
        · have : (s + 1 ≤ rbx ∧ rbx < s + (n + 1)) ↔ (s ≤ rbx ∧ rbx < s + (n + 1)) := by omega
          simp [this]
      · intro i hi1 hi2 hbi
        have : i ≠ s := by rintro rfl; rw [hbf] at hbi; exact absurd hbi (by simp)
        exact h4 i (by omega) hi2 hbi
      · intro j hj
        by_cases hjs : j = s
        · subst hjs
          exact h5 j (Or.inl (by omega))
        · rcases hj with h | h | h
          · exact h5 j (Or.inl (by omega))
          · exact h5 j (Or.inr (Or.inl h))
          · exact h5 j (Or.inr (Or.inr h))

/-- The generator argument `(op >> 8) << 8` of the handler an opcode is
dispatched to has the high byte of the opcode: fields the generator reads
above bit 8 are those of the opcode. -/
theorem dispatch_gop (op : Nat) : ((op >>> 8) <<< 8) >>> 8 = op >>> 8 := by
  rw [Nat.shiftLeft_eq, Nat.shiftRight_eq_div_pow, Nat.shiftRight_eq_div_pow]
  omega

/-- The Go expression `int32(uint32(imm)<<23)>>11`: the bits of `imm` from
bit 9 up are shifted out of the 32-bit word, the rest is read as a 9-bit
two's-complement number and scaled by 4096. -/
theorem longBranch1_offset (imm : Nat) :
    toInt32 (u32 (imm <<< 23)) >>> (11 : Nat) = 4096 * specSignExtend 9 imm := by
  rw [Int.shiftRight_eq_div_pow]
  unfold toInt32 u32 specSignExtend
  rw [Nat.shiftLeft_eq]
  have e : imm * 2 ^ 23 % 2 ^ 32 = (imm % 2 ^ 9) * 2 ^ 23 := by omega
  rw [e]
  by_cases hs : imm % 2 ^ 9 < 2 ^ (9 - 1)
  · have h1 : imm % 2 ^ 9 * 2 ^ 23 < 2 ^ 31 := by omega
    rw [if_pos h1, if_pos hs]
    push_cast
    omega
  · have h1 : ¬ imm % 2 ^ 9 * 2 ^ 23 < 2 ^ 31 := by omega
    rw [if_neg h1, if_neg hs]
    push_cast
    omega

/-- Doubling an 11-bit immediate, `(op&0x7FF)<<1`, never leaves 16 bits. -/
theorem imm11_shl1 (op : Nat) : u32 (((op &&& 0x7FF) <<< 1) % 2 ^ 16) = 2 * (op &&& 0x7FF) := by
  have h11 : op &&& 0x7FF = op % 2 ^ 11 := Nat.and_pow_two_sub_one_eq_mod op 11
  rw [h11, Nat.shiftLeft_eq, u32]
  omega

/-- Setting bit 0 of an even word adds 1. -/
theorem or_one_of_even (x : Nat) (h : x % 2 = 0) : x ||| 1 = x + 1 := by
  apply Nat.eq_of_testBit_eq
  intro i
  rw [Nat.testBit_or]
  rcases i with _ | i
  · simp [Nat.testBit_zero]; omega
  · have h1 : Nat.testBit 1 (i + 1) = false := by
      rw [Nat.testBit_succ]; simp
    rw [h1, Bool.or_false, Nat.testBit_succ, Nat.testBit_succ]
    congr 1
    omega

/-- The BL suffix handler, its generator test resolved. -/
theorem longBranch2_bl_eq (gop op : Nat) (cpu : Cpu) (hbl : (gop >>> 12) &&& 1 ≠ 0) :
    writeOpF19LongBranch2 gop op cpu =
      { cpu with
        pc := (cpu.Regs 14 + 2 * (op &&& 0x7FF)) % 2 ^ 32,
        Regs := upd cpu.Regs 14 (((cpu.Regs 15 + 2 ^ 32 - 2) % 2 ^ 32) ||| 1) } := by
  have hb : decide ((gop >>> 12) &&& 1 = 0) = false := decide_eq_false hbl
  have e : u32 (u32 (cpu.Regs 15) + 2 ^ 32 - 2) = (cpu.Regs 15 + 2 ^ 32 - 2) % 2 ^ 32 := by
    simp only [u32]; omega
  unfold writeOpF19LongBranch2
  simp only [hb, imm11_shl1, e, Bool.false_eq_true, if_false]
  rfl

/-- The BLX suffix handler, its generator test resolved. -/
theorem longBranch2_blx_eq (gop op : Nat) (cpu : Cpu) (hblx : (gop >>> 12) &&& 1 = 0) :
    writeOpF19LongBranch2 gop op cpu =
      { cpu with
        pc := bitClear ((cpu.Regs 14 + 2 * (op &&& 0x7FF)) % 2 ^ 32) 2,
        Regs := upd cpu.Regs 14 (((cpu.Regs 15 + 2 ^ 32 - 2) % 2 ^ 32) ||| 1),
        Cpsr := regCpsr.SetT cpu.Cpsr false } := by
  have hb : decide ((gop >>> 12) &&& 1 = 0) = true := decide_eq_true hblx
  have e : u32 (u32 (cpu.Regs 15) + 2 ^ 32 - 2) = (cpu.Regs 15 + 2 ^ 32 - 2) % 2 ^ 32 := by
    simp only [u32]; omega
  unfold writeOpF19LongBranch2
  simp only [hb, imm11_shl1, e, if_true]
  rfl

/-- The Go `x &^ 2` clears bit 1: the multiple of 4 below `x`, plus bit 0. -/
theorem bitClear_2 (x : Nat) : bitClear x 2 = 4 * (x / 4) + x % 2 := by
  apply Nat.eq_of_testBit_eq
  intro i
  rw [testBit_bitClear]
  rcases i with _ | _ | i
  · have : Nat.testBit 2 0 = false := by decide
    simp only [this, Bool.not_false, Bool.and_true, Nat.testBit_to_div_mod]
    congr 1
    apply propext
    simp only [Nat.pow_zero, Nat.div_one]
    omega
  · have : Nat.testBit 2 1 = true := by decide
    simp only [this, Bool.not_true, Bool.and_false, Nat.zero_add]
    symm
    rw [Nat.testBit_to_div_mod]
    simp only [Nat.pow_one, decide_eq_false_iff_not]
    omega
  · have : Nat.testBit 2 (i + 1 + 1) = false := by
      rw [Nat.testBit_succ, Nat.testBit_succ]; simp
    simp only [this, Bool.not_false, Bool.and_true]
    rw [Nat.testBit_succ, Nat.testBit_succ, Nat.testBit_succ, Nat.testBit_succ]
    congr 1
    omega

/-- The executor of F6 on the instruction at address `a`, that is with
`Regs[15] = a + 4`, loads `Rd` from `writeOpF6LdrPc.addr op a`. -/
theorem writeOpF6LdrPc_addr (gop op a : Nat) (cpu : Cpu) (h15 : cpu.Regs 15 = u32 (a + 4)) :
    (writeOpF6LdrPc gop op cpu).Regs ((gop >>> 8) &&& 7) =
      read32 cpu.bus (writeOpF6LdrPc.addr op a) := by
  unfold writeOpF6LdrPc writeOpF6LdrPc.addr
  simp only [opRead32, upd, if_true, h15]

/-- Floor division of a 32-bit signed number by `2 ^ n`, `n ≥ 32`: 0 or -1 by
the sign. -/
theorem toInt32_shr_ge32 (x n : Nat) (hx : x < 2 ^ 32) (hn : 32 ≤ n) :
    ofInt32 (toInt32 x >>> n) = if x.testBit 31 = true then 0xFFFFFFFF else 0 := by
  rw [Int.shiftRight_eq_div_pow, testBit31_of_lt x hx]
  have hp : (2:Int) ^ 32 ≤ 2 ^ n := by
    exact_mod_cast Nat.pow_le_pow_right (by norm_num) hn
  have e32 : (2:Int) ^ 32 = 4294967296 := by norm_num
  have hxi : (x : Int) < 4294967296 := by exact_mod_cast hx
  have hx0 : (0:Int) ≤ x := Int.ofNat_nonneg x
  push_cast
  generalize (2:Int) ^ n = b at hp
  unfold toInt32 ofInt32
  by_cases h : x < 2 ^ 31
  · have h2 : ¬ 2147483648 ≤ x := by omega
    rw [if_pos h]
    have : ((x : Int)) / b = 0 := Int.ediv_eq_zero_of_lt hx0 (by omega)
    simp [this, h2]
  · have h2 : 2147483648 ≤ x := by omega
    rw [if_neg h]
    have : ((x : Int) - 2 ^ 32) / b = -1 ∧ ((x : Int) - 2 ^ 32) % b = (x : Int) - 2 ^ 32 + b := by
      rw [Int.ediv_emod_unique (by omega)]
      refine ⟨by omega, by omega, by omega⟩
    rw [this.1]
    simp only [h2, decide_True, if_true]
    rfl

/-- The carry test `rd & (1<<(rot-1)) != 0` of the register shifts, `rot ≥ 1`:
bit `rot - 1` of `rd` while `rot ≤ 32`, false from 33 up, where the `uint32`
shift `1<<(rot-1)` is 0. -/
theorem shift_carry_test (rd rot : Nat) (h1 : 1 ≤ rot) :
    decide (rd &&& shl32 1 (rot - 1) ≠ 0) = (decide (rot ≤ 32) && rd.testBit (rot - 1)) := by
  unfold shl32
  by_cases h : rot - 1 < 32
  · rw [if_pos h, and_bit_ne_zero rd (rot - 1) h]
    have : rot ≤ 32 := by omega
    simp [this]
  · rw [if_neg h]
    have : ¬ rot ≤ 32 := by omega
    simp [this]

/-- The count of bits below a position grows with the position. -/
theorem bitsBelow_mono (op : Nat) : ∀ (i j : Nat), i ≤ j → bitsBelow op i ≤ bitsBelow op j := by
  intro i j h
  induction j with
  | zero =>
    have : i = 0 := by omega
    rw [this]
  | succ j ih =>
    by_cases hij : i = j + 1
    · rw [hij]
    · have := ih (by omega)
      rw [bitsBelow_succ]
      omega

/-- A set bit at `i` is counted below every later position. -/
theorem bitsBelow_lt (op i j : Nat) (h : i < j) (hb : op.testBit i = true) :
    bitsBelow op i < bitsBelow op j := by
  have h1 := bitsBelow_mono op (i + 1) j (by omega)
  rw [bitsBelow_succ, hb] at h1
  simp only [if_true] at h1
  omega

/-- At most `i` bits are set below position `i`. -/
theorem bitsBelow_le (op : Nat) : ∀ i, bitsBelow op i ≤ i := by
  intro i
  induction i with
  | zero => simp [bitsBelow]
  | succ i ih =>
    rw [bitsBelow_succ]
    split_ifs <;> omega

/-- The PUSH transfers of the low registers `s .. s+n-1`, entered with `sp` at
`base + 4 * (listed registers below s)`: the registers are untouched, every
listed register is stored at its slot, and the bus is unchanged elsewhere. -/
theorem push_loop (op base : Nat) : ∀ (n s : Nat) (cpu : Cpu) (sp : Nat),
    s + n ≤ 8 → sp = (base + 4 * bitsBelow op s) % 2 ^ 32 →
    ∃ cpu', (List.range' s n).foldlM (writeOpF14PushPop.step false op) (cpu, sp) =
        some (cpu', (base + 4 * bitsBelow op (s + n)) % 2 ^ 32) ∧
      cpu'.Regs = cpu.Regs ∧
      (∀ i, s ≤ i → i < s + n → op.testBit i = true →
        cpu'.bus ((base + 4 * bitsBelow op i) % 2 ^ 32) = u32 (cpu.Regs i)) ∧
      (∀ a, (∀ i, s ≤ i → i < s + n → op.testBit i = true →
          a ≠ (base + 4 * bitsBelow op i) % 2 ^ 32) → cpu'.bus a = cpu.bus a) := by
  intro n
  induction n with
  | zero =>
    intro s cpu sp _ hsp
    refine ⟨cpu, ?_, rfl, ?_, fun _ _ => rfl⟩
    · simp [hsp]
    · intro i h1 h2; omega
  | succ n ih =>
    intro s cpu sp hs hsp
    rw [List.range'_succ, List.foldlM_cons]
    have e : s + 1 + n = s + (n + 1) := by omega
    by_cases hb : op.testBit s = true
    · have hbit : (op >>> s) &&& 1 ≠ 0 := (opBit_eq op s).mpr hb
      have hs8 : s ≠ 8 := by omega
      have hstep : writeOpF14PushPop.step false op (cpu, sp) s =
          some (opWrite32 cpu sp (u32 (cpu.Regs s)), u32 (sp + 4)) := by
        unfold writeOpF14PushPop.step
        simp only [if_pos hbit, if_neg hs8, Bool.false_eq_true, if_false]
        rfl
      have hsp' : u32 (sp + 4) = (base + 4 * bitsBelow op (s + 1)) % 2 ^ 32 := by
        rw [bitsBelow_succ, hb, hsp, u32]; simp only [if_true]; omega
      obtain ⟨cpu', h1, h2, h3, h4⟩ := ih (s + 1) (opWrite32 cpu sp (u32 (cpu.Regs s)))
        (u32 (sp + 4)) (by omega) hsp'
      rw [e] at h1 h3 h4
      refine ⟨cpu', ?_, ?_, ?_, ?_⟩
      · rw [hstep]
        simp only [Option.some_bind, Option.bind_eq_bind, h1]
      · rw [h2]; rfl
      · intro i hi1 hi2 hbi
        by_cases his : i = s
        · subst his
          rw [h4]
          · rw [← hsp]
            simp [opWrite32, upd]
          · intro j hj1 hj2 hbj
            have hlt := bitsBelow_lt op i j (by omega) hb
            have hle := bitsBelow_le op j
            omega
        · rw [h3 i (by omega) hi2 hbi]
          rfl
      · intro a ha
        rw [h4 a (fun i hi1 hi2 hbi => ha i (by omega) hi2 hbi)]
        have : a ≠ sp := by
          rw [hsp]
          exact ha s (by omega) (by omega) hb
        simp [opWrite32, upd, this]
    · have hbit : ¬ ((op >>> s) &&& 1 ≠ 0) := fun h => hb ((opBit_eq op s).mp h)
      have hbf : op.testBit s = false := by simpa using hb
      have hstep : writeOpF14PushPop.step false op (cpu, sp) s = some (cpu, sp) := by
        unfold writeOpF14PushPop.step
        simp only [if_neg hbit]
      have hsp' : sp = (base + 4 * bitsBelow op (s + 1)) % 2 ^ 32 := by
        rw [bitsBelow_succ, hbf, hsp]; simp
      obtain ⟨cpu', h1, h2, h3, h4⟩ := ih (s + 1) cpu sp (by omega) hsp'
      rw [e] at h1 h3 h4
      refine ⟨cpu', ?_, h2, ?_, ?_⟩
      · rw [hstep]
        simp only [Option.some_bind, Option.bind_eq_bind, h1]
      · intro i hi1 hi2 hbi
        have : i ≠ s := by
          rintro rfl
          rw [hbf] at hbi; exact absurd hbi (by simp)
        exact h3 i (by omega) hi2 hbi
      · intro a ha
        exact h4 a (fun i hi1 hi2 hbi => ha i (by omega) hi2 hbi)

/-- The POP transfers of the low registers `s .. s+n-1`, entered with `sp` at
`base + 4 * (listed registers below s)`: every listed register gets the word
at its slot, the others and the bus are untouched. -/
theorem pop_loop_vals (op base : Nat) : ∀ (n s : Nat) (cpu : Cpu) (sp : Nat),
    s + n ≤ 8 → sp = (base + 4 * bitsBelow op s) % 2 ^ 32 →
    ∃ cpu', (List.range' s n).foldlM (writeOpF14PushPop.step true op) (cpu, sp) =
        some (cpu', (base + 4 * bitsBelow op (s + n)) % 2 ^ 32) ∧
      cpu'.bus = cpu.bus ∧
      (∀ i, s ≤ i → i < s + n → op.testBit i = true →
        cpu'.Regs i = read32 cpu.bus ((base + 4 * bitsBelow op i) % 2 ^ 32)) ∧
      (∀ j, (j < s ∨ s + n ≤ j ∨ op.testBit j = false) → cpu'.Regs j = cpu.Regs j) := by
  intro n
  induction n with
  | zero =>
    intro s cpu sp _ hsp
    refine ⟨cpu, ?_, rfl, ?_, fun _ _ => rfl⟩
    · simp [hsp]
    · intro i h1 h2; omega
  | succ n ih =>
    intro s cpu sp hs hsp
    rw [List.range'_succ, List.foldlM_cons]
    have e : s + 1 + n = s + (n + 1) := by omega
    by_cases hb : op.testBit s = true
    · have hbit : (op >>> s) &&& 1 ≠ 0 := (opBit_eq op s).mpr hb
      have hs8 : s ≠ 8 := by omega
      have hstep : writeOpF14PushPop.step true op (cpu, sp) s =
          some ({ (opRead32 cpu sp).2 with
                  Regs := upd (opRead32 cpu sp).2.Regs s (opRead32 cpu sp).1 }, u32 (sp + 4)) := by
        unfold writeOpF14PushPop.step
        simp only [if_pos hbit, if_neg hs8, if_true]
        have : s ≠ 15 := by omega
        simp only [if_neg this]
        rfl
      have hsp' : u32 (sp + 4) = (base + 4 * bitsBelow op (s + 1)) % 2 ^ 32 := by
        rw [bitsBelow_succ, hb, hsp, u32]; simp only [if_true]; omega
      obtain ⟨cpu', h1, h2, h3, h4⟩ := ih (s + 1)
        { (opRead32 cpu sp).2 with
          Regs := upd (opRead32 cpu sp).2.Regs s (opRead32 cpu sp).1 } (u32 (sp + 4))
        (by omega) hsp'
      rw [e] at h1 h3 h4
      refine ⟨cpu', ?_, ?_, ?_, ?_⟩
      · rw [hstep]
        simp only [Option.some_bind, Option.bind_eq_bind, h1]
      · rw [h2]; rfl
      · intro i hi1 hi2 hbi
        by_cases his : i = s
        · subst his
          rw [h4 i (Or.inl (by omega))]
          simp only [opRead32, upd, if_true]
          rw [← hsp]
        · rw [h3 i (by omega) hi2 hbi]
          rfl
      · intro j hj
        have hj' : j < s + 1 ∨ s + (n + 1) ≤ j ∨ op.testBit j = false := by
          rcases hj with h | h | h
          · exact Or.inl (by omega)
          · exact Or.inr (Or.inl h)
          · exact Or.inr (Or.inr h)
        rw [h4 j hj']
        have : j ≠ s := by
          rintro rfl
          rcases hj with h | h | h
          · omega
          · omega
          · rw [hb] at h; exact absurd h (by simp)
        simp [opRead32, upd, this]
    · have hbit : ¬ ((op >>> s) &&& 1 ≠ 0) := fun h => hb ((opBit_eq op s).mp h)
      have hbf : op.testBit s = false := by simpa using hb
      have hstep : writeOpF14PushPop.step true op (cpu, sp) s = some (cpu, sp) := by
        unfold writeOpF14PushPop.step
        simp only [if_neg hbit]
      have hsp' : sp = (base + 4 * bitsBelow op (s + 1)) % 2 ^ 32 := by
        rw [bitsBelow_succ, hbf, hsp]; simp
      obtain ⟨cpu', h1, h2, h3, h4⟩ := ih (s + 1) cpu sp (by omega) hsp'
      rw [e] at h1 h3 h4
      refine ⟨cpu', ?_, h2, ?_, ?_⟩
      · rw [hstep]
        simp only [Option.some_bind, Option.bind_eq_bind, h1]
      · intro i hi1 hi2 hbi
        have : i ≠ s := by
          rintro rfl
          rw [hbf] at hbi; exact absurd hbi (by simp)
        exact h3 i (by omega) hi2 hbi
      · intro j hj
        apply h4
        rcases hj with h | h | h
        · exact Or.inl (by omega)
        · exact Or.inr (Or.inl h)
        · exact Or.inr (Or.inr h)

/-- Two step functions that agree on every element of a list give the same
fold. -/
theorem foldlM_option_congr {α β : Type} (f g : β → α → Option β) :
    ∀ (l : List α), (∀ i, i ∈ l → ∀ st, f st i = g st i) →
      ∀ st, l.foldlM f st = l.foldlM g st := by
  intro l
  induction l with
  | nil => intro _ st; rfl
  | cons a l ih =>
    intro h st
    rw [List.foldlM_cons, List.foldlM_cons, h a (List.mem_cons_self a l) st]
    cases g st a with
    | none => rfl
    | some st' =>
      exact ih (fun i hi st => h i (List.mem_cons_of_mem a hi) st) st'

/-- Opcodes with the same low nine bits have the same guards in the unrolled
PUSH / POP loop. -/
theorem guard_of_list (op op' : Nat) (h : op &&& 0x1FF = op' &&& 0x1FF) (i : Nat) (hi : i < 9) :
    (op >>> i) &&& 1 = (op' >>> i) &&& 1 := by
  have h9 : ∀ x : Nat, x &&& 0x1FF = x % 2 ^ 9 := fun x => Nat.and_pow_two_sub_one_eq_mod x 9
  rw [h9, h9] at h
  rw [and_one_eq_mod, and_one_eq_mod, Nat.shiftRight_eq_div_pow, Nat.shiftRight_eq_div_pow]
  have e : ∀ x : Nat, x / 2 ^ i % 2 = x % 2 ^ 9 / 2 ^ i % 2 := by
    intro x
    interval_cases i <;> omega
  rw [e op, e op', h]

/-- The PUSH / POP handler reads its opcode only through the register list
`op & 0x1FF`. -/
theorem writeOpF14PushPop_list (gop op op' : Nat) (cpu : Cpu)
    (h : op &&& 0x1FF = op' &&& 0x1FF) :
    writeOpF14PushPop gop op cpu = writeOpF14PushPop gop op' cpu := by
  have hstep : ∀ (pop : Bool) (i : Nat), i ∈ List.range 9 → ∀ st,
      writeOpF14PushPop.step pop op st i = writeOpF14PushPop.step pop op' st i := by
    intro pop i hi st
    unfold writeOpF14PushPop.step
    rw [guard_of_list op op' h i (List.mem_range.mp hi)]
  unfold writeOpF14PushPop
  simp only [h, foldlM_option_congr _ _ (List.range 9) (hstep _)]

/-- PUSH of a list of low registers: the handler returns; SP is lowered by 4
per listed register (mod 2^32) and no other register changes; every listed
register is on the bus at `new SP + 4 * (listed registers below it)`. -/
theorem writeOpF14PushPop_push_low (gop op : Nat) (cpu : Cpu)
    (hpush : (gop >>> 11) &&& 1 = 0) (hR : op.testBit 8 = false) :
    ∃ c1, writeOpF14PushPop gop op cpu = some c1 ∧
      c1.Regs 13 = (cpu.Regs 13 + 2 ^ 32 - 4 * bitsBelow op 8) % 2 ^ 32 ∧
      (∀ j, j ≠ 13 → c1.Regs j = cpu.Regs j) ∧
      (∀ i, i < 8 → op.testBit i = true →
        c1.bus ((c1.Regs 13 + 4 * bitsBelow op i) % 2 ^ 32) = u32 (cpu.Regs i)) := by
  have e9 : List.range 9 = List.range' 0 8 ++ [8] := by decide
  have hp : decide ((gop >>> 11) &&& 1 ≠ 0) = false := decide_eq_false (by simp [hpush])
  have hbit : ¬ ((op >>> 8) &&& 1 ≠ 0) := fun h => by
    have := (opBit_eq op 8).mp h
    rw [hR] at this; exact absurd this (by simp)
  have hle := bitsBelow_le op 8
  have hcnt : popcount16 (op &&& 0x1FF) = bitsBelow op 8 := by
    rw [popcount16_and_1FF, bitsBelow_succ, hR]; simp
  have hsp0 : u32 (u32 (cpu.Regs 13) + 2 ^ 32 - u32 (bitsBelow op 8 * 4)) =
      (cpu.Regs 13 + 2 ^ 32 - 4 * bitsBelow op 8) % 2 ^ 32 := by
    simp only [u32]; omega
  generalize hs : (cpu.Regs 13 + 2 ^ 32 - 4 * bitsBelow op 8) % 2 ^ 32 = sp0 at hsp0
  have hb0 : bitsBelow op 0 = 0 := by simp [bitsBelow]
  have hsp0lt : sp0 < 2 ^ 32 := by rw [← hs]; exact Nat.mod_lt _ (by norm_num)
  obtain ⟨c1, h1, h2, h3, h4⟩ := push_loop op sp0 8 0
    { cpu with Regs := upd cpu.Regs 13 sp0 } sp0 (by omega) (by rw [hb0]; omega)
  have hst8 : writeOpF14PushPop.step false op (c1, (sp0 + 4 * bitsBelow op (0 + 8)) % 2 ^ 32) 8
      = some (c1, (sp0 + 4 * bitsBelow op (0 + 8)) % 2 ^ 32) := by
    unfold writeOpF14PushPop.step
    simp only [if_neg hbit]
  unfold writeOpF14PushPop
  simp only [hp, hcnt, hsp0, Bool.false_eq_true, if_false, e9, List.foldlM_append, h1,
    Option.some_bind, Option.bind_eq_bind, List.foldlM_cons, List.foldlM_nil, hst8]
  refine ⟨c1, rfl, ?_, ?_, ?_⟩
  · rw [h2]; simp [upd]
  · intro j hj
    rw [h2]; simp [upd, hj]
  · intro i hi hbi
    have e13 : c1.Regs 13 = sp0 := by rw [h2]; simp [upd]
    have hi13 : i ≠ 13 := by omega
    rw [e13, h3 i (by omega) (by omega) hbi]
    simp [upd, hi13]

/-- POP of a list of low registers: the handler returns; every listed register
gets the word at `SP + 4 * (listed registers below it)`, SP is raised by 4 per
listed register (mod 2^32) and no other register changes. -/
theorem writeOpF14PushPop_pop_low (gop op : Nat) (cpu : Cpu)
    (hpop : (gop >>> 11) &&& 1 ≠ 0) (hR : op.testBit 8 = false) :
    ∃ c2, writeOpF14PushPop gop op cpu = some c2 ∧
      c2.Regs 13 = (cpu.Regs 13 + 4 * bitsBelow op 8) % 2 ^ 32 ∧
      (∀ i, i < 8 → op.testBit i = true →
        c2.Regs i = read32 cpu.bus ((cpu.Regs 13 + 4 * bitsBelow op i) % 2 ^ 32)) ∧
      (∀ j, j ≠ 13 → (8 ≤ j ∨ op.testBit j = false) → c2.Regs j = cpu.Regs j) := by
  have e9 : List.range 9 = List.range' 0 8 ++ [8] := by decide
  have hp : decide ((gop >>> 11) &&& 1 ≠ 0) = true := decide_eq_true hpop
  have hbit : ¬ ((op >>> 8) &&& 1 ≠ 0) := fun h => by
    have := (opBit_eq op 8).mp h
    rw [hR] at this; exact absurd this (by simp)
  have hb0 : bitsBelow op 0 = 0 := by simp [bitsBelow]
  obtain ⟨c2, h1, h2, h3, h4⟩ := pop_loop_vals op (u32 (cpu.Regs 13)) 8 0 cpu (u32 (cpu.Regs 13))
    (by omega) (by rw [hb0]; simp only [u32]; omega)
  have hst8 : ∀ x, writeOpF14PushPop.step true op (c2, x) 8 = some (c2, x) := by
    intro x
    unfold writeOpF14PushPop.step
    simp only [if_neg hbit]
  have hmod : ∀ k, (u32 (cpu.Regs 13) + 4 * k) % 2 ^ 32 = (cpu.Regs 13 + 4 * k) % 2 ^ 32 := by
    intro k; simp only [u32]; omega
  simp only [hmod] at h1 h3
  unfold writeOpF14PushPop
  simp only [hp, if_true, e9, List.foldlM_append, h1,
    Option.some_bind, Option.bind_eq_bind, List.foldlM_cons, List.foldlM_nil, hst8]
  refine ⟨_, rfl, ?_, ?_, ?_⟩
  · simp [upd]
  · intro i hi hbi
    have hi13 : i ≠ 13 := by omega
    simp only [upd, if_neg hi13]
    exact h3 i (by omega) (by omega) hbi
  · intro j hj hj2
    simp only [upd, if_neg hj]
    apply h4
    rcases hj2 with h | h
    · exact Or.inr (Or.inl (by omega))
    · exact Or.inr (Or.inr h)

end Lemmas

/-! ## Exception entry: masked requests -/

/-- C1: `Exception(E)` is a no-op when masked: if `E = FIQ` and CPSR.F is set,
or `E = IRQ` and CPSR.I is set, the call returns and the whole CPU state
(registers, banks, SPSR slots, CPSR, pc, virtual lines) is the state before
it. -/
theorem Exception_masked_noop (exc : Nat) (cpu : Cpu)
    (h : (exc = ExceptionFiq ∧ regCpsr.F cpu.Cpsr = true) ∨
         (exc = ExceptionIrq ∧ regCpsr.I cpu.Cpsr = true)) :
    Exception exc cpu = some cpu := by
  rcases h with ⟨he, hf⟩ | ⟨he, hi⟩
  · subst he
    simp [Exception, excMode, excPcOffsetThumb, excPcOffsetArm, ExceptionFiq, hf]
  · subst he
    simp [Exception, excMode, excPcOffsetThumb, excPcOffsetArm, ExceptionIrq, ExceptionFiq, hi]

/-- C1 at a concrete state: an IRQ raised while CPSR.I is set (CPSR `0xF3`,
HALT line asserted) leaves the state as it was. -/
theorem Exception_masked_noop_witness :
    regCpsr.I cpuMasked.Cpsr = true ∧ Exception ExceptionIrq cpuMasked = some cpuMasked :=
  ⟨by decide, Exception_masked_noop ExceptionIrq cpuMasked (Or.inr ⟨rfl, by decide⟩)⟩

/-! ## Exception entry: the unmasked path -/

/-- C2: for every exception kind `E` in 0..7 and every CPU state in which `E`
is not masked, `Exception(E)` returns and the SPSR slot of the target mode
`excMode[E]` holds exactly the CPSR word from before the call. -/
theorem Exception_saves_cpsr (exc : Nat) (cpu : Cpu) (hE : exc < 8)
    (hm : ¬ ((exc = ExceptionFiq ∧ regCpsr.F cpu.Cpsr = true) ∨
             (exc = ExceptionIrq ∧ regCpsr.I cpu.Cpsr = true))) :
    ∃ cpu' newmode slot, Exception exc cpu = some cpu' ∧ excMode[exc]? = some newmode ∧
      RegSpsrForMode newmode = some slot ∧ cpu'.SpsrBank slot = cpu.Cpsr := by
  interval_cases exc <;>
    simp [ExceptionFiq, ExceptionIrq] at hm <;>
    simp [Exception, excMode, excPcOffsetThumb, excPcOffsetArm, ExceptionFiq, ExceptionIrq,
      ExceptionReset, ExceptionSwi, RegSpsrForMode, RegF14ForMode, CpuModeSupervisor,
      CpuModeUser, CpuModeSystem, CpuModeFiq, CpuModeAbort, CpuModeIrq, CpuModeUndefined,
      opRead16Effect, SetWithMask_fields, setBank_fields, upd, hm]

/-- C2 at the spec's scenario: SWI raised in User mode, Thumb state; the
Supervisor SPSR slot then holds the prior CPSR `0x30`. -/
theorem Exception_saves_cpsr_witness :
    ExceptionSwi < 8 ∧
    ¬ ((ExceptionSwi = ExceptionFiq ∧ regCpsr.F cpuUser.Cpsr = true) ∨
       (ExceptionSwi = ExceptionIrq ∧ regCpsr.I cpuUser.Cpsr = true)) ∧
    ∃ cpu' newmode slot, Exception ExceptionSwi cpuUser = some cpu' ∧
      excMode[ExceptionSwi]? = some newmode ∧
      RegSpsrForMode newmode = some slot ∧ cpu'.SpsrBank slot = cpuUser.Cpsr :=
  ⟨by decide, by decide, Exception_saves_cpsr ExceptionSwi cpuUser (by decide) (by decide)⟩

/-- Supporting C3: when the bank of the mode before the call is not the bank of
the target mode, the R14 visible after `Exception(E)` is `pc_before + off`
(mod 2^32), `off` from the spec's table. -/
theorem Exception_lr_of_bank_change (exc : Nat) (cpu : Cpu) (hE : exc < 8)
    (hm : ¬ ((exc = ExceptionFiq ∧ regCpsr.F cpu.Cpsr = true) ∨
             (exc = ExceptionIrq ∧ regCpsr.I cpu.Cpsr = true)))
    (hbank : RegF14ForMode (regCpsr.GetMode cpu.Cpsr) ≠ RegF14ForMode (specTargetMode exc)) :
    ∃ cpu', Exception exc cpu = some cpu' ∧
      cpu'.Regs 14 = (cpu.pc + specPcOffset (regCpsr.T cpu.Cpsr) exc) % 2 ^ 32 := by
  have e1 : ∀ m, RegF14ForMode
      (regCpsr.GetMode (bitClear (regCpsr.setBit cpu.Cpsr 5 false) 31 ||| m &&& 31))
      = RegF14ForMode (m % 32) := by
    intro m; rw [GetMode_mask, and_31]
  have e2 : regCpsr.GetMode (regCpsr.setBit cpu.Cpsr 5 false) = regCpsr.GetMode cpu.Cpsr :=
    GetMode_setBit _ _ _ (by decide)
  obtain ⟨t1, t2, t3, t4, t5⟩ := RegF14ForMode_target
  interval_cases exc <;>
    simp [ExceptionFiq, ExceptionIrq] at hm <;>
    simp [specTargetMode, ExceptionFiq, ExceptionIrq,
      ExceptionReset, ExceptionSwi, CpuModeSupervisor,
      CpuModeUser, CpuModeSystem, CpuModeFiq, CpuModeAbort, CpuModeIrq, CpuModeUndefined,
      ExceptionAddressOverflow, ExceptionUndefined, ExceptionPrefetchAbort, ExceptionDataAbort,
      t1, t2, t3, t4, t5] at hbank <;>
    simp [Exception, excMode, excPcOffsetThumb, excPcOffsetArm, ExceptionFiq, ExceptionIrq,
      ExceptionReset, ExceptionSwi, RegSpsrForMode, CpuModeSupervisor,
      CpuModeUser, CpuModeSystem, CpuModeFiq, CpuModeAbort, CpuModeIrq, CpuModeUndefined,
      opRead16Effect, SetWithMask_fields, setBank_fields, upd, hm, SetWithMask_Regs14,
      regCpsr.SetT, e1, e2, u32, specPcOffset, hbank, t1, t2, t3, t4, t5, Cpu.getBank,
      Cpu.setBank]
  all_goals (split_ifs <;> rfl)

/-- Supporting C3: when the mode before the call has the bank of the target
mode (the CPU is already in the target mode), `Exception(E)` leaves the visible
R14 as it was. -/
theorem Exception_lr_of_same_bank (exc : Nat) (cpu : Cpu) (hE : exc < 8)
    (hm : ¬ ((exc = ExceptionFiq ∧ regCpsr.F cpu.Cpsr = true) ∨
             (exc = ExceptionIrq ∧ regCpsr.I cpu.Cpsr = true)))
    (hbank : RegF14ForMode (regCpsr.GetMode cpu.Cpsr) = RegF14ForMode (specTargetMode exc)) :
    ∃ cpu', Exception exc cpu = some cpu' ∧ cpu'.Regs 14 = cpu.Regs 14 := by
  have e1 : ∀ m, RegF14ForMode
      (regCpsr.GetMode (bitClear (regCpsr.setBit cpu.Cpsr 5 false) 31 ||| m &&& 31))
      = RegF14ForMode (m % 32) := by
    intro m; rw [GetMode_mask, and_31]
  have e2 : regCpsr.GetMode (regCpsr.setBit cpu.Cpsr 5 false) = regCpsr.GetMode cpu.Cpsr :=
    GetMode_setBit _ _ _ (by decide)
  obtain ⟨t1, t2, t3, t4, t5⟩ := RegF14ForMode_target
  interval_cases exc <;>
    simp [ExceptionFiq, ExceptionIrq] at hm <;>
    simp [specTargetMode, ExceptionFiq, ExceptionIrq,
      ExceptionReset, ExceptionSwi, CpuModeSupervisor,
      CpuModeUser, CpuModeSystem, CpuModeFiq, CpuModeAbort, CpuModeIrq, CpuModeUndefined,
      ExceptionAddressOverflow, ExceptionUndefined, ExceptionPrefetchAbort, ExceptionDataAbort,
      t1, t2, t3, t4, t5] at hbank <;>
    simp [Exception, excMode, excPcOffsetThumb, excPcOffsetArm, ExceptionFiq, ExceptionIrq,
      ExceptionReset, ExceptionSwi, RegSpsrForMode, CpuModeSupervisor,
      CpuModeUser, CpuModeSystem, CpuModeFiq, CpuModeAbort, CpuModeIrq, CpuModeUndefined,
      opRead16Effect, SetWithMask_fields, setBank_fields, upd, hm, SetWithMask_Regs14,
      regCpsr.SetT, e1, e2, u32, hbank, t1, t2, t3, t4, t5, Cpu.getBank,
      Cpu.setBank]

/-- C3 at a failing input: SWI raised while the CPU is already in Supervisor
mode (CPSR `0x33`, pc `0x3000`, visible R14 `0x1234`). The exception is taken
(mode Supervisor, SPSR slot 1 = `0x33`, pc = `0x8`) but the R14 visible
afterwards is still `0x1234`, not `pc_before + off = 0x3000`. -/
theorem Exception_swi_in_supervisor_keeps_lr :
    (Exception ExceptionSwi cpuSvc).map
        (fun c => (c.Regs 14, regCpsr.GetMode c.Cpsr, c.SpsrBank 1, c.pc)) =
      some (0x1234, CpuModeSupervisor, 0x33, 0x8) ∧
    (cpuSvc.pc + specPcOffset (regCpsr.T cpuSvc.Cpsr) ExceptionSwi) % 2 ^ 32 = 0x3000 := by
  decide

/-- C4: for every exception kind `E` in 0..7 and every state in which `E` is
not masked, after `Exception(E)` the CPSR mode field is the target mode of the
spec's table, `T` is clear, `I` is set, `F` is set for Reset and FIQ and keeps
its value otherwise, and `N`, `Z`, `C`, `V` keep their values. -/
theorem Exception_cpsr (exc : Nat) (cpu : Cpu) (hE : exc < 8)
    (hm : ¬ ((exc = ExceptionFiq ∧ regCpsr.F cpu.Cpsr = true) ∨
             (exc = ExceptionIrq ∧ regCpsr.I cpu.Cpsr = true))) :
    ∃ cpu', Exception exc cpu = some cpu' ∧
      regCpsr.GetMode cpu'.Cpsr = specTargetMode exc ∧
      regCpsr.T cpu'.Cpsr = false ∧ regCpsr.I cpu'.Cpsr = true ∧
      regCpsr.F cpu'.Cpsr =
        (if exc = ExceptionReset ∨ exc = ExceptionFiq then true else regCpsr.F cpu.Cpsr) ∧
      regCpsr.N cpu'.Cpsr = regCpsr.N cpu.Cpsr ∧ regCpsr.Z cpu'.Cpsr = regCpsr.Z cpu.Cpsr ∧
      regCpsr.C cpu'.Cpsr = regCpsr.C cpu.Cpsr ∧ regCpsr.V cpu'.Cpsr = regCpsr.V cpu.Cpsr := by
  interval_cases exc <;>
    simp [ExceptionFiq, ExceptionIrq, regCpsr.I, regCpsr.F] at hm <;>
    simp [Exception, excMode, excPcOffsetThumb, excPcOffsetArm, ExceptionFiq, ExceptionIrq,
      ExceptionReset, ExceptionSwi, RegSpsrForMode, RegF14ForMode, CpuModeSupervisor,
      CpuModeUser, CpuModeSystem, CpuModeFiq, CpuModeAbort, CpuModeIrq, CpuModeUndefined,
      opRead16Effect, SetWithMask_fields, setBank_fields, upd, hm, specTargetMode,
      ExceptionAddressOverflow, ExceptionUndefined, ExceptionPrefetchAbort, ExceptionDataAbort,
      regCpsr.T, regCpsr.I, regCpsr.F, regCpsr.N, regCpsr.Z, regCpsr.C, regCpsr.V,
      regCpsr.SetT, regCpsr.SetI, regCpsr.SetF, bit_setBit, bit_mask, GetMode_setBit,
      GetMode_mask, u32] <;>
    rfl

/-- C4 at the spec's scenario: SWI raised in User mode, Thumb state. -/
theorem Exception_cpsr_witness :
    ExceptionSwi < 8 ∧
    ¬ ((ExceptionSwi = ExceptionFiq ∧ regCpsr.F cpuUser.Cpsr = true) ∨
       (ExceptionSwi = ExceptionIrq ∧ regCpsr.I cpuUser.Cpsr = true)) ∧
    ∃ cpu', Exception ExceptionSwi cpuUser = some cpu' ∧
      regCpsr.GetMode cpu'.Cpsr = specTargetMode ExceptionSwi ∧
      regCpsr.T cpu'.Cpsr = false ∧ regCpsr.I cpu'.Cpsr = true ∧
      regCpsr.F cpu'.Cpsr =
        (if ExceptionSwi = ExceptionReset ∨ ExceptionSwi = ExceptionFiq then true
         else regCpsr.F cpuUser.Cpsr) ∧
      regCpsr.N cpu'.Cpsr = regCpsr.N cpuUser.Cpsr ∧
      regCpsr.Z cpu'.Cpsr = regCpsr.Z cpuUser.Cpsr ∧
      regCpsr.C cpu'.Cpsr = regCpsr.C cpuUser.Cpsr ∧
      regCpsr.V cpu'.Cpsr = regCpsr.V cpuUser.Cpsr :=
  ⟨by decide, by decide, Exception_cpsr ExceptionSwi cpuUser (by decide) (by decide)⟩

/-- C5: for every exception kind `E` in 0..7 and every state in which `E` is
not masked, after `Exception(E)` both `Regs[15]` and the fetch address `pc`
equal `base + 4*E`, `base` being the CP15 `exception_vector()` result when a
CP15 is attached and 0 otherwise. -/
theorem Exception_vector (exc : Nat) (cpu : Cpu) (hE : exc < 8)
    (hm : ¬ ((exc = ExceptionFiq ∧ regCpsr.F cpu.Cpsr = true) ∨
             (exc = ExceptionIrq ∧ regCpsr.I cpu.Cpsr = true))) :
    ∃ cpu', Exception exc cpu = some cpu' ∧
      cpu'.Regs 15 = specVectorBase cpu + 4 * exc ∧ cpu'.pc = specVectorBase cpu + 4 * exc := by
  interval_cases exc <;>
    simp [ExceptionFiq, ExceptionIrq] at hm <;>
    rcases hcp : cpu.cp15 with _ | ⟨_ | _⟩ <;>
    simp [Exception, excMode, excPcOffsetThumb, excPcOffsetArm, ExceptionFiq, ExceptionIrq,
      ExceptionReset, ExceptionSwi, RegSpsrForMode, RegF14ForMode, CpuModeSupervisor,
      CpuModeUser, CpuModeSystem, CpuModeFiq, CpuModeAbort, CpuModeIrq, CpuModeUndefined,
      opRead16Effect, SetWithMask_fields, setBank_fields, upd, hm, hcp, specVectorBase,
      Cp15.ExceptionVector, u32]

/-- C5 at the spec's scenario: SWI without CP15 lands at `0x8`. -/
theorem Exception_vector_witness :
    ExceptionSwi < 8 ∧
    ¬ ((ExceptionSwi = ExceptionFiq ∧ regCpsr.F cpuUser.Cpsr = true) ∨
       (ExceptionSwi = ExceptionIrq ∧ regCpsr.I cpuUser.Cpsr = true)) ∧
    specVectorBase cpuUser + 4 * ExceptionSwi = 0x8 ∧
    ∃ cpu', Exception ExceptionSwi cpuUser = some cpu' ∧
      cpu'.Regs 15 = specVectorBase cpuUser + 4 * ExceptionSwi ∧
      cpu'.pc = specVectorBase cpuUser + 4 * ExceptionSwi :=
  ⟨by decide, by decide, by decide,
    Exception_vector ExceptionSwi cpuUser (by decide) (by decide)⟩

/-! ## SPSR selection -/

/-- C6: `RegSpsrForMode` fails for User and System, returns the slots 0, 1, 2,
3, 4 of the SPSR bank for FIQ, Supervisor, Abort, IRQ, Undefined (pairwise
distinct, all below 5), and fails for every mode value that is not one of
these five privileged modes, so for every value outside the seven modes. -/
theorem RegSpsrForMode_spec :
    RegSpsrForMode CpuModeUser = none ∧ RegSpsrForMode CpuModeSystem = none ∧
    RegSpsrForMode CpuModeFiq = some 0 ∧ RegSpsrForMode CpuModeSupervisor = some 1 ∧
    RegSpsrForMode CpuModeAbort = some 2 ∧ RegSpsrForMode CpuModeIrq = some 3 ∧
    RegSpsrForMode CpuModeUndefined = some 4 ∧
    ([CpuModeFiq, CpuModeSupervisor, CpuModeAbort, CpuModeIrq, CpuModeUndefined].map
      RegSpsrForMode).Nodup ∧
    ∀ mode : Nat, RegSpsrForMode mode = none ↔
      (mode ≠ CpuModeFiq ∧ mode ≠ CpuModeSupervisor ∧ mode ≠ CpuModeAbort ∧
       mode ≠ CpuModeIrq ∧ mode ≠ CpuModeUndefined) := by
  refine ⟨by decide, by decide, by decide, by decide, by decide, by decide, by decide,
    by decide, ?_⟩
  intro mode
  unfold RegSpsrForMode
  simp only [CpuModeUser, CpuModeSystem, CpuModeFiq, CpuModeSupervisor, CpuModeAbort,
    CpuModeIrq, CpuModeUndefined]
  split_ifs <;> simp <;> omega

/-! ## The decoder partitions the high bytes -/

set_option maxRecDepth 100000 in
/-- C7: for every high byte `oph` in 0..255 at most one of the eighteen case
conditions of `WriteOp` holds, the format selected is the one whose pattern of
the spec's table matches `oph`, and the bytes that select no format (the
invalid-opcode handler) are exactly `0xB1, 0xB2, 0xB3, 0xB6, 0xB7, 0xB8, 0xB9,
0xBA, 0xBB, 0xBE, 0xBF`. -/
theorem WriteOp_partition :
    ∀ oph : Fin 256,
      (Format.all.filter (formatCond oph.val)).length ≤ 1 ∧
      (∀ f : Format, f ∈ Format.all →
        (WriteOp (oph.val <<< 8) = some f ↔ specMatches f oph.val = true)) ∧
      (WriteOp (oph.val <<< 8) = none ↔ oph.val ∈ specInvalidHighBytes) := by
  decide

/-- Every format is a case of the switch. -/
theorem Format.mem_all (f : Format) : f ∈ Format.all := by
  cases f <;> decide

/-! ## F2: ADD and SUB -/

/-- C8: for the F2 ADD handlers (register form, generator opcode 0, and 3-bit
immediate form, opcode 2) and 32-bit operands `a = Rs` and `b`: `Rd` is
`(a + b) mod 2^32`, `C` is set iff `a + b ≥ 2^32`, `V` iff the sum of `a` and
`b` read as signed lies outside `[-2^31, 2^31-1]`, `N` is bit 31 of the word
written and `Z` is set iff that word is 0. -/
theorem writeOpF2Add_add (gop op : Nat) (cpu : Cpu) (a b : Nat)
    (hadd : (gop >>> 9) &&& 3 = 0 ∨ (gop >>> 9) &&& 3 = 2)
    (ha : cpu.Regs ((op >>> 3) &&& 7) = a)
    (hb : (if (gop >>> 9) &&& 3 = 2 then (op >>> 6) &&& 7
           else cpu.Regs ((op >>> 6) &&& 7)) = b)
    (ha32 : a < 2 ^ 32) (hb32 : b < 2 ^ 32) :
    (writeOpF2Add gop op cpu).Regs (op &&& 7) = (a + b) % 2 ^ 32 ∧
    regCpsr.C (writeOpF2Add gop op cpu).Cpsr = decide (2 ^ 32 ≤ a + b) ∧
    regCpsr.V (writeOpF2Add gop op cpu).Cpsr =
      decide (toInt32 a + toInt32 b < -2 ^ 31 ∨ 2 ^ 31 - 1 < toInt32 a + toInt32 b) ∧
    regCpsr.N (writeOpF2Add gop op cpu).Cpsr =
      ((writeOpF2Add gop op cpu).Regs (op &&& 7)).testBit 31 ∧
    regCpsr.Z (writeOpF2Add gop op cpu).Cpsr =
      decide ((writeOpF2Add gop op cpu).Regs (op &&& 7) = 0) := by
  have hval : (if (((gop >>> 9) &&& 3) &&& 2 != 0) = true then u32 ((op >>> 6) &&& 7)
      else u32 (cpu.Regs ((op >>> 6) &&& 7))) = b := by
    rcases hadd with h | h <;> rw [h] at hb ⊢ <;> simp at hb ⊢ <;> rw [hb, u32] <;> omega
  have hrs : u32 (cpu.Regs ((op >>> 3) &&& 7)) = a := by rw [ha, u32]; omega
  have hc : decide ((a + b) % 2 ^ 32 < a) = decide (2 ^ 32 ≤ a + b) := by
    congr 1; apply propext; omega
  have hr : (a + b) % 2 ^ 32 < 2 ^ 32 := Nat.mod_lt _ (by norm_num)
  have hreg : (writeOpF2Add gop op cpu).Regs (op &&& 7) = (a + b) % 2 ^ 32 := by
    unfold writeOpF2Add
    simp only [hval, hrs, if_pos hadd]
    simp [upd, u32]
  rw [hreg]
  unfold writeOpF2Add
  simp only [hval, hrs, if_pos hadd]
  refine ⟨trivial, ?_, ?_, ?_, ?_⟩
  · simp only [regCpsr.C, regCpsr.SetNZ, regCpsr.SetVAdd, regCpsr.SetC, bit_setBit, u32]
    simpa using hc
  · simp only [regCpsr.V, regCpsr.SetNZ, regCpsr.SetVAdd, regCpsr.SetC, bit_setBit, u32]
    simpa using vflag_add a b ha32 hb32
  · simp only [regCpsr.N, regCpsr.SetNZ, regCpsr.SetVAdd, regCpsr.SetC, bit_setBit, u32]
    simpa using shr31_ne_zero _ hr
  · simp [regCpsr.Z, regCpsr.SetNZ, regCpsr.SetVAdd, regCpsr.SetC, bit_setBit, u32]

/-- C8 at the spec's scenario: `ADDS R0, R0, R1` (opcode `0x1840`) with
`R0 = 0xFFFFFFFF`, `R1 = 1`. -/
theorem writeOpF2Add_add_witness :
    ((0x1800 >>> 9) &&& 3 = 0 ∨ (0x1800 >>> 9) &&& 3 = 2) ∧
    (cpuR0R1 0xFFFFFFFF 1).Regs ((0x1840 >>> 3) &&& 7) = 0xFFFFFFFF ∧
    (if (0x1800 >>> 9) &&& 3 = 2 then (0x1840 >>> 6) &&& 7
     else (cpuR0R1 0xFFFFFFFF 1).Regs ((0x1840 >>> 6) &&& 7)) = 1 ∧
    0xFFFFFFFF < 2 ^ 32 ∧ 1 < 2 ^ 32 ∧
    (writeOpF2Add 0x1800 0x1840 (cpuR0R1 0xFFFFFFFF 1)).Regs (0x1840 &&& 7) =
      (0xFFFFFFFF + 1) % 2 ^ 32 ∧
    regCpsr.C (writeOpF2Add 0x1800 0x1840 (cpuR0R1 0xFFFFFFFF 1)).Cpsr =
      decide (2 ^ 32 ≤ 0xFFFFFFFF + 1) ∧
    regCpsr.V (writeOpF2Add 0x1800 0x1840 (cpuR0R1 0xFFFFFFFF 1)).Cpsr =
      decide (toInt32 0xFFFFFFFF + toInt32 1 < -2 ^ 31 ∨
        2 ^ 31 - 1 < toInt32 0xFFFFFFFF + toInt32 1) ∧
    regCpsr.N (writeOpF2Add 0x1800 0x1840 (cpuR0R1 0xFFFFFFFF 1)).Cpsr =
      ((writeOpF2Add 0x1800 0x1840 (cpuR0R1 0xFFFFFFFF 1)).Regs (0x1840 &&& 7)).testBit 31 ∧
    regCpsr.Z (writeOpF2Add 0x1800 0x1840 (cpuR0R1 0xFFFFFFFF 1)).Cpsr =
      decide ((writeOpF2Add 0x1800 0x1840 (cpuR0R1 0xFFFFFFFF 1)).Regs (0x1840 &&& 7) = 0) :=
  ⟨by decide, by decide, by decide, by decide, by decide,
    writeOpF2Add_add 0x1800 0x1840 (cpuR0R1 0xFFFFFFFF 1) 0xFFFFFFFF 1
      (by decide) (by decide) (by decide) (by decide) (by decide)⟩

/-- The spec's ADD scenarios, evaluated: `0xFFFFFFFF + 1` gives 0 with Z=1,
N=0, C=1, V=0; `0x7FFFFFFF + 1` gives `0x80000000` with N=1, Z=0, C=0, V=1. -/
theorem writeOpF2Add_add_scenarios :
    ((writeOpF2Add 0x1800 0x1840 (cpuR0R1 0xFFFFFFFF 1)).Regs 0,
      regCpsr.N (writeOpF2Add 0x1800 0x1840 (cpuR0R1 0xFFFFFFFF 1)).Cpsr,
      regCpsr.Z (writeOpF2Add 0x1800 0x1840 (cpuR0R1 0xFFFFFFFF 1)).Cpsr,
      regCpsr.C (writeOpF2Add 0x1800 0x1840 (cpuR0R1 0xFFFFFFFF 1)).Cpsr,
      regCpsr.V (writeOpF2Add 0x1800 0x1840 (cpuR0R1 0xFFFFFFFF 1)).Cpsr) =
      (0, false, true, true, false) ∧
    ((writeOpF2Add 0x1800 0x1840 (cpuR0R1 0x7FFFFFFF 1)).Regs 0,
      regCpsr.N (writeOpF2Add 0x1800 0x1840 (cpuR0R1 0x7FFFFFFF 1)).Cpsr,
      regCpsr.Z (writeOpF2Add 0x1800 0x1840 (cpuR0R1 0x7FFFFFFF 1)).Cpsr,
      regCpsr.C (writeOpF2Add 0x1800 0x1840 (cpuR0R1 0x7FFFFFFF 1)).Cpsr,
      regCpsr.V (writeOpF2Add 0x1800 0x1840 (cpuR0R1 0x7FFFFFFF 1)).Cpsr) =
      (0x80000000, true, false, false, true) := by
  decide

/-- C9: for the F2 SUB handlers (register form, generator opcode 1, and 3-bit
immediate form, opcode 3) and 32-bit operands `a = Rs` and `b`: `Rd` is
`(a - b) mod 2^32`, `C` is set iff `a ≥ b` unsigned (no borrow), `V` iff the
difference of `a` and `b` read as signed lies outside `[-2^31, 2^31-1]`, `N`
is bit 31 of the word written and `Z` is set iff that word is 0. -/
theorem writeOpF2Add_sub (gop op : Nat) (cpu : Cpu) (a b : Nat)
    (hsub : (gop >>> 9) &&& 3 = 1 ∨ (gop >>> 9) &&& 3 = 3)
    (ha : cpu.Regs ((op >>> 3) &&& 7) = a)
    (hb : (if (gop >>> 9) &&& 3 = 3 then (op >>> 6) &&& 7
           else cpu.Regs ((op >>> 6) &&& 7)) = b)
    (ha32 : a < 2 ^ 32) (hb32 : b < 2 ^ 32) :
    (((writeOpF2Add gop op cpu).Regs (op &&& 7) : Nat) : Int) = ((a : Int) - (b : Int)) % 2 ^ 32 ∧
    regCpsr.C (writeOpF2Add gop op cpu).Cpsr = decide (b ≤ a) ∧
    regCpsr.V (writeOpF2Add gop op cpu).Cpsr =
      decide (toInt32 a - toInt32 b < -2 ^ 31 ∨ 2 ^ 31 - 1 < toInt32 a - toInt32 b) ∧
    regCpsr.N (writeOpF2Add gop op cpu).Cpsr =
      ((writeOpF2Add gop op cpu).Regs (op &&& 7)).testBit 31 ∧
    regCpsr.Z (writeOpF2Add gop op cpu).Cpsr =
      decide ((writeOpF2Add gop op cpu).Regs (op &&& 7) = 0) := by
  have hval : (if (((gop >>> 9) &&& 3) &&& 2 != 0) = true then u32 ((op >>> 6) &&& 7)
      else u32 (cpu.Regs ((op >>> 6) &&& 7))) = b := by
    rcases hsub with h | h <;> rw [h] at hb ⊢ <;> simp at hb ⊢ <;> rw [hb, u32] <;> omega
  have hrs : u32 (cpu.Regs ((op >>> 3) &&& 7)) = a := by rw [ha, u32]; omega
  have hc : decide ((a + 2 ^ 32 - b) % 2 ^ 32 ≤ a) = decide (b ≤ a) := by
    congr 1; apply propext; omega
  have hr : (a + 2 ^ 32 - b) % 2 ^ 32 < 2 ^ 32 := Nat.mod_lt _ (by norm_num)
  have hn : ¬ ((gop >>> 9) &&& 3 = 0 ∨ (gop >>> 9) &&& 3 = 2) := by omega
  have hreg : (writeOpF2Add gop op cpu).Regs (op &&& 7) = (a + 2 ^ 32 - b) % 2 ^ 32 := by
    unfold writeOpF2Add
    simp only [hval, hrs, if_neg hn]
    simp [upd, u32]
  rw [hreg]
  unfold writeOpF2Add
  simp only [hval, hrs, if_neg hn]
  refine ⟨by omega, ?_, ?_, ?_, ?_⟩
  · simp only [regCpsr.C, regCpsr.SetNZ, regCpsr.SetVSub, regCpsr.SetC, bit_setBit, u32]
    simpa using hc
  · simp only [regCpsr.V, regCpsr.SetNZ, regCpsr.SetVSub, regCpsr.SetC, bit_setBit, u32]
    simpa using vflag_sub a b ha32 hb32
  · simp only [regCpsr.N, regCpsr.SetNZ, regCpsr.SetVSub, regCpsr.SetC, bit_setBit, u32]
    simpa using shr31_ne_zero _ hr
  · simp [regCpsr.Z, regCpsr.SetNZ, regCpsr.SetVSub, regCpsr.SetC, bit_setBit, u32]

/-- C9 at the spec's scenario: `SUBS R0, R0, R1` (opcode `0x1A40`) with
`R0 = 5`, `R1 = 3`. -/
theorem writeOpF2Add_sub_witness :
    ((0x1A00 >>> 9) &&& 3 = 1 ∨ (0x1A00 >>> 9) &&& 3 = 3) ∧
    (cpuR0R1 5 3).Regs ((0x1A40 >>> 3) &&& 7) = 5 ∧
    (if (0x1A00 >>> 9) &&& 3 = 3 then (0x1A40 >>> 6) &&& 7
     else (cpuR0R1 5 3).Regs ((0x1A40 >>> 6) &&& 7)) = 3 ∧
    5 < 2 ^ 32 ∧ 3 < 2 ^ 32 ∧
    (((writeOpF2Add 0x1A00 0x1A40 (cpuR0R1 5 3)).Regs (0x1A40 &&& 7) : Nat) : Int) =
      (((5 : Nat) : Int) - ((3 : Nat) : Int)) % 2 ^ 32 ∧
    regCpsr.C (writeOpF2Add 0x1A00 0x1A40 (cpuR0R1 5 3)).Cpsr = decide (3 ≤ 5) ∧
    regCpsr.V (writeOpF2Add 0x1A00 0x1A40 (cpuR0R1 5 3)).Cpsr =
      decide (toInt32 5 - toInt32 3 < -2 ^ 31 ∨ 2 ^ 31 - 1 < toInt32 5 - toInt32 3) ∧
    regCpsr.N (writeOpF2Add 0x1A00 0x1A40 (cpuR0R1 5 3)).Cpsr =
      ((writeOpF2Add 0x1A00 0x1A40 (cpuR0R1 5 3)).Regs (0x1A40 &&& 7)).testBit 31 ∧
    regCpsr.Z (writeOpF2Add 0x1A00 0x1A40 (cpuR0R1 5 3)).Cpsr =
      decide ((writeOpF2Add 0x1A00 0x1A40 (cpuR0R1 5 3)).Regs (0x1A40 &&& 7) = 0) :=
  ⟨by decide, by decide, by decide, by decide, by decide,
    writeOpF2Add_sub 0x1A00 0x1A40 (cpuR0R1 5 3) 5 3
      (by decide) (by decide) (by decide) (by decide) (by decide)⟩

/-- The spec's SUB scenario, evaluated: `5 - 3` gives 2 with N=0, Z=0, C=1,
V=0. -/
theorem writeOpF2Add_sub_scenario :
    ((writeOpF2Add 0x1A00 0x1A40 (cpuR0R1 5 3)).Regs 0,
      regCpsr.N (writeOpF2Add 0x1A00 0x1A40 (cpuR0R1 5 3)).Cpsr,
      regCpsr.Z (writeOpF2Add 0x1A00 0x1A40 (cpuR0R1 5 3)).Cpsr,
      regCpsr.C (writeOpF2Add 0x1A00 0x1A40 (cpuR0R1 5 3)).Cpsr,
      regCpsr.V (writeOpF2Add 0x1A00 0x1A40 (cpuR0R1 5 3)).Cpsr) =
      (2, false, false, true, false) := by
  decide

/-! ## F1: shift by immediate -/

/-- C10: the F1 handlers (generator opcode 0 LSL, 1 LSR, 2 ASR) return, and for
every 32-bit `Rs` and 5-bit offset `k` the word written to `Rd` and the carry
are those of the reference barrel shifter: LSL by 0 writes `Rs` and keeps `C`,
LSL by `k` in 1..31 writes `Rs*2^k mod 2^32` with `C` = bit `32-k` of `Rs`; LSR
and ASR read `k = 0` as 32, LSR writing `floor(Rs/2^k)` (0 for 32) and ASR the
arithmetic shift of `Rs` read as signed (0 or `0xFFFFFFFF` for 32), both with
`C` = bit `k-1` of `Rs`; `N` and `Z` reflect the word written. -/
theorem writeOpF1Shift_spec (gop op : Nat) (cpu : Cpu)
    (hop : (gop >>> 11) &&& 3 < 3) (hrs : cpu.Regs ((op >>> 3) &&& 7) < 2 ^ 32) :
    ∃ cpu', writeOpF1Shift gop op cpu = some cpu' ∧
      (cpu'.Regs (op &&& 7), regCpsr.C cpu'.Cpsr) =
        specBarrelShifter ((gop >>> 11) &&& 3) ((op >>> 6) &&& 0x1F)
          (cpu.Regs ((op >>> 3) &&& 7)) (regCpsr.C cpu.Cpsr) ∧
      regCpsr.N cpu'.Cpsr = (cpu'.Regs (op &&& 7)).testBit 31 ∧
      regCpsr.Z cpu'.Cpsr = decide (cpu'.Regs (op &&& 7) = 0) ∧
      ((op >>> 6) &&& 0x1F = 0 ∧ (gop >>> 11) &&& 3 = 1 → cpu'.Regs (op &&& 7) = 0) ∧
      ((op >>> 6) &&& 0x1F = 0 ∧ (gop >>> 11) &&& 3 = 2 → cpu'.Regs (op &&& 7) =
        if (cpu.Regs ((op >>> 3) &&& 7)).testBit 31 then 0xFFFFFFFF else 0) := by
  obtain ⟨cpu', h1, h2, h3, h4⟩ := writeOpF1Shift_refines gop op cpu hop hrs
  obtain ⟨z1, z2⟩ := specBarrelShifter_offset_zero (cpu.Regs ((op >>> 3) &&& 7))
    (regCpsr.C cpu.Cpsr) hrs
  refine ⟨cpu', h1, h2, h3, h4, ?_, ?_⟩
  · rintro ⟨hk, ho⟩
    rw [hk, ho] at h2
    rw [← z1, ← h2]
  · rintro ⟨hk, ho⟩
    rw [hk, ho] at h2
    rw [← z2, ← h2]

/-- C10 at a concrete input: `LSL R0, R1, #4` (opcode `0x0108`) with
`R1 = 0x90000001` writes `0x00000010` and sets `C` to bit 28 of `R1`. -/
theorem writeOpF1Shift_spec_witness :
    (0x0000 >>> 11) &&& 3 < 3 ∧ (cpuR0R1 0 0x90000001).Regs ((0x0108 >>> 3) &&& 7) < 2 ^ 32 ∧
    specBarrelShifter 0 4 0x90000001 false = (0x10, true) ∧
    ∃ cpu', writeOpF1Shift 0x0000 0x0108 (cpuR0R1 0 0x90000001) = some cpu' ∧
      (cpu'.Regs (0x0108 &&& 7), regCpsr.C cpu'.Cpsr) =
        specBarrelShifter ((0x0000 >>> 11) &&& 3) ((0x0108 >>> 6) &&& 0x1F)
          ((cpuR0R1 0 0x90000001).Regs ((0x0108 >>> 3) &&& 7))
          (regCpsr.C (cpuR0R1 0 0x90000001).Cpsr) ∧
      regCpsr.N cpu'.Cpsr = (cpu'.Regs (0x0108 &&& 7)).testBit 31 ∧
      regCpsr.Z cpu'.Cpsr = decide (cpu'.Regs (0x0108 &&& 7) = 0) ∧
      ((0x0108 >>> 6) &&& 0x1F = 0 ∧ (0x0000 >>> 11) &&& 3 = 1 →
        cpu'.Regs (0x0108 &&& 7) = 0) ∧
      ((0x0108 >>> 6) &&& 0x1F = 0 ∧ (0x0000 >>> 11) &&& 3 = 2 →
        cpu'.Regs (0x0108 &&& 7) =
          if ((cpuR0R1 0 0x90000001).Regs ((0x0108 >>> 3) &&& 7)).testBit 31 then 0xFFFFFFFF
          else 0) :=
  ⟨by decide, by decide, by decide,
    writeOpF1Shift_spec 0x0000 0x0108 (cpuR0R1 0 0x90000001) (by decide) (by decide)⟩

section Thumb

open regCpsr

/-! ## F4: ADC and SBC -/

/-- C11: for the F4 ADC (generator opcode 5) and SBC (opcode 6) handlers, 32-bit
`rd`, `rs` and the incoming carry `c = CB()`: ADC writes `(rd + rs + c) mod 2^32`
and SBC writes `(rd - rs + c - 1) mod 2^32`; `C` and `V` are those of the base
operation alone (ADC: `C` iff `rd + rs ≥ 2^32`; SBC: `C` iff `rd ≥ rs`; `V` by
the `set_v_add` / `set_v_sub` formula on the base result), and `N`, `Z` are
those of the word written. -/
theorem WriteAluOp_adc_sbc (gop op : Nat) (cpu : Cpu) (rd rs : Nat)
    (hgop : gop >>> 10 = 0x10)
    (hrd : cpu.Regs (op &&& 0x7) = rd) (hrs : cpu.Regs ((op >>> 3) &&& 0x7) = rs)
    (hrd32 : rd < 2 ^ 32) (hrs32 : rs < 2 ^ 32) :
    ((gop >>> 6) &&& 0xF = 5 →
      ∃ cpu', WriteAluOp gop op cpu = some cpu' ∧
        cpu'.Regs (op &&& 0x7) = (rd + rs + regCpsr.CB cpu.Cpsr) % 2 ^ 32 ∧
        regCpsr.C cpu'.Cpsr = decide (2 ^ 32 ≤ rd + rs) ∧
        regCpsr.V cpu'.Cpsr =
          decide (((rd ^^^ ((rd + rs) % 2 ^ 32)) &&& (rs ^^^ ((rd + rs) % 2 ^ 32))) >>> 31 ≠ 0) ∧
        regCpsr.N cpu'.Cpsr = (cpu'.Regs (op &&& 0x7)).testBit 31 ∧
        regCpsr.Z cpu'.Cpsr = decide (cpu'.Regs (op &&& 0x7) = 0)) ∧
    ((gop >>> 6) &&& 0xF = 6 →
      ∃ cpu', WriteAluOp gop op cpu = some cpu' ∧
        ((cpu'.Regs (op &&& 0x7) : Nat) : Int) =
          ((rd : Int) - (rs : Int) + (regCpsr.CB cpu.Cpsr : Nat) - 1) % 2 ^ 32 ∧
        regCpsr.C cpu'.Cpsr = decide (rs ≤ rd) ∧
        regCpsr.V cpu'.Cpsr =
          decide (((rd ^^^ rs) &&& (rd ^^^ ((rd + 2 ^ 32 - rs) % 2 ^ 32))) >>> 31 ≠ 0) ∧
        regCpsr.N cpu'.Cpsr = (cpu'.Regs (op &&& 0x7)).testBit 31 ∧
        regCpsr.Z cpu'.Cpsr = decide (cpu'.Regs (op &&& 0x7) = 0)) := by
  have hud : u32 rd = rd := by rw [u32]; omega
  have hus : u32 rs = rs := by rw [u32]; omega
  have hcb : regCpsr.CB cpu.Cpsr ≤ 1 := by unfold regCpsr.CB; split_ifs <;> omega
  have hg : ¬ gop >>> 10 ≠ 0x10 := by simp [hgop]
  constructor
  · intro h5
    have hc : decide ((rd + rs) % 2 ^ 32 < rd) = decide (2 ^ 32 ≤ rd + rs) := by
      congr 1; apply propext; omega
    have hres : u32 (u32 (rd + rs) + regCpsr.CB cpu.Cpsr) = (rd + rs + regCpsr.CB cpu.Cpsr) % 2 ^ 32 := by
      simp only [u32]; omega
    have hlt : (rd + rs + regCpsr.CB cpu.Cpsr) % 2 ^ 32 < 2 ^ 32 := Nat.mod_lt _ (by norm_num)
    unfold WriteAluOp
    simp only [if_neg hg, h5, hrd, hrs, hud, hus, hres]
    simp +decide only [if_false, if_true]
    refine ⟨_, rfl, ?_, ?_, ?_, ?_, ?_⟩
    · simp [upd]
    · simp only [regCpsr.C, SetNZ, SetVAdd, SetC, bit_setBit, u32]
      simpa using hc
    · simp only [regCpsr.V, SetNZ, SetVAdd, SetC, bit_setBit, u32]
      simp
    · simp only [regCpsr.N, SetNZ, SetVAdd, SetC, bit_setBit, upd]
      simpa using shr31_ne_zero _ hlt
    · simp [regCpsr.Z, SetNZ, SetVAdd, SetC, bit_setBit, upd]
  · intro h6
    have hc : decide ((rd + 2 ^ 32 - rs) % 2 ^ 32 ≤ rd) = decide (rs ≤ rd) := by
      congr 1; apply propext; omega
    generalize hcf : regCpsr.CB cpu.Cpsr = cf at hcb
    have hres : ((u32 (u32 (rd + 2 ^ 32 - rs) + u32 (cf + 2 ^ 32 - 1)) : Nat) : Int) =
        ((rd : Int) - (rs : Int) + (cf : Nat) - 1) % 2 ^ 32 := by
      simp only [u32]; omega
    have hlt : u32 (u32 (rd + 2 ^ 32 - rs) + u32 (cf + 2 ^ 32 - 1)) < 2 ^ 32 :=
      Nat.mod_lt _ (by norm_num)
    generalize hr : u32 (u32 (rd + 2 ^ 32 - rs) + u32 (cf + 2 ^ 32 - 1)) = res at hres hlt
    unfold WriteAluOp
    simp only [if_neg hg, h6, hrd, hrs, hud, hus, hcf, hr]
    simp +decide only [if_false, if_true]
    refine ⟨_, rfl, ?_, ?_, ?_, ?_, ?_⟩
    · simpa [upd] using hres
    · simp only [regCpsr.C, SetNZ, SetVSub, SetC, bit_setBit, u32]
      simpa using hc
    · simp only [regCpsr.V, SetNZ, SetVSub, SetC, bit_setBit, u32]
      simp
    · simp only [regCpsr.N, SetNZ, SetVSub, SetC, bit_setBit, upd]
      simpa using shr31_ne_zero _ hlt
    · simp [regCpsr.Z, SetNZ, SetVSub, SetC, bit_setBit, upd]

/-- C11 at a concrete input: `ADCS R0, R1` (opcode `0x4148`) with
`R0 = 0xFFFFFFFF`, `R1 = 1` and the carry set. -/
theorem WriteAluOp_adc_sbc_witness :
    (0x4140 >>> 10 = 0x10 ∧ (cpuR0R1C 0xFFFFFFFF 1).Regs (0x4148 &&& 0x7) = 0xFFFFFFFF ∧
      (cpuR0R1C 0xFFFFFFFF 1).Regs ((0x4148 >>> 3) &&& 0x7) = 1 ∧
      0xFFFFFFFF < 2 ^ 32 ∧ 1 < 2 ^ 32 ∧ (0x4140 >>> 6) &&& 0xF = 5) ∧
    ∃ cpu', WriteAluOp 0x4140 0x4148 (cpuR0R1C 0xFFFFFFFF 1) = some cpu' ∧
      cpu'.Regs (0x4148 &&& 0x7) =
        (0xFFFFFFFF + 1 + regCpsr.CB (cpuR0R1C 0xFFFFFFFF 1).Cpsr) % 2 ^ 32 ∧
      regCpsr.C cpu'.Cpsr = decide (2 ^ 32 ≤ 0xFFFFFFFF + 1) ∧
      regCpsr.V cpu'.Cpsr =
        decide (((0xFFFFFFFF ^^^ ((0xFFFFFFFF + 1) % 2 ^ 32)) &&&
          (1 ^^^ ((0xFFFFFFFF + 1) % 2 ^ 32))) >>> 31 ≠ 0) ∧
      regCpsr.N cpu'.Cpsr = (cpu'.Regs (0x4148 &&& 0x7)).testBit 31 ∧
      regCpsr.Z cpu'.Cpsr = decide (cpu'.Regs (0x4148 &&& 0x7) = 0) :=
  ⟨⟨by decide, by decide, by decide, by decide, by decide, by decide⟩,
    (WriteAluOp_adc_sbc 0x4140 0x4148 (cpuR0R1C 0xFFFFFFFF 1) 0xFFFFFFFF 1
      (by decide) (by decide) (by decide) (by decide) (by decide)).1 (by decide)⟩

/-- The ADC scenario, evaluated: `0xFFFFFFFF + 1 + 1` writes 1 with N=0, Z=0,
C=1 (that of `0xFFFFFFFF + 1`), V=0. -/
theorem WriteAluOp_adc_scenario :
    (WriteAluOp 0x4140 0x4148 (cpuR0R1C 0xFFFFFFFF 1)).map
        (fun c => (c.Regs 0, regCpsr.N c.Cpsr, regCpsr.Z c.Cpsr, regCpsr.C c.Cpsr,
          regCpsr.V c.Cpsr)) = some (1, false, false, true, false) := by
  decide

/-! ## F2: the second operand -/

/-- C12, amended: for every opcode, so for every F2 opcode, the second operand
of the F2 handler is the 3-bit immediate `(op>>6)&7` exactly when opcode bit 10
is set and the register `R[(op>>6)&7]` otherwise; opcode bit 9 selects SUB
over ADD, `Rd` being `Rs - operand` when it is set and `Rs + operand` when it
is clear. -/
theorem writeOpF2Add_operand (op : Nat) (cpu : Cpu) :
    writeOpF2Add.val ((op >>> 8) <<< 8) op cpu =
      (if op.testBit 10 = true then (op >>> 6) &&& 7 else u32 (cpu.Regs ((op >>> 6) &&& 7))) ∧
    (writeOpF2Add ((op >>> 8) <<< 8) op cpu).Regs (op &&& 7) =
      if op.testBit 9 = true then
        u32 (u32 (cpu.Regs ((op >>> 3) &&& 7)) + 2 ^ 32 -
          writeOpF2Add.val ((op >>> 8) <<< 8) op cpu)
      else
        u32 (u32 (cpu.Regs ((op >>> 3) &&& 7)) + writeOpF2Add.val ((op >>> 8) <<< 8) op cpu) := by
  have h7 : (op >>> 6) &&& 7 < 8 := by
    have := Nat.and_pow_two_sub_one_eq_mod (op >>> 6) 3
    simp only [Nat.reducePow, Nat.reduceSub] at this
    omega
  constructor
  · unfold writeOpF2Add.val
    simp only [gop_bit10]
    split_ifs
    · rw [u32]; omega
    · rfl
  · rw [writeOpF2Add_val_used]
    have h3 : ∀ x : Nat, x &&& 3 = x % 4 := fun x => Nat.and_pow_two_sub_one_eq_mod x 2
    have hb : op.testBit 9 = decide (op / 2 ^ 9 % 2 = 1) := Nat.testBit_to_div_mod
    rw [hb, h3, Nat.shiftRight_eq_div_pow, Nat.shiftRight_eq_div_pow, Nat.shiftLeft_eq]
    by_cases h : op / 2 ^ 9 % 2 = 1
    · have hn : ¬ (op / 2 ^ 8 * 2 ^ 8 / 2 ^ 9 % 4 = 0 ∨ op / 2 ^ 8 * 2 ^ 8 / 2 ^ 9 % 4 = 2) := by
        omega
      simp only [h, hn, decide_True, if_true, if_false]
    · have hn : (op / 2 ^ 8 * 2 ^ 8 / 2 ^ 9 % 4 = 0 ∨ op / 2 ^ 8 * 2 ^ 8 / 2 ^ 9 % 4 = 2) := by
        omega
      simp only [h, hn, decide_False, if_true, if_false]
      simp

/-- C12 as stated fails: for the F2 opcode `0x1A40` (`SUBS R0, R0, R1`, bit 9
set, bit 10 clear) with `R1 = 3` the second operand is the register value 3,
not the immediate `(op>>6)&7 = 1`. -/
theorem writeOpF2Add_operand_not_bit9 :
    ¬ (∀ (op : Nat) (cpu : Cpu), op >>> 11 = 3 →
        writeOpF2Add.val ((op >>> 8) <<< 8) op cpu =
          (if op.testBit 9 = true then (op >>> 6) &&& 7
           else u32 (cpu.Regs ((op >>> 6) &&& 7)))) := by
  intro h
  have := h 0x1A40 (cpuR0R1 5 3) (by decide)
  revert this
  decide

/-! ## F5: BX and BLX -/

/-- C13: for the F5 sub-op 3 handler (BX / BLX) and the 32-bit source value
`rs = R[(op>>3)&0xF]` read before any write: if bit 0 of `rs` is 1, `T` is
unchanged and `pc` is `rs` with bit 0 cleared; if bit 0 is 0, `T` is cleared
and `pc` is `rs` with bits [1:0] cleared; with opcode bit 7 set R14 becomes
`R15 + 1` (mod 2^32), with it clear R14 is unchanged; `N`, `Z`, `C`, `V` are
unchanged. -/
theorem writeOpF5HiReg_bx (gop op : Nat) (cpu : Cpu) (rs : Nat)
    (hop : (gop >>> 8) &&& 3 = 3)
    (hrs : cpu.Regs ((op >>> 3) &&& 0xF) = rs) (hrs32 : rs < 2 ^ 32) :
    (rs.testBit 0 = true →
      regCpsr.T (writeOpF5HiReg gop op cpu).Cpsr = regCpsr.T cpu.Cpsr ∧
      (writeOpF5HiReg gop op cpu).pc = 2 * (rs / 2)) ∧
    (rs.testBit 0 = false →
      regCpsr.T (writeOpF5HiReg gop op cpu).Cpsr = false ∧
      (writeOpF5HiReg gop op cpu).pc = 4 * (rs / 4)) ∧
    (op.testBit 7 = true →
      (writeOpF5HiReg gop op cpu).Regs 14 = (cpu.Regs 15 + 1) % 2 ^ 32) ∧
    (op.testBit 7 = false → (writeOpF5HiReg gop op cpu).Regs 14 = cpu.Regs 14) ∧
    regCpsr.N (writeOpF5HiReg gop op cpu).Cpsr = regCpsr.N cpu.Cpsr ∧
    regCpsr.Z (writeOpF5HiReg gop op cpu).Cpsr = regCpsr.Z cpu.Cpsr ∧
    regCpsr.C (writeOpF5HiReg gop op cpu).Cpsr = regCpsr.C cpu.Cpsr ∧
    regCpsr.V (writeOpF5HiReg gop op cpu).Cpsr = regCpsr.V cpu.Cpsr := by
  have hu : u32 rs = rs := by rw [u32]; omega
  have hb0 : rs.testBit 0 = decide (rs % 2 = 1) := by
    rw [Nat.testBit_to_div_mod]; simp
  have h7 : (op &&& 0x80 ≠ 0) ↔ op.testBit 7 = true := and_two_pow_ne_zero op 7
  unfold writeOpF5HiReg
  simp only [hop, hrs, hu, and_one_eq_mod, bitClear_1, bitClear_3]
  simp +decide only [if_false]
  by_cases hb : rs % 2 = 0
  · have hb' : ¬ rs % 2 = 1 := by omega
    simp only [hb, hb', hb0, if_true, decide_False, decide_True]
    by_cases hl : op.testBit 7 = true
    · have hl' := h7.mpr hl
      simp only [hl, hl', if_true, ne_eq, not_false_eq_true]
      simp [regCpsr.T, regCpsr.N, regCpsr.Z, regCpsr.C, regCpsr.V, SetT, bit_setBit, upd, u32]
      omega
    · have hl' : ¬ (op &&& 0x80 ≠ 0) := fun h => hl (h7.mp h)
      simp only [hl, hl', if_false]
      simp [regCpsr.T, regCpsr.N, regCpsr.Z, regCpsr.C, regCpsr.V, SetT, bit_setBit, upd, u32]
      omega
  · have hb' : rs % 2 = 1 := by omega
    simp only [hb, hb', hb0, if_false, decide_False, decide_True]
    by_cases hl : op.testBit 7 = true
    · have hl' := h7.mpr hl
      simp only [hl, hl', if_true, ne_eq, not_false_eq_true]
      simp [upd, u32]
    · have hl' : ¬ (op &&& 0x80 ≠ 0) := fun h => hl (h7.mp h)
      simp only [hl, hl', if_false]
      simp

/-- C13 at a concrete input: `BX R1` (opcode `0x4708`) with `R1 = 0x2001`. -/
theorem writeOpF5HiReg_bx_witness :
    ((0x4700 >>> 8) &&& 3 = 3 ∧ (cpuR0R1 0 0x2001).Regs ((0x4708 >>> 3) &&& 0xF) = 0x2001 ∧
      0x2001 < 2 ^ 32) ∧
    (writeOpF5HiReg 0x4700 0x4708 (cpuR0R1 0 0x2001)).pc = 0x2000 ∧
    ((Nat.testBit 0x2001 0 = true →
      regCpsr.T (writeOpF5HiReg 0x4700 0x4708 (cpuR0R1 0 0x2001)).Cpsr =
        regCpsr.T (cpuR0R1 0 0x2001).Cpsr ∧
      (writeOpF5HiReg 0x4700 0x4708 (cpuR0R1 0 0x2001)).pc = 2 * (0x2001 / 2)) ∧
    (Nat.testBit 0x2001 0 = false →
      regCpsr.T (writeOpF5HiReg 0x4700 0x4708 (cpuR0R1 0 0x2001)).Cpsr = false ∧
      (writeOpF5HiReg 0x4700 0x4708 (cpuR0R1 0 0x2001)).pc = 4 * (0x2001 / 4)) ∧
    (Nat.testBit 0x4708 7 = true →
      (writeOpF5HiReg 0x4700 0x4708 (cpuR0R1 0 0x2001)).Regs 14 =
        ((cpuR0R1 0 0x2001).Regs 15 + 1) % 2 ^ 32) ∧
    (Nat.testBit 0x4708 7 = false →
      (writeOpF5HiReg 0x4700 0x4708 (cpuR0R1 0 0x2001)).Regs 14 =
        (cpuR0R1 0 0x2001).Regs 14) ∧
    regCpsr.N (writeOpF5HiReg 0x4700 0x4708 (cpuR0R1 0 0x2001)).Cpsr =
      regCpsr.N (cpuR0R1 0 0x2001).Cpsr ∧
    regCpsr.Z (writeOpF5HiReg 0x4700 0x4708 (cpuR0R1 0 0x2001)).Cpsr =
      regCpsr.Z (cpuR0R1 0 0x2001).Cpsr ∧
    regCpsr.C (writeOpF5HiReg 0x4700 0x4708 (cpuR0R1 0 0x2001)).Cpsr =
      regCpsr.C (cpuR0R1 0 0x2001).Cpsr ∧
    regCpsr.V (writeOpF5HiReg 0x4700 0x4708 (cpuR0R1 0 0x2001)).Cpsr =
      regCpsr.V (cpuR0R1 0 0x2001).Cpsr) :=
  ⟨⟨by decide, by decide, by decide⟩, by decide,
    writeOpF5HiReg_bx 0x4700 0x4708 (cpuR0R1 0 0x2001) 0x2001
      (by decide) (by decide) (by decide)⟩

/-! ## F6: LDR PC-relative -/

/-- C14: for every F6 opcode with 8-bit immediate `imm = op & 0xFF` and
destination `rd` fixed by the generator, and every 32-bit R15, the handler
loads `Rd` with the word at address `(R15 with bit 1 cleared) + 4*imm`
(mod 2^32), changes no other register and no flag, and that address is a
multiple of 4 whenever R15 has bit 0 clear. -/
theorem writeOpF6LdrPc_spec (gop op : Nat) (cpu : Cpu) (h15 : cpu.Regs 15 < 2 ^ 32) :
    (writeOpF6LdrPc gop op cpu).Regs ((gop >>> 8) &&& 7) =
      read32 cpu.bus ((bitClear (cpu.Regs 15) 2 + 4 * (op &&& 0xFF)) % 2 ^ 32) ∧
    (∀ j, j ≠ (gop >>> 8) &&& 7 → (writeOpF6LdrPc gop op cpu).Regs j = cpu.Regs j) ∧
    (writeOpF6LdrPc gop op cpu).Cpsr = cpu.Cpsr ∧
    (∀ i, (bitClear (cpu.Regs 15) 2).testBit i = (decide (i ≠ 1) && (cpu.Regs 15).testBit i)) ∧
    (cpu.Regs 15 % 2 = 0 → (bitClear (cpu.Regs 15) 2 + 4 * (op &&& 0xFF)) % 2 ^ 32 % 4 = 0) := by
  have hu : u32 (cpu.Regs 15) = cpu.Regs 15 := by rw [u32]; omega
  have himm : u32 (((op &&& 0xFF) * 4) % 2 ^ 16) = 4 * (op &&& 0xFF) := by
    have := and_255 op
    simp only [u32] at this ⊢
    omega
  refine ⟨?_, ?_, ?_, ?_, ?_⟩
  · simp only [writeOpF6LdrPc, opRead32, hu, himm, upd, if_true]
    rfl
  · intro j hj
    simp [writeOpF6LdrPc, opRead32, upd, hj]
  · simp [writeOpF6LdrPc, opRead32]
  · intro i
    rw [testBit_bitClear]
    have e : Nat.testBit 2 i = decide (1 = i) := @Nat.testBit_two_pow 1 i
    rw [e]
    by_cases h : i = 1
    · subst h; simp
    · have h2 : ¬ 1 = i := fun e => h e.symm
      simp [h, h2, Bool.and_comm]
  · intro h
    have := bitClear_2_mod_4 _ h
    omega

/-- C14 at the spec's scenario: the instruction at `0x100` (R15 = `0x104`),
`LDR R3, [PC, #4]` (opcode `0x4B01`), reads address `0x108`. -/
theorem writeOpF6LdrPc_spec_witness :
    cpuLdrPc.Regs 15 < 2 ^ 32 ∧
    (bitClear (cpuLdrPc.Regs 15) 2 + 4 * (0x4B01 &&& 0xFF)) % 2 ^ 32 = 0x108 ∧
    (writeOpF6LdrPc 0x4B00 0x4B01 cpuLdrPc).Regs ((0x4B00 >>> 8) &&& 7) =
      read32 cpuLdrPc.bus ((bitClear (cpuLdrPc.Regs 15) 2 + 4 * (0x4B01 &&& 0xFF)) % 2 ^ 32) ∧
    (∀ j, j ≠ (0x4B00 >>> 8) &&& 7 →
      (writeOpF6LdrPc 0x4B00 0x4B01 cpuLdrPc).Regs j = cpuLdrPc.Regs j) ∧
    (writeOpF6LdrPc 0x4B00 0x4B01 cpuLdrPc).Cpsr = cpuLdrPc.Cpsr ∧
    (∀ i, (bitClear (cpuLdrPc.Regs 15) 2).testBit i =
      (decide (i ≠ 1) && (cpuLdrPc.Regs 15).testBit i)) ∧
    (cpuLdrPc.Regs 15 % 2 = 0 →
      (bitClear (cpuLdrPc.Regs 15) 2 + 4 * (0x4B01 &&& 0xFF)) % 2 ^ 32 % 4 = 0) :=
  ⟨by decide, by decide, writeOpF6LdrPc_spec 0x4B00 0x4B01 cpuLdrPc (by decide)⟩

/-- The spec's PC-relative load scenario, evaluated: R3 = `0xDEADBEEF`. -/
theorem writeOpF6LdrPc_scenario :
    (writeOpF6LdrPc 0x4B00 0x4B01 cpuLdrPc).Regs 3 = 0xDEADBEEF := by
  decide

/-! ## F14: POP of the PC -/

/-- C15: for POP with the R bit set, on ARMv4 and ARMv5 the handler returns,
and with `v` the word read from the stack slot of PC (at SP plus 4 per listed
low register): on ARMv5, if `v` is even `T` becomes 0 and `pc` is `v` with bits
[1:0] cleared, if `v` is odd `T` is unchanged and `pc` is `v` with bit 0
cleared; on ARMv4 `T` is unchanged and `pc` is `v` with bit 0 cleared; in all
cases SP ends at its initial value plus 4 times the number of bits set in
`op & 0x1FF` (mod 2^32). -/
theorem writeOpF14PushPop_pop_pc (gop op : Nat) (cpu : Cpu)
    (hpop : (gop >>> 11) &&& 1 ≠ 0) (hR : op.testBit 8 = true)
    (harch : cpu.arch = ARMv4 ∨ cpu.arch = ARMv5) :
    ∃ cpu' v, writeOpF14PushPop gop op cpu = some cpu' ∧
      v = read32 cpu.bus ((cpu.Regs 13 + 4 * bitsBelow op 8) % 2 ^ 32) ∧
      (cpu.arch = ARMv5 → v.testBit 0 = false →
        regCpsr.T cpu'.Cpsr = false ∧ cpu'.pc = 4 * (v / 4)) ∧
      (cpu.arch = ARMv5 → v.testBit 0 = true →
        regCpsr.T cpu'.Cpsr = regCpsr.T cpu.Cpsr ∧ cpu'.pc = 2 * (v / 2)) ∧
      (cpu.arch = ARMv4 →
        regCpsr.T cpu'.Cpsr = regCpsr.T cpu.Cpsr ∧ cpu'.pc = 2 * (v / 2)) ∧
      cpu'.Regs 13 = (cpu.Regs 13 + 4 * popcount16 (op &&& 0x1FF)) % 2 ^ 32 := by
  have e9 : List.range 9 = List.range' 0 8 ++ [8] := by decide
  have hp : decide ((gop >>> 11) &&& 1 ≠ 0) = true := decide_eq_true hpop
  have hbit : (op >>> 8) &&& 1 ≠ 0 := (opBit_eq op 8).mpr hR
  obtain ⟨cpu1, h1, h2, h3, h4, h5, h6⟩ :=
    pop_loop_low op 8 0 cpu (u32 (cpu.Regs 13)) (by omega) (Nat.mod_lt _ (by norm_num))
  have hcnt : (List.range' 0 8).countP (fun j => op.testBit j) = bitsBelow op 8 := by
    unfold bitsBelow; rw [List.range_eq_range']
  rw [hcnt] at h1
  have hsp1 : (u32 (cpu.Regs 13) + 4 * bitsBelow op 8) % 2 ^ 32 =
      (cpu.Regs 13 + 4 * bitsBelow op 8) % 2 ^ 32 := by
    simp only [u32]; omega
  rw [hsp1] at h1
  have hpc : popcount16 (op &&& 0x1FF) = bitsBelow op 8 + 1 := by
    rw [popcount16_and_1FF, bitsBelow_succ, hR]; rfl
  generalize hsp : (cpu.Regs 13 + 4 * bitsBelow op 8) % 2 ^ 32 = sp1 at h1
  have hfin : u32 (sp1 + 4) = (cpu.Regs 13 + 4 * popcount16 (op &&& 0x1FF)) % 2 ^ 32 := by
    rw [hpc, ← hsp, u32]; omega
  have hb0 : ∀ v : Nat, v.testBit 0 = decide (v % 2 = 1) := by
    intro v; rw [Nat.testBit_to_div_mod]; simp
  unfold writeOpF14PushPop
  simp only [hp, if_true, e9, List.foldlM_append, h1, Option.some_bind, Option.bind_eq_bind,
    List.foldlM_cons, List.foldlM_nil]
  unfold writeOpF14PushPop.step
  simp only [if_pos hbit, if_true, opRead32, h3, h4, h5, read32] 
  rcases harch with ha | ha
  · have h45 : ¬ ARMv4 = ARMv5 := by decide
    simp only [ha, if_true, Option.map_some', Option.bind_some, Option.some_bind, Option.bind_eq_bind, Option.pure_def, bind_pure]
    refine ⟨_, _, rfl, rfl, fun h => absurd h h45, fun h => absurd h h45, fun _ => ⟨?_, ?_⟩, ?_⟩
    · simp [h2]
    · simp [bitClear_1, read32]
    · simp [upd, hfin]
  · have h54 : ¬ ARMv5 = ARMv4 := by decide
    simp only [ha, h54, if_true, if_false, and_one_eq_mod]
    by_cases hv : u32 (cpu.bus sp1) % 2 = 0
    · simp only [hv, if_true, Option.map_some', Option.bind_some, Option.some_bind, Option.bind_eq_bind, Option.pure_def, bind_pure]
      refine ⟨_, _, rfl, rfl, fun _ _ => ⟨?_, ?_⟩, fun _ h => ?_, fun h => absurd h (by simp), ?_⟩
      · simp [regCpsr.T, SetT, bit_setBit]
      · simp [bitClear_3, read32]
      · rw [hb0] at h; simp [read32, hv] at h
      · simp [upd, hfin]
    · simp only [hv, if_false, Option.map_some', Option.bind_some, Option.some_bind, Option.bind_eq_bind, Option.pure_def, bind_pure]
      refine ⟨_, _, rfl, rfl, fun _ h => ?_, fun _ _ => ⟨?_, ?_⟩, fun h => absurd h (by simp), ?_⟩
      · rw [hb0] at h; simp [read32] at h; omega
      · simp [h2]
      · simp [bitClear_1, read32]
      · simp [upd, hfin]

/-- C15 at the spec's scenario: `POP {PC}` (opcode `0xBD00`) on ARMv5 with
SP = `0x1000` holding `0x90000000`. -/
theorem writeOpF14PushPop_pop_pc_witness :
    ((0xBD00 >>> 11) &&& 1 ≠ 0 ∧ Nat.testBit 0xBD00 8 = true ∧
      (cpuPop.arch = ARMv4 ∨ cpuPop.arch = ARMv5)) ∧
    ∃ cpu' v, writeOpF14PushPop 0xBD00 0xBD00 cpuPop = some cpu' ∧
      v = read32 cpuPop.bus ((cpuPop.Regs 13 + 4 * bitsBelow 0xBD00 8) % 2 ^ 32) ∧
      (cpuPop.arch = ARMv5 → v.testBit 0 = false →
        regCpsr.T cpu'.Cpsr = false ∧ cpu'.pc = 4 * (v / 4)) ∧
      (cpuPop.arch = ARMv5 → v.testBit 0 = true →
        regCpsr.T cpu'.Cpsr = regCpsr.T cpuPop.Cpsr ∧ cpu'.pc = 2 * (v / 2)) ∧
      (cpuPop.arch = ARMv4 →
        regCpsr.T cpu'.Cpsr = regCpsr.T cpuPop.Cpsr ∧ cpu'.pc = 2 * (v / 2)) ∧
      cpu'.Regs 13 = (cpuPop.Regs 13 + 4 * popcount16 (0xBD00 &&& 0x1FF)) % 2 ^ 32 :=
  ⟨⟨by decide, by decide, by decide⟩,
    writeOpF14PushPop_pop_pc 0xBD00 0xBD00 cpuPop (by decide) (by decide) (by decide)⟩

/-- The spec's POP scenario, evaluated: pc = `0x90000000`, `T` = 0,
SP = `0x1004`. -/
theorem writeOpF14PushPop_pop_scenario :
    (writeOpF14PushPop 0xBD00 0xBD00 cpuPop).map
        (fun c => (c.pc, regCpsr.T c.Cpsr, c.Regs 13)) = some (0x90000000, false, 0x1004) := by
  decide

/-! ## F15: LDM and STM -/

/-- C16: for LDM with a non-empty register list and base register `Rb` (fixed
by the generator), the handler returns and every listed register `Ri`, the
base included when it is listed, holds the word at `base + 4 * (number of
listed registers below i)`; if `Rb` is not listed it ends at `base + 4 *
(number of listed registers)`; every other unlisted register is unchanged
(addresses mod 2^32). -/
theorem writeOpF15LdmStm_ldm (gop op : Nat) (cpu : Cpu)
    (hload : (gop >>> 11) &&& 1 ≠ 0) (hne : op &&& 0xFF ≠ 0) :
    ∃ cpu', writeOpF15LdmStm gop op cpu = some cpu' ∧
      (∀ i, i < 8 → op.testBit i = true →
        cpu'.Regs i =
          read32 cpu.bus ((cpu.Regs ((gop >>> 8) &&& 0x7) + 4 * bitsBelow op i) % 2 ^ 32)) ∧
      (op.testBit ((gop >>> 8) &&& 0x7) = false →
        cpu'.Regs ((gop >>> 8) &&& 0x7) =
          (cpu.Regs ((gop >>> 8) &&& 0x7) + 4 * bitsBelow op 8) % 2 ^ 32) ∧
      (∀ j, j ≠ (gop >>> 8) &&& 0x7 → (8 ≤ j ∨ op.testBit j = false) →
        cpu'.Regs j = cpu.Regs j) := by
  have hl : decide ((gop >>> 11) &&& 1 ≠ 0) = true := decide_eq_true hload
  have hr := and_7_lt (gop >>> 8)
  generalize hrb : (gop >>> 8) &&& 0x7 = rbx at hr
  have hptr : u32 (cpu.Regs rbx) = (cpu.Regs rbx + 4 * bitsBelow op 0) % 2 ^ 32 := by
    simp [bitsBelow, u32]
  obtain ⟨h1, h2, h3, h4, h5⟩ :=
    ldm_loop op rbx (cpu.Regs rbx) 8 0 cpu (u32 (cpu.Regs rbx)) true (by omega) hptr
  have e8 : List.range 8 = List.range' 0 8 := List.range_eq_range' 8
  unfold writeOpF15LdmStm
  simp only [hl, hrb, if_neg hne, e8, Bool.true_eq_false, false_and, if_false]
  refine ⟨_, rfl, ?_, ?_, ?_⟩
  · intro i hi hb
    by_cases hw : ((List.range' 0 8).foldl (writeOpF15LdmStm.step true rbx op)
        (cpu, u32 (cpu.Regs rbx), true)).2.2 = true
    · simp only [hw, if_true]
      have hne' : i ≠ rbx := by
        rintro rfl
        rw [h2] at hw
        have : 0 ≤ i ∧ i < 0 + 8 := by omega
        simp [this, hb] at hw
      simp only [upd, if_neg hne']
      exact h4 i (by omega) (by omega) hb
    · simp only [hw]
      exact h4 i (by omega) (by omega) hb
  · intro hb
    have hw : ((List.range' 0 8).foldl (writeOpF15LdmStm.step true rbx op)
        (cpu, u32 (cpu.Regs rbx), true)).2.2 = true := by
      rw [h2]; simp [hb]
    simp only [hw, if_true, upd]
    exact h1
  · intro j hj hcase
    have hj' : j < 0 ∨ 0 + 8 ≤ j ∨ op.testBit j = false := by
      rcases hcase with h | h
      · exact Or.inr (Or.inl (by omega))
      · exact Or.inr (Or.inr h)
    by_cases hw : ((List.range' 0 8).foldl (writeOpF15LdmStm.step true rbx op)
        (cpu, u32 (cpu.Regs rbx), true)).2.2 = true
    · simp only [hw, if_true, upd, if_neg hj]
      exact h5 j hj'
    · simp only [hw]
      exact h5 j hj'

/-- C16 at a concrete input: `LDM R0!, {R0, R1}` (opcode `0xC803`) with
`R0 = 0x1000`. -/
theorem writeOpF15LdmStm_ldm_witness :
    ((0xC800 >>> 11) &&& 1 ≠ 0 ∧ 0xC803 &&& 0xFF ≠ 0) ∧
    ∃ cpu', writeOpF15LdmStm 0xC800 0xC803 (cpuLdm ARMv5) = some cpu' ∧
      (∀ i, i < 8 → Nat.testBit 0xC803 i = true →
        cpu'.Regs i =
          read32 (cpuLdm ARMv5).bus
            (((cpuLdm ARMv5).Regs ((0xC800 >>> 8) &&& 0x7) + 4 * bitsBelow 0xC803 i) % 2 ^ 32)) ∧
      (Nat.testBit 0xC803 ((0xC800 >>> 8) &&& 0x7) = false →
        cpu'.Regs ((0xC800 >>> 8) &&& 0x7) =
          ((cpuLdm ARMv5).Regs ((0xC800 >>> 8) &&& 0x7) + 4 * bitsBelow 0xC803 8) % 2 ^ 32) ∧
      (∀ j, j ≠ (0xC800 >>> 8) &&& 0x7 → (8 ≤ j ∨ Nat.testBit 0xC803 j = false) →
        cpu'.Regs j = (cpuLdm ARMv5).Regs j) :=
  ⟨⟨by decide, by decide⟩,
    writeOpF15LdmStm_ldm 0xC800 0xC803 (cpuLdm ARMv5) (by decide) (by decide)⟩

/-- The LDM scenario, evaluated: the base R0 holds the word loaded for it,
`0x2000`, and R1 the next word, `0x2004`. -/
theorem writeOpF15LdmStm_ldm_scenario :
    (writeOpF15LdmStm 0xC800 0xC803 (cpuLdm ARMv5)).map (fun c => (c.Regs 0, c.Regs 1)) =
      some (0x2000, 0x2004) := by
  decide

/-- C17: for LDM and STM with an empty register list (`op & 0xFF = 0`; the STM
base check never rejects it), on ARMv4 and ARMv5 the handler returns and the
base register ends at its initial value + `0x40` (mod 2^32); on ARMv5 the new
CPU is the old one with only the base register rewritten, so no memory access
is made (bus and clock unchanged) and no other register changes. -/
theorem writeOpF15LdmStm_empty (gop op : Nat) (cpu : Cpu)
    (hempty : op &&& 0xFF = 0) (harch : cpu.arch = ARMv4 ∨ cpu.arch = ARMv5) :
    ∃ cpu', writeOpF15LdmStm gop op cpu = some cpu' ∧
      cpu'.Regs ((gop >>> 8) &&& 0x7) = (cpu.Regs ((gop >>> 8) &&& 0x7) + 0x40) % 2 ^ 32 ∧
      (cpu.arch = ARMv5 →
        cpu' = { cpu with
                 Regs := upd cpu.Regs ((gop >>> 8) &&& 0x7)
                   ((cpu.Regs ((gop >>> 8) &&& 0x7) + 0x40) % 2 ^ 32) }) := by
  have hr := and_7_lt (gop >>> 8)
  generalize hrb : (gop >>> 8) &&& 0x7 = rbx at hr
  have hbase : op &&& (1 <<< rbx) = 0 := by
    rw [Nat.one_shiftLeft]
    by_contra h
    have hb := (and_two_pow_ne_zero op rbx).mp h
    have h2 : (op &&& 0xFF).testBit rbx = true := by
      rw [Nat.testBit_and, hb]
      have : Nat.testBit 0xFF rbx = decide (rbx < 8) := Nat.testBit_two_pow_sub_one 8 rbx
      rw [this]; simp [hr]
    rw [hempty] at h2
    simp at h2
  have hrej : ¬ (decide ((gop >>> 11) &&& 1 ≠ 0) = false ∧ op &&& (1 <<< rbx) ≠ 0) := by
    rw [hbase]; simp
  have hadd : u32 (u32 (cpu.Regs rbx) + 0x40) = (cpu.Regs rbx + 0x40) % 2 ^ 32 := by
    simp only [u32]; omega
  have h7 : (7 : Nat) = 0x7 := rfl
  unfold writeOpF15LdmStm
  simp only [hrb, if_neg hrej, if_pos hempty, hadd]
  rcases harch with ha | ha
  · have h45 : ¬ ARMv4 = ARMv5 := by decide
    simp only [ha, if_true, Option.map_some']
    exact ⟨_, rfl, by simp [upd], fun h => absurd h h45⟩
  · have h54 : ¬ ARMv5 = ARMv4 := by decide
    simp only [ha, h54, if_true, if_false, Option.map_some']
    exact ⟨_, rfl, by simp [upd], fun _ => rfl⟩

/-- C17 at a concrete input: `LDM R0!, {}` (opcode `0xC800`) on ARMv5 with
`R0 = 0x1000`. -/
theorem writeOpF15LdmStm_empty_witness :
    (0xC800 &&& 0xFF = 0 ∧ ((cpuLdm ARMv5).arch = ARMv4 ∨ (cpuLdm ARMv5).arch = ARMv5)) ∧
    ((cpuLdm ARMv5).Regs ((0xC800 >>> 8) &&& 0x7) + 0x40) % 2 ^ 32 = 0x1040 ∧
    ∃ cpu', writeOpF15LdmStm 0xC800 0xC800 (cpuLdm ARMv5) = some cpu' ∧
      cpu'.Regs ((0xC800 >>> 8) &&& 0x7) =
        ((cpuLdm ARMv5).Regs ((0xC800 >>> 8) &&& 0x7) + 0x40) % 2 ^ 32 ∧
      ((cpuLdm ARMv5).arch = ARMv5 →
        cpu' = { cpuLdm ARMv5 with
                 Regs := upd (cpuLdm ARMv5).Regs ((0xC800 >>> 8) &&& 0x7)
                   (((cpuLdm ARMv5).Regs ((0xC800 >>> 8) &&& 0x7) + 0x40) % 2 ^ 32) }) :=
  ⟨⟨by decide, by decide⟩, by decide,
    writeOpF15LdmStm_empty 0xC800 0xC800 (cpuLdm ARMv5) (by decide) (by decide)⟩

/-- Supporting C18: on ARMv4 an LDM with an empty register list returns with
`Regs[15]` loaded from the base address and the fetch address `pc` as it was. -/
theorem writeOpF15LdmStm_empty_ldm_v4 (gop op : Nat) (cpu : Cpu)
    (hload : (gop >>> 11) &&& 1 ≠ 0) (hempty : op &&& 0xFF = 0) (ha : cpu.arch = ARMv4) :
    ∃ cpu', writeOpF15LdmStm gop op cpu = some cpu' ∧ cpu'.pc = cpu.pc ∧
      cpu'.Regs 15 = read32 cpu.bus (u32 (cpu.Regs ((gop >>> 8) &&& 0x7))) := by
  have hl : decide ((gop >>> 11) &&& 1 ≠ 0) = true := decide_eq_true hload
  have hr := and_7_lt (gop >>> 8)
  generalize hrb : (gop >>> 8) &&& 0x7 = rbx at hr
  have h15 : (15 : Nat) ≠ rbx := by omega
  unfold writeOpF15LdmStm
  simp only [hl, hrb, if_pos hempty, ha, Bool.true_eq_false, false_and, if_false, if_true,
    Option.map_some']
  exact ⟨_, rfl, rfl, by simp [upd, opRead32, h15]⟩

/-- Supporting C18: the sibling path. The F5 MOV handler, when its destination
is R15, writes `Regs[15]` and redirects the fetch address: `pc` is the value
written with bit 0 cleared. -/
theorem writeOpF5HiReg_mov_r15 (gop op : Nat) (cpu : Cpu)
    (hop : (gop >>> 8) &&& 3 = 2) (hrd : (op &&& 7) ||| ((op &&& 0x80) >>> 4) = 15) :
    (writeOpF5HiReg gop op cpu).Regs 15 = u32 (cpu.Regs ((op >>> 3) &&& 0xF)) ∧
    (writeOpF5HiReg gop op cpu).pc = 2 * (u32 (cpu.Regs ((op >>> 3) &&& 0xF)) / 2) := by
  unfold writeOpF5HiReg
  simp only [hop, hrd, bitClear_1]
  simp +decide only [if_false, if_true]
  simp [upd]

/-- C18 at a failing input: `LDM R0!, {}` (opcode `0xC800`) on ARMv4 with
`R0 = 0x1000`, the word `0x2000` at `0x1000` and pc = `0x3000`. The handler
loads `Regs[15] = 0x2000` and moves the base to `0x1040`, but the fetch
address `pc` is still `0x3000`, not the loaded word. -/
theorem writeOpF15LdmStm_empty_v4_keeps_pc :
    (writeOpF15LdmStm 0xC800 0xC800 (cpuLdm ARMv4)).map
        (fun c => (c.pc, c.Regs 15, c.Regs 0)) = some (0x3000, 0x2000, 0x1040) ∧
    read32 (cpuLdm ARMv4).bus ((cpuLdm ARMv4).Regs 0) = 0x2000 := by
  decide

/-! ## F16 and F18: branches -/

/-- C19: for every F16 opcode with condition code `c` in 0..13, every 8-bit
immediate and every CPSR, the handler returns; `pc` becomes
`R15 + 2*sign_extend(imm8)` (mod 2^32) when condition `c` holds under the
standard table and is unchanged otherwise; registers and CPSR are unchanged;
and the codes `2k` and `2k+1` never both hold. -/
theorem writeOpF16BranchCond_spec (gop op : Nat) (cpu : Cpu) (hc : (gop >>> 8) &&& 0xF < 14) :
    ∃ cpu', writeOpF16BranchCond gop op cpu = some cpu' ∧
      cpu'.pc =
        (if specCond ((gop >>> 8) &&& 0xF) (regCpsr.N cpu.Cpsr) (regCpsr.Z cpu.Cpsr)
            (regCpsr.C cpu.Cpsr) (regCpsr.V cpu.Cpsr) = true then
          (((cpu.Regs 15 : Nat) : Int) + 2 * specSignExtend 8 (op &&& 0xFF)) % 2 ^ 32
         else ((cpu.pc : Nat) : Int)) ∧
      cpu'.Regs = cpu.Regs ∧ cpu'.Cpsr = cpu.Cpsr ∧
      ∀ k, k < 7 →
        ¬ (specCond (2 * k) (regCpsr.N cpu.Cpsr) (regCpsr.Z cpu.Cpsr)
              (regCpsr.C cpu.Cpsr) (regCpsr.V cpu.Cpsr) = true ∧
           specCond (2 * k + 1) (regCpsr.N cpu.Cpsr) (regCpsr.Z cpu.Cpsr)
              (regCpsr.C cpu.Cpsr) (regCpsr.V cpu.Cpsr) = true) := by
  generalize hcc : (gop >>> 8) &&& 0xF = c at hc
  have hpair : ∀ k, k < 7 →
        ¬ (specCond (2 * k) (regCpsr.N cpu.Cpsr) (regCpsr.Z cpu.Cpsr)
              (regCpsr.C cpu.Cpsr) (regCpsr.V cpu.Cpsr) = true ∧
           specCond (2 * k + 1) (regCpsr.N cpu.Cpsr) (regCpsr.Z cpu.Cpsr)
              (regCpsr.C cpu.Cpsr) (regCpsr.V cpu.Cpsr) = true) := by
    intro k hk
    interval_cases k <;> simp only [specCond] <;>
      cases regCpsr.N cpu.Cpsr <;> cases regCpsr.Z cpu.Cpsr <;>
      cases regCpsr.C cpu.Cpsr <;> cases regCpsr.V cpu.Cpsr <;> decide
  have hcond : f16cond c cpu.Cpsr = some (specCond c (regCpsr.N cpu.Cpsr) (regCpsr.Z cpu.Cpsr)
      (regCpsr.C cpu.Cpsr) (regCpsr.V cpu.Cpsr)) := by
    interval_cases c <;> simp [f16cond, specCond]
  have h14 : c ≠ 14 := by omega
  have h15 : c ≠ 15 := by omega
  unfold writeOpF16BranchCond
  simp only [hcc, if_neg h14, if_neg h15, hcond]
  cases hs : specCond c (regCpsr.N cpu.Cpsr) (regCpsr.Z cpu.Cpsr)
      (regCpsr.C cpu.Cpsr) (regCpsr.V cpu.Cpsr)
  · exact ⟨_, rfl, by simp, rfl, rfl, hpair⟩
  · refine ⟨_, rfl, ?_, rfl, rfl, hpair⟩
    simp only [if_true, ofInt32_add, toInt8_eq]
    have : (0:Int) ≤ (((cpu.Regs 15 : Nat) : Int) + specSignExtend 8 (op &&& 0xFF) * 2) % 2 ^ 32 :=
      Int.emod_nonneg _ (by norm_num)
    rw [Int.toNat_of_nonneg this]
    congr 1
    ring

/-- C19 at a concrete input: `BEQ` with `imm8 = 0xFE` (opcode `0xD0FE`), `Z`
set and R15 = `0x104` branches to `0x100`. -/
theorem writeOpF16BranchCond_spec_witness :
    (0xD000 >>> 8) &&& 0xF < 14 ∧
    (writeOpF16BranchCond 0xD000 0xD0FE cpuZ).map (fun c => c.pc) = some 0x100 ∧
    ∃ cpu', writeOpF16BranchCond 0xD000 0xD0FE cpuZ = some cpu' ∧
      cpu'.pc =
        (if specCond ((0xD000 >>> 8) &&& 0xF) (regCpsr.N cpuZ.Cpsr) (regCpsr.Z cpuZ.Cpsr)
            (regCpsr.C cpuZ.Cpsr) (regCpsr.V cpuZ.Cpsr) = true then
          (((cpuZ.Regs 15 : Nat) : Int) + 2 * specSignExtend 8 (0xD0FE &&& 0xFF)) % 2 ^ 32
         else ((cpuZ.pc : Nat) : Int)) ∧
      cpu'.Regs = cpuZ.Regs ∧ cpu'.Cpsr = cpuZ.Cpsr ∧
      ∀ k, k < 7 →
        ¬ (specCond (2 * k) (regCpsr.N cpuZ.Cpsr) (regCpsr.Z cpuZ.Cpsr)
              (regCpsr.C cpuZ.Cpsr) (regCpsr.V cpuZ.Cpsr) = true ∧
           specCond (2 * k + 1) (regCpsr.N cpuZ.Cpsr) (regCpsr.Z cpuZ.Cpsr)
              (regCpsr.C cpuZ.Cpsr) (regCpsr.V cpuZ.Cpsr) = true) :=
  ⟨by decide, by decide, writeOpF16BranchCond_spec 0xD000 0xD0FE cpuZ (by decide)⟩

/-- C20: for every opcode, so for every F18 opcode, with `imm11 = op & 0x7FF`
the Go expression `int32(int16(op<<5)>>4)` is twice the 11-bit two's-complement
value of `imm11`, and the handler sets `pc = R15 + 2*sign_extend_11(imm11)`
(mod 2^32). -/
theorem writeOpF18Branch_spec (op : Nat) (cpu : Cpu) :
    toInt16 ((op <<< 5) % 2 ^ 16) >>> (4 : Nat) = 2 * specSignExtend 11 (op &&& 0x7FF) ∧
    (((writeOpF18Branch op cpu).pc : Nat) : Int) =
      (((cpu.Regs 15 : Nat) : Int) + 2 * specSignExtend 11 (op &&& 0x7FF)) % 2 ^ 32 := by
  have h11 : op &&& 0x7FF = op % 2 ^ 11 := Nat.and_pow_two_sub_one_eq_mod op 11
  have e : toInt16 ((op <<< 5) % 2 ^ 16) >>> (4 : Nat) = 2 * specSignExtend 11 (op &&& 0x7FF) := by
    rw [h11, Int.shiftRight_eq_div_pow, Nat.shiftLeft_eq]
    unfold toInt16 specSignExtend
    simp only [Nat.reducePow, Nat.reduceSub]
    split_ifs <;> omega
  refine ⟨e, ?_⟩
  unfold writeOpF18Branch
  simp only [ofInt32_add, e]
  exact Int.toNat_of_nonneg (Int.emod_nonneg _ (by norm_num))

/-! ## F19: the long branch -/

/-- Supporting C21: for every opcode the long-branch prefix handler sets
`R14 = R15 + 4096 * s` (mod 2^32) where `s` is `imm11` read as a 9-bit
two's-complement number: bits 9 and 10 of `imm11` are lost. Nothing else
changes. -/
theorem writeOpF19LongBranch1_computes (op : Nat) (cpu : Cpu) :
    (((writeOpF19LongBranch1 op cpu).Regs 14 : Nat) : Int) =
      (((cpu.Regs 15 : Nat) : Int) + 4096 * specSignExtend 9 (op &&& 0x7FF)) % 2 ^ 32 ∧
    (∀ j, j ≠ 14 → (writeOpF19LongBranch1 op cpu).Regs j = cpu.Regs j) ∧
    (writeOpF19LongBranch1 op cpu).Cpsr = cpu.Cpsr ∧
    (writeOpF19LongBranch1 op cpu).pc = cpu.pc := by
  refine ⟨?_, ?_, rfl, rfl⟩
  · unfold writeOpF19LongBranch1
    simp only [upd, if_true, ofInt32_add, longBranch1_offset]
    exact Int.toNat_of_nonneg (Int.emod_nonneg _ (by norm_num))
  · intro j hj
    simp [writeOpF19LongBranch1, upd, hj]

/-- Supporting C21: where the 9-bit and the 11-bit reading of `imm11` agree,
for `imm11` below `0x100` or from `0x700` up (offsets in `[-2^20, 2^20)`), the
prefix handler sets `R14 = R15 + sign_extend(imm11 << 12)` (mod 2^32). -/
theorem writeOpF19LongBranch1_near (op : Nat) (cpu : Cpu)
    (h : op &&& 0x7FF < 0x100 ∨ 0x700 ≤ op &&& 0x7FF) :
    (((writeOpF19LongBranch1 op cpu).Regs 14 : Nat) : Int) =
      (((cpu.Regs 15 : Nat) : Int) + 4096 * specSignExtend 11 (op &&& 0x7FF)) % 2 ^ 32 := by
  rw [(writeOpF19LongBranch1_computes op cpu).1]
  have h11 : op &&& 0x7FF = op % 2 ^ 11 := Nat.and_pow_two_sub_one_eq_mod op 11
  rw [h11] at h ⊢
  have e : specSignExtend 9 (op % 2 ^ 11) = specSignExtend 11 (op % 2 ^ 11) := by
    unfold specSignExtend
    simp only [Nat.reducePow, Nat.reduceSub] at h ⊢
    split_ifs <;> omega
  rw [e]

/-- The near case at a concrete input: the prefix `0xF7FF`, offset -4096. -/
theorem writeOpF19LongBranch1_near_witness :
    (0xF7FF &&& 0x7FF < 0x100 ∨ 0x700 ≤ 0xF7FF &&& 0x7FF) ∧
    (((writeOpF19LongBranch1 0xF7FF (cpuLrPc 0 0x2004)).Regs 14 : Nat) : Int) =
      ((((cpuLrPc 0 0x2004).Regs 15 : Nat) : Int) +
        4096 * specSignExtend 11 (0xF7FF &&& 0x7FF)) % 2 ^ 32 :=
  ⟨by decide, writeOpF19LongBranch1_near 0xF7FF (cpuLrPc 0 0x2004) (by decide)⟩

/-- C21 at a failing input: the prefix `0xF200` (`imm11 = 0x200`) executed at
address `0x2000` (R15 = `0x2004`). The handler leaves `R14 = 0x2004`, the
offset 0, where `R15 + sign_extend(imm11 << 12)` is `0x202004`. -/
theorem writeOpF19LongBranch1_drops_high_bits :
    (writeOpF19LongBranch1 0xF200 (cpuLrPc 0 0x2004)).Regs 14 = 0x2004 ∧
    ((((cpuLrPc 0 0x2004).Regs 15 : Nat) : Int) +
        4096 * specSignExtend 11 (0xF200 &&& 0x7FF)) % 2 ^ 32 = 0x202004 := by
  decide

/-- C22: for every BL suffix handler (bit 12 of the generator argument set),
every opcode with `imm11 = op & 0x7FF` and every prior R14 value `L`: the
handler sets `pc = L + (imm11 << 1)` (mod 2^32) and `R14 = (R15 - 2) | 1`
(mod 2^32), which for the suffix at the even address `a` (R15 = `a + 4`) is
`a + 2`, the address of the next instruction, with bit 0 set; the CPSR, so `T`,
and every other register are unchanged. -/
theorem writeOpF19LongBranch2_bl_spec (gop op : Nat) (cpu : Cpu)
    (hbl : (gop >>> 12) &&& 1 ≠ 0) :
    (writeOpF19LongBranch2 gop op cpu).pc = (cpu.Regs 14 + 2 * (op &&& 0x7FF)) % 2 ^ 32 ∧
    (writeOpF19LongBranch2 gop op cpu).Regs 14 = ((cpu.Regs 15 + 2 ^ 32 - 2) % 2 ^ 32) ||| 1 ∧
    (∀ a, a % 2 = 0 → a + 4 < 2 ^ 32 → cpu.Regs 15 = a + 4 →
      (writeOpF19LongBranch2 gop op cpu).Regs 14 = a + 2 + 1) ∧
    (writeOpF19LongBranch2 gop op cpu).Cpsr = cpu.Cpsr ∧
    regCpsr.T (writeOpF19LongBranch2 gop op cpu).Cpsr = regCpsr.T cpu.Cpsr ∧
    (∀ j, j ≠ 14 → (writeOpF19LongBranch2 gop op cpu).Regs j = cpu.Regs j) := by
  rw [longBranch2_bl_eq gop op cpu hbl]
  refine ⟨rfl, ?_, ?_, rfl, rfl, ?_⟩
  · simp [upd]
  · intro a ha ha4 h15
    have e : (a + 4 + 2 ^ 32 - 2) % 2 ^ 32 = a + 2 := by omega
    simp only [upd, if_true, h15, e]
    exact or_one_of_even (a + 2) (by omega)
  · intro j hj
    simp [upd, hj]

/-- C22 at the spec's scenario: the pair at `0x2000` / `0x2002` with prefix
offset 0, so `R14 = 0x2004` and R15 = `0x2006` at the suffix `0xF820`
(`imm11 = 0x20`): `pc = 0x2044`, `R14 = 0x2005`. -/
theorem writeOpF19LongBranch2_bl_spec_witness :
    (0xF800 >>> 12) &&& 1 ≠ 0 ∧
    (cpuLrPc 0x2004 0x2006).Regs 14 + 2 * (0xF820 &&& 0x7FF) = 0x2044 ∧
    (writeOpF19LongBranch2 0xF800 0xF820 (cpuLrPc 0x2004 0x2006)).Regs 14 = 0x2005 ∧
    ((writeOpF19LongBranch2 0xF800 0xF820 (cpuLrPc 0x2004 0x2006)).pc =
      ((cpuLrPc 0x2004 0x2006).Regs 14 + 2 * (0xF820 &&& 0x7FF)) % 2 ^ 32 ∧
    (writeOpF19LongBranch2 0xF800 0xF820 (cpuLrPc 0x2004 0x2006)).Regs 14 =
      (((cpuLrPc 0x2004 0x2006).Regs 15 + 2 ^ 32 - 2) % 2 ^ 32) ||| 1 ∧
    (∀ a, a % 2 = 0 → a + 4 < 2 ^ 32 → (cpuLrPc 0x2004 0x2006).Regs 15 = a + 4 →
      (writeOpF19LongBranch2 0xF800 0xF820 (cpuLrPc 0x2004 0x2006)).Regs 14 = a + 2 + 1) ∧
    (writeOpF19LongBranch2 0xF800 0xF820 (cpuLrPc 0x2004 0x2006)).Cpsr =
      (cpuLrPc 0x2004 0x2006).Cpsr ∧
    regCpsr.T (writeOpF19LongBranch2 0xF800 0xF820 (cpuLrPc 0x2004 0x2006)).Cpsr =
      regCpsr.T (cpuLrPc 0x2004 0x2006).Cpsr ∧
    (∀ j, j ≠ 14 →
      (writeOpF19LongBranch2 0xF800 0xF820 (cpuLrPc 0x2004 0x2006)).Regs j =
        (cpuLrPc 0x2004 0x2006).Regs j)) :=
  ⟨by decide, by decide, by decide,
    writeOpF19LongBranch2_bl_spec 0xF800 0xF820 (cpuLrPc 0x2004 0x2006) (by decide)⟩

/-- The spec's long-branch scenario, evaluated: the prefix `0xF000` at
`0x2000` (R15 = `0x2004`) leaves `R14 = 0x2004`; the suffix `0xF820` at
`0x2002` (R15 = `0x2006`) then gives `pc = 0x2044`, `R14 = 0x2005` and leaves
`T` set. -/
theorem writeOpF19LongBranch_scenario :
    (writeOpF19LongBranch1 0xF000 (cpuLrPc 0 0x2004)).Regs 14 = 0x2004 ∧
    (writeOpF19LongBranch2 0xF800 0xF820 (cpuLrPc 0x2004 0x2006)).pc = 0x2044 ∧
    (writeOpF19LongBranch2 0xF800 0xF820 (cpuLrPc 0x2004 0x2006)).Regs 14 = 0x2005 ∧
    regCpsr.T (writeOpF19LongBranch2 0xF800 0xF820 (cpuLrPc 0x2004 0x2006)).Cpsr = true := by
  decide

/-- Supporting C23: for every BLX suffix handler (bit 12 of the generator
argument clear) `T` is cleared and `pc` is `L + (imm11 << 1)` (mod 2^32) with
bit 1 cleared: bit 1 of `pc` is zero and bit 0 of `pc` is bit 0 of the prior
R14, so `pc` is a multiple of 4 when the prior R14 is even. -/
theorem writeOpF19LongBranch2_blx (gop op : Nat) (cpu : Cpu)
    (hblx : (gop >>> 12) &&& 1 = 0) :
    regCpsr.T (writeOpF19LongBranch2 gop op cpu).Cpsr = false ∧
    (writeOpF19LongBranch2 gop op cpu).pc =
      bitClear ((cpu.Regs 14 + 2 * (op &&& 0x7FF)) % 2 ^ 32) 2 ∧
    (writeOpF19LongBranch2 gop op cpu).pc.testBit 1 = false ∧
    (writeOpF19LongBranch2 gop op cpu).pc.testBit 0 = (cpu.Regs 14).testBit 0 ∧
    (cpu.Regs 14 % 2 = 0 → (writeOpF19LongBranch2 gop op cpu).pc % 4 = 0) := by
  rw [longBranch2_blx_eq gop op cpu hblx]
  refine ⟨?_, rfl, ?_, ?_, ?_⟩
  · simp [regCpsr.T, SetT, bit_setBit]
  · simp only [testBit_bitClear]
    have : Nat.testBit 2 1 = true := by decide
    simp [this]
  · simp only [testBit_bitClear]
    have : Nat.testBit 2 0 = false := by decide
    simp only [this, Bool.not_false, Bool.and_true, Nat.testBit_to_div_mod]
    congr 1
    simp only [Nat.pow_zero, Nat.div_one]
    apply propext
    omega
  · intro h
    exact bitClear_2_mod_4 _ (by omega)

/-- C23 at a failing input: the BLX suffix `0xE800` (`imm11 = 0`) run with
`R14 = 0x2005`, the value a BL at `0x2002` leaves there. `T` is cleared and
`pc = 0x2005`: bit 0 of `pc` is set, so `pc` is not a multiple of 4 in ARM
state. -/
theorem writeOpF19LongBranch2_blx_odd_lr :
    regCpsr.T (writeOpF19LongBranch2 0xE800 0xE800 (cpuLrPc 0x2005 0x2006)).Cpsr = false ∧
    (writeOpF19LongBranch2 0xE800 0xE800 (cpuLrPc 0x2005 0x2006)).pc = 0x2005 ∧
    (writeOpF19LongBranch2 0xE800 0xE800 (cpuLrPc 0x2005 0x2006)).pc % 4 = 1 := by
  decide

/-! ## The disassembler against the executor -/

/-- The F6 disassembly shows the word read at the `P` address,
`((pc + 2) &^ 2) + 4*imm8` (mod 2^32). -/
theorem disasmF6LdrPc_reads (RegNames : Nat → String) (op pc : Nat) (cpu : Cpu) :
    (disasmF6LdrPc RegNames op pc cpu).1 =
      mnemonic "ldr" ++ RegNames ((op >>> 8) &&& 7) ++ ", " ++ "= 0x" ++
        formatHex (read32 cpu.bus (disasmF6LdrPc.arg1 op pc)) ∧
    disasmF6LdrPc.arg1 op pc = (bitClear ((pc + 2) % 2 ^ 32) 2 + 4 * (op &&& 0xFF)) % 2 ^ 32 := by
  refine ⟨rfl, ?_⟩
  have h8 : op &&& 0xFF = op % 256 := Nat.and_pow_two_sub_one_eq_mod op 8
  unfold disasmF6LdrPc.arg1
  simp only [u32, h8]
  omega

/-- Supporting C24: at an instruction address `a` with `a % 4 = 2` the
disassembler's `P` address is the executor's effective address; at a
word-aligned `a` it is the executor's address minus 4 (mod 2^32). -/
theorem disasmF6LdrPc_vs_executor (op a : Nat) :
    (a % 4 = 2 → disasmF6LdrPc.arg1 op a = writeOpF6LdrPc.addr op a) ∧
    (a % 4 = 0 → (disasmF6LdrPc.arg1 op a + 4) % 2 ^ 32 = writeOpF6LdrPc.addr op a) := by
  have h8 : op &&& 0xFF = op % 256 := Nat.and_pow_two_sub_one_eq_mod op 8
  unfold disasmF6LdrPc.arg1 writeOpF6LdrPc.addr
  simp only [bitClear_2, u32, h8]
  constructor <;> intro ha <;> omega

/-- C24 at a failing input: the F6 opcode `0x4B01` (`LDR R3, [PC, #4]`) at the
instruction address `0x100`, with `0xDEADBEEF` at address `0x108`. The
executor (R15 = `0x104`) loads from `0x108` and sets `R3 = 0xDEADBEEF`; the
disassembler reads at `0x104` and displays the word there, 0. -/
theorem disasmF6LdrPc_wrong_address :
    disasmF6LdrPc.arg1 0x4B01 0x100 = 0x104 ∧
    writeOpF6LdrPc.addr 0x4B01 0x100 = 0x108 ∧
    (disasmF6LdrPc regName 0x4B01 0x100 cpuLdrPc).1 = "ldr       r3, = 0x0" ∧
    cpuLdrPc.Regs 15 = 0x100 + 4 ∧
    (writeOpF6LdrPc 0x4B00 0x4B01 cpuLdrPc).Regs 3 = 0xDEADBEEF := by
  decide

/-- Supporting C25: for BX / BLX the operand the disassembler names is
`RegNames[(op&7) | (op&0x80)>>4]`, the destination field of the other F5
instructions. -/
theorem disasmF5HiReg_bx (RegNames : Nat → String) (gop op : Nat)
    (hop : (gop >>> 8) &&& 3 = 3) :
    disasmF5HiReg RegNames gop op =
      mnemonic (if op &&& 0x80 ≠ 0 then "blx" else "bx") ++
        RegNames ((op &&& 7) ||| ((op &&& 0x80) >>> 4)) := by
  unfold disasmF5HiReg disasmF5HiReg.arg0
  simp only [hop]
  simp +decide only [if_false]
  split_ifs <;> rfl

/-- C25 at a failing input: `BX R1` (opcode `0x4708`) with `R0 = 0x1000` and
`R1 = 0x2000`. The executor reads its target from index `(op>>3)&0xF = 1` and
sets `pc = 0x2000`; the disassembler names index 0 and prints `bx r0`. -/
theorem disasmF5HiReg_bx_names_rd :
    disasmF5HiReg regName 0x4700 0x4708 = "bx        r0" ∧
    disasmF5HiReg.arg0 0x4708 = 0 ∧
    (0x4708 >>> 3) &&& 0xF = 1 ∧
    (writeOpF5HiReg 0x4700 0x4708 (cpuR0R1 0x1000 0x2000)).pc = 0x2000 := by
  decide

/-! ## F4: NEG and ASR by register -/

/-- Supporting C26: for every 32-bit `rs` the NEG handler (generator opcode 9)
returns, writes `Rd = (0 - rs) mod 2^32`, sets `V` by `SetVSub(0, rs, res)`
and `N`, `Z` from the word written, and sets `C` to 1 whatever `rs` is. -/
theorem WriteAluOp_neg (gop op : Nat) (cpu : Cpu) (rs : Nat)
    (hgop : gop >>> 10 = 0x10) (h9 : (gop >>> 6) &&& 0xF = 9)
    (hrs : cpu.Regs ((op >>> 3) &&& 0x7) = rs) (hrs32 : rs < 2 ^ 32) :
    ∃ cpu', WriteAluOp gop op cpu = some cpu' ∧
      cpu'.Regs (op &&& 0x7) = (2 ^ 32 - rs) % 2 ^ 32 ∧
      regCpsr.C cpu'.Cpsr = true ∧
      regCpsr.V cpu'.Cpsr =
        decide (((0 ^^^ rs) &&& (0 ^^^ ((2 ^ 32 - rs) % 2 ^ 32))) >>> 31 ≠ 0) ∧
      regCpsr.N cpu'.Cpsr = (cpu'.Regs (op &&& 0x7)).testBit 31 ∧
      regCpsr.Z cpu'.Cpsr = decide (cpu'.Regs (op &&& 0x7) = 0) := by
  have hus : u32 rs = rs := by rw [u32]; omega
  have hg : ¬ gop >>> 10 ≠ 0x10 := by simp [hgop]
  have hres : u32 (0 + 2 ^ 32 - rs) = (2 ^ 32 - rs) % 2 ^ 32 := by simp only [u32]; omega
  have hlt : (2 ^ 32 - rs) % 2 ^ 32 < 2 ^ 32 := Nat.mod_lt _ (by norm_num)
  generalize hr : (2 ^ 32 - rs) % 2 ^ 32 = res at hres hlt
  unfold WriteAluOp
  simp only [if_neg hg, h9, hrs, hus, hres]
  simp +decide only [if_false, if_true]
  refine ⟨_, rfl, ?_, ?_, ?_, ?_, ?_⟩
  · simp [upd]
  · simp [regCpsr.C, SetNZ, SetVSub, SetC, bit_setBit]
  · simp only [regCpsr.V, SetNZ, SetVSub, SetC, bit_setBit]
    simp
  · simp only [regCpsr.N, SetNZ, SetVSub, SetC, bit_setBit, upd]
    simpa using shr31_ne_zero _ hlt
  · simp [regCpsr.Z, SetNZ, SetVSub, SetC, bit_setBit, upd]

/-- C26 at a failing input: `NEGS R0, R1` (opcode `0x4248`) with `R1 = 1` and
the carry clear. The handler writes `R0 = 0xFFFFFFFF` and sets `C = 1`, where
the subtraction rule `C = (res <= 0)`, no borrow, gives `C = 0` for `rs = 1`. -/
theorem WriteAluOp_neg_sets_carry :
    regCpsr.C (cpuR0R1 0 1).Cpsr = false ∧
    (WriteAluOp 0x4240 0x4248 (cpuR0R1 0 1)).map
        (fun c => (c.Regs 0, regCpsr.C c.Cpsr, regCpsr.V c.Cpsr, regCpsr.N c.Cpsr,
          regCpsr.Z c.Cpsr)) =
      some (0xFFFFFFFF, true, false, true, false) ∧
    decide (0xFFFFFFFF ≤ 0) = false ∧ decide (1 = 0) = false := by
  decide

/-- Supporting C27: for every 32-bit `rd` and `rs`, with `n = rs & 0xFF`, the
ASR-by-register handler (generator opcode 4) returns and writes
`Rd = uint32(int32(rd) >> n)`; `n = 0` leaves `Rd` and `C` as they were; for
`n` in 1..32 `C` is bit `n - 1` of `rd`; for `n ≥ 32` `Rd` is 0 or `0xFFFFFFFF`
by the sign bit of `rd`; for `n ≥ 33` `C` is 0 whatever `rd` is. -/
theorem WriteAluOp_asr (gop op : Nat) (cpu : Cpu) (rd rs : Nat)
    (hgop : gop >>> 10 = 0x10) (h4 : (gop >>> 6) &&& 0xF = 4)
    (hrd : cpu.Regs (op &&& 0x7) = rd) (hrs : cpu.Regs ((op >>> 3) &&& 0x7) = rs)
    (hrd32 : rd < 2 ^ 32) (hrs32 : rs < 2 ^ 32) :
    ∃ cpu', WriteAluOp gop op cpu = some cpu' ∧
      cpu'.Regs (op &&& 0x7) = ofInt32 (toInt32 rd >>> (rs &&& 0xFF)) ∧
      (rs &&& 0xFF = 0 →
        cpu'.Regs (op &&& 0x7) = rd ∧ regCpsr.C cpu'.Cpsr = regCpsr.C cpu.Cpsr) ∧
      (1 ≤ rs &&& 0xFF → rs &&& 0xFF ≤ 32 →
        regCpsr.C cpu'.Cpsr = rd.testBit ((rs &&& 0xFF) - 1)) ∧
      (32 ≤ rs &&& 0xFF →
        cpu'.Regs (op &&& 0x7) = if rd.testBit 31 = true then 0xFFFFFFFF else 0) ∧
      (33 ≤ rs &&& 0xFF → regCpsr.C cpu'.Cpsr = false) := by
  have hud : u32 rd = rd := by rw [u32]; omega
  have hus : u32 rs = rs := by rw [u32]; omega
  have hg : ¬ gop >>> 10 ≠ 0x10 := by simp [hgop]
  generalize hn : rs &&& 0xFF = n
  unfold WriteAluOp
  simp only [if_neg hg, h4, hrd, hrs, hud, hus, hn]
  simp +decide only [if_false, if_true]
  by_cases h0 : n = 0
  · subst h0
    have e : ofInt32 (toInt32 rd >>> (0 : Nat)) = rd := by
      rw [Int.shiftRight_eq_div_pow]
      unfold ofInt32 toInt32
      split_ifs <;> simp <;> omega
    refine ⟨_, rfl, ?_, ?_, ?_, ?_, ?_⟩
    · simp [upd]
    · intro _
      refine ⟨by simp [upd, e], ?_⟩
      simp [regCpsr.C, SetNZ, bit_setBit]
    · intro h; omega
    · intro h; omega
    · intro h; omega
  · have h1 : 1 ≤ n := by omega
    simp only [if_pos h0, shift_carry_test rd n h1]
    refine ⟨_, rfl, ?_, ?_, ?_, ?_, ?_⟩
    · simp [upd]
    · intro h; omega
    · intro _ h32
      simp [regCpsr.C, SetNZ, SetC, bit_setBit, h32]
    · intro h32
      simp only [upd, if_true]
      exact toInt32_shr_ge32 rd n hrd32 h32
    · intro h33
      have : ¬ n ≤ 32 := by omega
      simp [regCpsr.C, SetNZ, SetC, bit_setBit, this]

/-- C27 at a failing input: `ASRS R0, R1` (opcode `0x4108`) with
`R0 = 0x80000000`, `R1 = 33` and the carry set. The handler writes
`R0 = 0xFFFFFFFF` and sets `C = 0`, where the last bit shifted out, bit 31 of
`rd`, is 1. -/
theorem WriteAluOp_asr_33_clears_carry :
    (cpuR0R1C 0x80000000 33).Regs 1 &&& 0xFF = 33 ∧
    Nat.testBit ((cpuR0R1C 0x80000000 33).Regs 0) 31 = true ∧
    (WriteAluOp 0x4100 0x4108 (cpuR0R1C 0x80000000 33)).map
        (fun c => (c.Regs 0, regCpsr.C c.Cpsr)) = some (0xFFFFFFFF, false) := by
  decide

/-! ## F14: PUSH then POP -/

/-- C28: PUSH followed by POP with the same register list is the identity on
registers. For every list of low registers (R bit clear; the PUSH and the POP
opcode agree on `op & 0x1FF`), every register file of 32-bit words and every
bus: the PUSH handler returns, having lowered SP by `4 * popcount(L)`
(mod 2^32) and stored each listed register at `new SP + 4 * (number of listed
registers below it)`, that is in ascending register order at ascending
addresses from the new SP; the POP handler run on the resulting state returns,
and every register, R0..R7 and SP included, then has its value from before
the PUSH. -/
theorem writeOpF14PushPop_push_pop (gpush gpop opPush opPop : Nat) (cpu : Cpu)
    (hpush : (gpush >>> 11) &&& 1 = 0) (hpop : (gpop >>> 11) &&& 1 ≠ 0)
    (hL : opPush &&& 0x1FF = opPop &&& 0x1FF) (hR : opPush.testBit 8 = false)
    (hregs : ∀ i, i < 16 → cpu.Regs i < 2 ^ 32) :
    ∃ c1 c2, writeOpF14PushPop gpush opPush cpu = some c1 ∧
      writeOpF14PushPop gpop opPop c1 = some c2 ∧
      c1.Regs 13 = (cpu.Regs 13 + 2 ^ 32 - 4 * popcount16 (opPush &&& 0x1FF)) % 2 ^ 32 ∧
      (∀ i, i < 8 → opPush.testBit i = true →
        c1.bus ((c1.Regs 13 + 4 * bitsBelow opPush i) % 2 ^ 32) = cpu.Regs i) ∧
      (∀ i, c2.Regs i = cpu.Regs i) := by
  have hcnt : popcount16 (opPush &&& 0x1FF) = bitsBelow opPush 8 := by
    rw [popcount16_and_1FF, bitsBelow_succ, hR]; simp
  have hle := bitsBelow_le opPush 8
  obtain ⟨c1, p1, p2, p3, p4⟩ := writeOpF14PushPop_push_low gpush opPush cpu hpush hR
  obtain ⟨c2, q1, q2, q3, q4⟩ := writeOpF14PushPop_pop_low gpop opPush c1 hpop hR
  have hu : ∀ i, i < 16 → u32 (cpu.Regs i) = cpu.Regs i := by
    intro i hi
    have := hregs i hi
    rw [u32]; omega
  refine ⟨c1, c2, p1, ?_, ?_, ?_, ?_⟩
  · rw [← writeOpF14PushPop_list gpop opPush opPop c1 hL]
    exact q1
  · rw [p2, hcnt]
  · intro i hi hbi
    rw [p4 i hi hbi, hu i (by omega)]
  · intro i
    by_cases h13 : i = 13
    · subst h13
      have := hregs 13 (by omega)
      rw [q2, p2]
      omega
    · by_cases hl : i < 8 ∧ opPush.testBit i = true
      · rw [q3 i hl.1 hl.2, read32, p4 i hl.1 hl.2, hu i (by omega)]
        have := hregs i (by omega)
        rw [u32]; omega
      · rw [q4 i h13, p3 i h13]
        by_cases h8 : i < 8
        · right
          have : ¬ opPush.testBit i = true := fun h => hl ⟨h8, h⟩
          simpa using this
        · left; omega

/-- C28 at a concrete input: `PUSH {R0, R1}` (opcode `0xB403`) then
`POP {R0, R1}` (opcode `0xBC03`) with `R0 = 0x11`, `R1 = 0x22` and
SP = `0x1000`: after the PUSH, SP = `0xFF8` with `0x11` at `0xFF8` and `0x22`
at `0xFFC`. -/
theorem writeOpF14PushPop_push_pop_witness :
    ((0xB400 >>> 11) &&& 1 = 0 ∧ (0xBC00 >>> 11) &&& 1 ≠ 0 ∧
      0xB403 &&& 0x1FF = 0xBC03 &&& 0x1FF ∧ Nat.testBit 0xB403 8 = false ∧
      ∀ i, i < 16 → cpuPushPop.Regs i < 2 ^ 32) ∧
    (writeOpF14PushPop 0xB400 0xB403 cpuPushPop).map
        (fun c => (c.Regs 13, c.bus 0xFF8, c.bus 0xFFC)) = some (0xFF8, 0x11, 0x22) ∧
    ∃ c1 c2, writeOpF14PushPop 0xB400 0xB403 cpuPushPop = some c1 ∧
      writeOpF14PushPop 0xBC00 0xBC03 c1 = some c2 ∧
      c1.Regs 13 = (cpuPushPop.Regs 13 + 2 ^ 32 - 4 * popcount16 (0xB403 &&& 0x1FF)) % 2 ^ 32 ∧
      (∀ i, i < 8 → Nat.testBit 0xB403 i = true →
        c1.bus ((c1.Regs 13 + 4 * bitsBelow 0xB403 i) % 2 ^ 32) = cpuPushPop.Regs i) ∧
      (∀ i, c2.Regs i = cpuPushPop.Regs i) :=
  ⟨⟨by decide, by decide, by decide, by decide, by decide⟩, by decide,
    writeOpF14PushPop_push_pop 0xB400 0xBC00 0xB403 0xBC03 cpuPushPop
      (by decide) (by decide) (by decide) (by decide) (by decide)⟩

end Thumb

end NdsEmu
